import Mathlib

/-! BLUE_PILL_RTC: the STM32F10x real-time-clock driver.

A shallow embedding of `src/RTC/src/STM32LIBS_RTC.cpp` (with the constants of
`STM32LIBS_RTC.h` and `STM32LIBS_REGS.h`) and of the conversions and backup
register methods of the second driver, `src/src/blue_pill_rtc.cpp`.

Machine integers are natural numbers (or integers where the C expression is
signed) with the wrap of their C type written out: `uint32_t` values are
reduced modulo `2^32`, `uint16_t` modulo `2^16`, `uint8_t` modulo `2^8`.
Memory-mapped registers are cells of a register file: a store writes the
cell, a load reads it.
-/

namespace STM32LIBS_RTC

/-! ## Constants of `STM32LIBS_RTC.h` -/

/-- Macro `#define SECS_PER_MIN 60`. -/
def SECS_PER_MIN : Nat := 60

/-- Macro `#define SECS_PER_HOUR (SECS_PER_MIN * 60)`. -/
def SECS_PER_HOUR : Nat := SECS_PER_MIN * 60

/-- Macro `#define SECS_PER_DAY SECS_PER_HOUR * 24`.  The macro has no parentheses of
its own; every use in the driver (`_year * (SECS_PER_DAY * 365)`,
`SECS_PER_DAY * 29`, `SECS_PER_DAY * monthDays[i-1]`,
`(datetime->day-1) * SECS_PER_DAY`, `(SECS_PER_DAY / 2)`) is a chain of
multiplications, or an exact division, whose value does not depend on the
grouping, so the constant stands for `86400` everywhere. -/
def SECS_PER_DAY : Nat := SECS_PER_HOUR * 24

/-- Table `const uint8_t monthDays[]={31,28,31,30,31,30,31,31,30,31,30,31};`. -/
def monthDays : List Nat := [31, 28, 31, 30, 31, 30, 31, 31, 30, 31, 30, 31]

/-- A read `monthDays[k]`.  The table has 12 entries; C gives no meaning to a
read at `k >= 12`, and what such a read returns is whatever byte follows the
table in memory: that memory is the argument `past`. -/
def monthDaysAt (past : Nat → Nat) (k : Nat) : Nat :=
  if k < 12 then monthDays.getD k 0 else past k % 2 ^ 8

/-- Macro `IS_LEAP_YEAR(Y)`, with `Y` the number of years since 1970:
`((1970+(Y))>0) && !((1970+(Y))%4) && (((1970+(Y))%100) || !((1970+(Y))%400))`. -/
def IS_LEAP_YEAR (Y : Nat) : Bool :=
  decide (0 < 1970 + Y) && (1970 + Y) % 4 == 0
    && ((1970 + Y) % 100 != 0 || (1970 + Y) % 400 == 0)

/-- Constant `RTC_HOUR_FORMAT_12`, first member of the hour-format enum. -/
def RTC_HOUR_FORMAT_12 : Nat := 0
/-- Constant `RTC_HOUR_FORMAT_24`. -/
def RTC_HOUR_FORMAT_24 : Nat := 1
/-- Constant `RTC_HOUR_FORMAT_UNDEF`. -/
def RTC_HOUR_FORMAT_UNDEF : Nat := 2
/-- Constant `RTC_HOUR_AM`. -/
def RTC_HOUR_AM : Nat := 0
/-- Constant `RTC_HOUR_PM`. -/
def RTC_HOUR_PM : Nat := 1

/-- The struct `RTC_datetime_t`, fields in the order of the header.  `year` is
a `uint16_t`, `epoch` a `uint32_t`, every other field a `uint8_t`. -/
structure RTC_datetime_t where
  hour_format : Nat
  am_pm : Nat
  seconds : Nat
  minutes : Nat
  hours : Nat
  epoch : Nat
  day : Nat
  weekday : Nat
  month : Nat
  year : Nat
  deriving DecidableEq, Repr

/-! ## Machine arithmetic -/

/-- Conversion of a signed value to `uint32_t`. -/
def wrap32 (x : Int) : Nat := (x % 2 ^ 32).toNat

/-- Conversion of a signed value to `int16_t` (two's complement). -/
def toInt16 (x : Int) : Int := (x + 2 ^ 15) % 2 ^ 16 - 2 ^ 15

/-! ## `dateTimeToEpoch` -/

/-- The loop `for (i = 0; i < _year; i++) if (IS_LEAP_YEAR(i)) _seconds += SECS_PER_DAY;`
on the `uint32_t` accumulator `_seconds`. -/
def leapYearLoop (_year : Nat) (_seconds : Nat) : Nat :=
  (List.range _year).foldl
    (fun acc i => if IS_LEAP_YEAR i then (acc + SECS_PER_DAY) % 2 ^ 32 else acc) _seconds

/-- The loop `for (i = 1; i < datetime->month; i++)` of `dateTimeToEpoch`:
February of a leap year adds `SECS_PER_DAY * 29`, every other month
`SECS_PER_DAY * monthDays[i-1]`. -/
def monthSecondsLoop (past : Nat → Nat) (_year month : Nat) (_seconds : Nat) : Nat :=
  (List.range' 1 (month - 1)).foldl
    (fun acc i =>
      if i == 2 && IS_LEAP_YEAR _year then (acc + SECS_PER_DAY * 29) % 2 ^ 32
      else (acc + SECS_PER_DAY * monthDaysAt past (i - 1)) % 2 ^ 32) _seconds

/-- Method `STM32LIBS_RTC::dateTimeToEpoch`: the returned epoch, paired with the struct
after the store `datetime->epoch = _seconds`.

`_year` is an `int16_t`: the difference `datetime->year - 1970` is converted to
16 bits and a negative value is replaced by 0.  The product
`_year * (SECS_PER_DAY * 365)` is an `int` product assigned to the `uint32_t`
accumulator; it is taken modulo `2^32` (the two's-complement result of the
32-bit multiply).  `(datetime->day-1) * SECS_PER_DAY` is an `int` too, negative
for `day = 0`, and is added modulo `2^32`. -/
def dateTimeToEpoch (past : Nat → Nat) (datetime : RTC_datetime_t) : Nat × RTC_datetime_t :=
  let y16 : Int := toInt16 ((datetime.year : Int) - 1970)
  let _year : Nat := if y16 < 0 then 0 else y16.toNat
  let _seconds := wrap32 ((_year : Int) * ((SECS_PER_DAY : Int) * 365))
  let _seconds := leapYearLoop _year _seconds
  let _seconds := monthSecondsLoop past _year datetime.month _seconds
  let _seconds := wrap32 ((_seconds : Int) + ((datetime.day : Int) - 1) * (SECS_PER_DAY : Int))
  let _seconds := (_seconds + datetime.hours * SECS_PER_HOUR) % 2 ^ 32
  let _seconds := (_seconds + datetime.minutes * SECS_PER_MIN) % 2 ^ 32
  let _seconds := (_seconds + datetime.seconds) % 2 ^ 32
  (_seconds, { datetime with epoch := _seconds })

/-! ## `epochToDateTime` -/

/-- The loop
`while((unsigned)(_days += (IS_LEAP_YEAR(datetime->year) ? 366 : 365)) <= _time) datetime->year++;`
on the `uint32_t` `_days` and the `uint16_t` `datetime->year`; it returns
`(_days, datetime->year)` as they stand when the test fails.  The first
argument bounds the number of passes: every pass adds at least 365 to `_days`,
and `epochToDateTime` supplies `_time + 1` passes. -/
def yearLoop (_time : Nat) : Nat → Nat → Nat → Nat × Nat
  | 0, _days, year => (_days, year)
  | n + 1, _days, year =>
    let _days := (_days + (if IS_LEAP_YEAR year then 366 else 365)) % 2 ^ 32
    if _days ≤ _time then yearLoop _time n _days ((year + 1) % 2 ^ 16) else (_days, year)

/-- The loop `for (_month=0; _month<12; _month++)` of `epochToDateTime` with its
`break`; the first argument is `12 - _month`, the passes left.  It returns
`(_month, _time)` at the exit.  `monthLength` is read from `monthDays[_month]`
with `_month < 12`. -/
def monthLoop (year : Nat) : Nat → Nat → Nat → Nat × Nat
  | 0, _month, _time => (_month, _time)
  | n + 1, _month, _time =>
    let monthLength :=
      if _month == 1 then (if IS_LEAP_YEAR year then 29 else 28) else monthDays.getD _month 0
    if _time ≥ monthLength then monthLoop year n (_month + 1) (_time - monthLength)
    else (_month, _time)

/-- Method `STM32LIBS_RTC::epochToDateTime`, for a `uint32_t` argument `_epoch`.  The
fields `hour_format` and `am_pm` of the struct are not written. -/
def epochToDateTime (datetime : RTC_datetime_t) (_epoch : Nat) : RTC_datetime_t :=
  let _time := _epoch
  let seconds := _time % 60
  let _time := _time / 60
  let minutes := _time % 60
  let _time := _time / 60
  let hours := _time % 24
  let _time := _time / 24
  let weekday := ((_time + 4) % 7) % 2 ^ 8
  let exit := yearLoop _time (_time + 1) 0 0
  let year := exit.2
  let _days := (exit.1 + 2 ^ 32 - (if IS_LEAP_YEAR year then 366 else 365)) % 2 ^ 32
  let _time := (_time + 2 ^ 32 - _days) % 2 ^ 32
  let brk := monthLoop year 12 0 _time
  let _month := brk.1
  let _time := brk.2
  { datetime with
    epoch := _epoch
    seconds := seconds
    minutes := minutes
    hours := hours
    weekday := weekday
    year := (year + 1970) % 2 ^ 16
    month := (_month + 1) % 2 ^ 8
    day := (_time + 1) % 2 ^ 8 }

/-! ## Registers (`STM32LIBS_REGS.h`) and status codes -/

/-- Constant `RTOFF`, bit 5 of `RTC_CRL`: the last write to the RTC registers is complete. -/
def RTOFF : Nat := 0x0020
/-- Constant `CNF`, bit 4 of `RTC_CRL`: configuration mode. -/
def CNF : Nat := 0x0010
/-- Constant `RSF`, bit 3 of `RTC_CRL`: registers synchronised. -/
def RSF : Nat := 0x0008
/-- Constant `RTC_CRL_ALARMF`, bit 1 of `RTC_CRL`: pending alarm flag. -/
def RTC_CRL_ALARMF : Nat := 0x0002
/-- Constant `RTOFF_RSF`, the two bits `RTOFF` and `RSF`. -/
def RTOFF_RSF : Nat := 0x0028
/-- Constant `RTC_ALRIE`, bit 1 of `RTC_CRH`: alarm interrupt enable. -/
def RTC_ALRIE : Nat := 0x0002
/-- Constant `RTC_SECIE`, bit 0 of `RTC_CRH`: seconds interrupt enable. -/
def RTC_SECIE : Nat := 0x0001
/-- Constant `EXTI_LINE17`, the RTC alarm line of the external interrupt controller. -/
def EXTI_LINE17 : Nat := 0x00020000

/-- Constant `BACKUP_TIME_SET_FLAG`, bit 0 of status word 0. -/
def BACKUP_TIME_SET_FLAG : Nat := 0x0001
/-- Constant `BACKUP_ALARM_SET_FLAG`, bit 1 of status word 0. -/
def BACKUP_ALARM_SET_FLAG : Nat := 0x0002
/-- Constant `BACKUP_CONFIGURED_FLAG`, bit 2 of status word 0. -/
def BACKUP_CONFIGURED_FLAG : Nat := 0x0004

/-- Constant `RTC_OK`, first member of the status enum. -/
def RTC_OK : Nat := 0
/-- Constant `RTC_TIME_NOT_SET`. -/
def RTC_TIME_NOT_SET : Nat := 1
/-- Constant `RTC_ALARM_IS_SET`. -/
def RTC_ALARM_IS_SET : Nat := 2
/-- Constant `RTC_FAIL_LSERDY`. -/
def RTC_FAIL_LSERDY : Nat := 3
/-- Constant `RTC_FAIL_CONFIG_ENTER`. -/
def RTC_FAIL_CONFIG_ENTER : Nat := 4
/-- Constant `RTC_FAIL_CONFIG_EXIT`. -/
def RTC_FAIL_CONFIG_EXIT : Nat := 5
/-- Constant `RTC_TIMEOUT`. -/
def RTC_TIMEOUT : Nat := 6
/-- Constant `RTC_INVALID_PARAM`. -/
def RTC_INVALID_PARAM : Nat := 7

/-- Macro `#define REG_TIMEOUT 2000`. -/
def REG_TIMEOUT : Nat := 2000

/-- Constant `CONFIG_ENTER`, first member of the configure enum. -/
def CONFIG_ENTER : Nat := 0
/-- Constant `CONFIG_EXIT`. -/
def CONFIG_EXIT : Nat := 1

/-- The complement `~m` of a mask in a 32-bit register operation. -/
def not32 (m : Nat) : Nat := 0xFFFFFFFF ^^^ m

/-- The low 16 bits of the complement `~m`, as they reach a `uint16_t` operand. -/
def not16 (m : Nat) : Nat := 0xFFFF ^^^ m

/-- The state the driver works on: the memory-mapped registers it touches, each
a 32-bit cell; the hardware backup data registers `pb->bkup_regs[i]`; the
driver's in-memory mirror `_RTC_BackupRegs` of 16-bit words; the global
interrupt enable (set by `__enable_irq`, cleared by `__disable_irq`); and
`tick`, the number of observations of the environment made so far. -/
structure RTC where
  RTC_CRH : Nat
  RTC_CRL : Nat
  RTC_CNTH : Nat
  RTC_CNTL : Nat
  RTC_ALRH : Nat
  RTC_ALRL : Nat
  EXTI_IMR : Nat
  EXTI_RTSR : Nat
  PWR_CR : Nat
  RCC_APB1ENR : Nat
  RCC_BDCR : Nat
  bkup_regs : Nat → Nat
  _RTC_BackupRegs : Nat → Nat
  irq : Bool
  tick : Nat

/-- The state with every cell zero and interrupts enabled. -/
def RTC.zero : RTC :=
  { RTC_CRH := 0, RTC_CRL := 0, RTC_CNTH := 0, RTC_CNTL := 0, RTC_ALRH := 0, RTC_ALRL := 0,
    EXTI_IMR := 0, EXTI_RTSR := 0, PWR_CR := 0, RCC_APB1ENR := 0, RCC_BDCR := 0,
    bkup_regs := fun _ => 0, _RTC_BackupRegs := fun _ => 0, irq := true, tick := 0 }

/-- Every cell holds a value of its width: 32 bits for a register, 16 bits for
a word of the mirror. -/
def RTC.InRange (s : RTC) : Prop :=
  s.RTC_CRH < 2 ^ 32 ∧ s.RTC_CRL < 2 ^ 32 ∧ s.RTC_CNTH < 2 ^ 32 ∧ s.RTC_CNTL < 2 ^ 32 ∧
  s.RTC_ALRH < 2 ^ 32 ∧ s.RTC_ALRL < 2 ^ 32 ∧ s.EXTI_IMR < 2 ^ 32 ∧ s.EXTI_RTSR < 2 ^ 32 ∧
  (∀ i, s.bkup_regs i < 2 ^ 32) ∧ (∀ i, s._RTC_BackupRegs i < 2 ^ 16)

/-- What the driver cannot control.  `millis n` is the value of the Arduino
millisecond counter at observation `n`.  `hw n v` is the content of `RTC_CRL`
that the hardware presents at observation `n` when the cell held `v`: the
hardware raises and lowers status bits (`RTOFF`, `RSF`, the flags) on its own
between two polls of a wait loop. -/
structure Env where
  millis : Nat → Nat
  hw : Nat → Nat → Nat

/-! ## Status flags and the backup registers -/

/-- Method `isConfigured()`: `(_RTC_BackupRegs[0] & BACKUP_CONFIGURED_FLAG) > 0`. -/
def isConfigured (s : RTC) : Bool := decide ((s._RTC_BackupRegs 0 &&& BACKUP_CONFIGURED_FLAG) > 0)

/-- Method `isAlarmEnabled()`: `(_RTC_BackupRegs[0] & BACKUP_ALARM_SET_FLAG) > 0`. -/
def isAlarmEnabled (s : RTC) : Bool := decide ((s._RTC_BackupRegs 0 &&& BACKUP_ALARM_SET_FLAG) > 0)

/-- Method `isTimeSet()`: `(_RTC_BackupRegs[0] & BACKUP_TIME_SET_FLAG) > 0`. -/
def isTimeSet (s : RTC) : Bool := decide ((s._RTC_BackupRegs 0 &&& BACKUP_TIME_SET_FLAG) > 0)

/-- Method `STM32LIBS_RTC::setBackup(indx, len)`: copies mirror words to the hardware
registers, `while(len > 0) { if(indx > 9) break; pb->bkup_regs[indx] =
_RTC_BackupRegs[indx]; indx++; len--; }`, with `indx` a `uint8_t`. -/
def setBackup (indx : Nat) : Nat → RTC → RTC
  | 0, s => s
  | len + 1, s =>
    if indx > 9 then s
    else setBackup ((indx + 1) % 2 ^ 8) len
      { s with bkup_regs := Function.update s.bkup_regs indx (s._RTC_BackupRegs indx) }

/-- Method `STM32LIBS_RTC::getBackup(indx, len)`: loads mirror words from the hardware
registers, `_RTC_BackupRegs[indx] = (uint16_t)(pb->bkup_regs[indx] & 0xFFFF)`. -/
def getBackup (indx : Nat) : Nat → RTC → RTC
  | 0, s => s
  | len + 1, s =>
    if indx > 9 then s
    else getBackup ((indx + 1) % 2 ^ 8) len
      { s with _RTC_BackupRegs :=
          Function.update s._RTC_BackupRegs indx ((s.bkup_regs indx &&& 0xFFFF) % 2 ^ 16) }

/-- Method `STM32LIBS_RTC::_statusFlagChange(sbit, fset)`: `_RTC_BackupRegs[0] |= sbit`
or `_RTC_BackupRegs[0] &= ~sbit` on the 16-bit word, then `setBackup(0, 1)`. -/
def _statusFlagChange (sbit : Nat) (fset : Bool) (s : RTC) : RTC :=
  let w :=
    if fset then (s._RTC_BackupRegs 0 ||| sbit) % 2 ^ 16
    else (s._RTC_BackupRegs 0 &&& not16 sbit) % 2 ^ 16
  setBackup 0 1 { s with _RTC_BackupRegs := Function.update s._RTC_BackupRegs 0 w }

/-! ## The configuration gate -/

/-- One of the two wait loops of `rtc_config`:
`while(busy(RTC_CRL)) { if(millis() - tmo > REG_TIMEOUT) { retn = fail; break; } }`.
Each pass reads the volatile `RTC_CRL` (the hardware acts first), and, while
the register is busy, reads `millis()` and compares the elapsed time, a
`uint32_t` difference, with `REG_TIMEOUT`.  The first argument bounds the number
of polls; `none` means the loop is still waiting after that many polls. -/
def pollLoop (env : Env) (tmo : Nat) (busy : Nat → Bool) (fail : Nat) :
    Nat → RTC → Option (Nat × RTC)
  | 0, _ => none
  | n + 1, s =>
    let crl := env.hw s.tick s.RTC_CRL % 2 ^ 32
    let s := { s with RTC_CRL := crl, tick := s.tick + 1 }
    if busy crl then
      let now := env.millis s.tick % 2 ^ 32
      let s := { s with tick := s.tick + 1 }
      if (now + 2 ^ 32 - tmo) % 2 ^ 32 > REG_TIMEOUT then some (fail, s)
      else pollLoop env tmo busy fail n s
    else some (RTC_OK, s)

/-- Method `STM32LIBS_RTC::rtc_config(_config)`; `fuel` bounds the polls of its wait
loop.  `CONFIG_ENTER` waits while `(RTC_CRL & RTOFF) == 0` and, if the wait did
not time out, sets `CNF` and clears `RSF`.  `CONFIG_EXIT` clears `CNF` and waits
while `(RTC_CRL & RTOFF_RSF) != RTOFF_RSF`.  Any other argument falls through
the `switch`. -/
def rtc_config (env : Env) (fuel : Nat) (_config : Nat) (s : RTC) : Option (Nat × RTC) :=
  let tmo := env.millis s.tick % 2 ^ 32
  let s := { s with tick := s.tick + 1 }
  if _config = CONFIG_ENTER then
    match pollLoop env tmo (fun crl => crl &&& RTOFF == 0) RTC_FAIL_CONFIG_ENTER fuel s with
    | none => none
    | some (retn, s) =>
      if retn = RTC_OK then
        let s := { s with RTC_CRL := s.RTC_CRL ||| CNF }
        let s := { s with RTC_CRL := s.RTC_CRL &&& not32 RSF }
        some (retn, s)
      else some (retn, s)
  else if _config = CONFIG_EXIT then
    let s := { s with RTC_CRL := s.RTC_CRL &&& not32 CNF }
    pollLoop env tmo (fun crl => crl &&& RTOFF_RSF != RTOFF_RSF) RTC_FAIL_CONFIG_EXIT fuel s
  else some (RTC_OK, s)

/-! ## Epoch, date and time -/

/-- Method `STM32LIBS_RTC::getEpoch`: `(RTC_CNTH << 16UL) | RTC_CNTL`, a `uint32_t`. -/
def getEpoch (s : RTC) : Nat := ((s.RTC_CNTH <<< 16) ||| s.RTC_CNTL) % 2 ^ 32

/-- Method `STM32LIBS_RTC::setEpoch(_epoch)`.  The results of the two `rtc_config`
calls are discarded; the two counter halves are stored between them. -/
def setEpoch (env : Env) (fuel : Nat) (_epoch : Nat) (s : RTC) : Option RTC :=
  let s := { s with irq := false }
  match rtc_config env fuel CONFIG_ENTER s with
  | none => none
  | some (_, s) =>
    let s := { s with RTC_CNTH := _epoch >>> 16 }
    let s := { s with RTC_CNTL := _epoch &&& 0xFFFF }
    match rtc_config env fuel CONFIG_EXIT s with
    | none => none
    | some (_, s) =>
      let s := { s with irq := true }
      some (_statusFlagChange BACKUP_TIME_SET_FLAG true s)

/-- Method `STM32LIBS_RTC::setDateTime(datetime)`: the struct after the call (its
`epoch` field is stored by `dateTimeToEpoch`) and the state. -/
def setDateTime (past : Nat → Nat) (env : Env) (fuel : Nat) (datetime : RTC_datetime_t)
    (s : RTC) : Option (RTC_datetime_t × RTC) :=
  if isConfigured s then
    let r := dateTimeToEpoch past datetime
    let _epoch := r.1
    let datetime := r.2
    let _epoch :=
      if datetime.hour_format = RTC_HOUR_FORMAT_12 ∧ datetime.am_pm = RTC_HOUR_PM
      then (_epoch + SECS_PER_DAY / 2) % 2 ^ 32 else _epoch
    match setEpoch env fuel _epoch s with
    | none => none
    | some s => some (datetime, s)
  else some (datetime, s)

/-- Method `STM32LIBS_RTC::getDateTime(_datetime, hour_format)`: the struct after the
call.  The state is only read. -/
def getDateTime (s : RTC) (_datetime : RTC_datetime_t) (hour_format : Nat) : RTC_datetime_t :=
  let _datetime :=
    if hour_format ≠ RTC_HOUR_FORMAT_UNDEF then { _datetime with hour_format := hour_format }
    else _datetime
  let _datetime := epochToDateTime _datetime (getEpoch s)
  if _datetime.hour_format = RTC_HOUR_FORMAT_12 then
    let _datetime :=
      { _datetime with am_pm := if _datetime.hours ≥ 12 then RTC_HOUR_PM else RTC_HOUR_AM }
    let _datetime := { _datetime with hours := _datetime.hours % 12 }
    if _datetime.hours = 0 then { _datetime with hours := 12 } else _datetime
  else { _datetime with am_pm := RTC_HOUR_AM }

/-! ## The alarm -/

/-- Method `STM32LIBS_RTC::setAlarmFromEpoch(alarm_epoch)`: the returned code and the
state.  `retn` is assigned by both `rtc_config` calls; the value returned is
the one of the second. -/
def setAlarmFromEpoch (env : Env) (fuel : Nat) (alarm_epoch : Nat) (s : RTC) :
    Option (Nat × RTC) :=
  if alarm_epoch ≤ getEpoch s then some (RTC_INVALID_PARAM, s)
  else
    let s := { s with irq := false }
    let s := { s with RTC_CRH := s.RTC_CRH &&& not32 RTC_ALRIE }
    match rtc_config env fuel CONFIG_ENTER s with
    | none => none
    | some (_, s) =>
      let s := { s with RTC_ALRH := alarm_epoch >>> 16 }
      let s := { s with RTC_ALRL := alarm_epoch &&& 0xFFFF }
      match rtc_config env fuel CONFIG_EXIT s with
      | none => none
      | some (retn, s) =>
        let s := { s with RTC_CRL := s.RTC_CRL &&& not32 RTC_CRL_ALARMF }
        let s := { s with RTC_CRH := s.RTC_CRH ||| RTC_ALRIE }
        let s := { s with EXTI_IMR := s.EXTI_IMR ||| EXTI_LINE17 }
        let s := { s with EXTI_RTSR := s.EXTI_RTSR ||| EXTI_LINE17 }
        let s := { s with irq := true }
        some (retn, _statusFlagChange BACKUP_ALARM_SET_FLAG true s)

/-- Method `STM32LIBS_RTC::setAlarmDateTime(alarm_datetime)`: the returned code, the
struct after the call and the state. -/
def setAlarmDateTime (past : Nat → Nat) (env : Env) (fuel : Nat)
    (alarm_datetime : RTC_datetime_t) (s : RTC) : Option (Nat × RTC_datetime_t × RTC) :=
  let r := dateTimeToEpoch past alarm_datetime
  let alarm_epoch := r.1
  let alarm_datetime := r.2
  let alarm_epoch :=
    if alarm_datetime.hour_format = RTC_HOUR_FORMAT_12 ∧ alarm_datetime.am_pm = RTC_HOUR_PM
    then (alarm_epoch + SECS_PER_DAY / 2) % 2 ^ 32 else alarm_epoch
  if alarm_epoch ≤ getEpoch s then some (RTC_INVALID_PARAM, alarm_datetime, s)
  else
    match setAlarmFromEpoch env fuel alarm_epoch s with
    | none => none
    | some (retn, s) => some (retn, alarm_datetime, s)

/-- Method `STM32LIBS_RTC::disableAlarm()`. -/
def disableAlarm (s : RTC) : RTC :=
  if isConfigured s then
    let s := { s with RTC_CRL := s.RTC_CRL &&& not32 RTC_CRL_ALARMF }
    let s := { s with RTC_CRH := s.RTC_CRH &&& not32 RTC_ALRIE }
    _statusFlagChange BACKUP_ALARM_SET_FLAG false s
  else s

/-! ## The backup words as a small EEPROM -/

/-- The copy loop of `eepromWrite`:
`for(i=0; i<len; i++) { if(indx > 9) break; _RTC_BackupRegs[indx++] = data_array[i]; }`.
The first argument is `len - i`, the passes left; `indx` is a `uint8_t`, and
`i < len <= 255` cannot wrap.  `data_array` is the caller's array of
`uint16_t`. -/
def eepromWriteLoop (data_array : Nat → Nat) : Nat → Nat → Nat → RTC → RTC
  | 0, _, _, s => s
  | n + 1, i, indx, s =>
    if indx > 9 then s
    else eepromWriteLoop data_array n (i + 1) ((indx + 1) % 2 ^ 8)
      { s with _RTC_BackupRegs :=
          Function.update s._RTC_BackupRegs indx (data_array i % 2 ^ 16) }

/-- Method `STM32LIBS_RTC::eepromWrite(data_array, indx, len)`.  `indx += 1` is
an addition on a `uint8_t`, and the argument `_indx+1` of `setBackup` is
converted to its `uint8_t` parameter: both are taken modulo `2^8`. -/
def eepromWrite (data_array : Nat → Nat) (indx len : Nat) (s : RTC) : RTC :=
  let _indx := indx
  let indx := (indx + 1) % 2 ^ 8
  let s := eepromWriteLoop data_array len 0 indx s
  setBackup ((_indx + 1) % 2 ^ 8) len s

/-- The copy loop of `eepromRead`:
`for(i=0; i<len; i++) { if(indx > 9) return; data_array[i] = _RTC_BackupRegs[indx++]; }`;
it returns the caller's array.  The first argument is `len - i`. -/
def eepromReadLoop (s : RTC) : Nat → Nat → Nat → (Nat → Nat) → (Nat → Nat)
  | 0, _, _, data_array => data_array
  | n + 1, i, indx, data_array =>
    if indx > 9 then data_array
    else eepromReadLoop s n (i + 1) ((indx + 1) % 2 ^ 8)
      (Function.update data_array i (s._RTC_BackupRegs indx))

/-- Method `STM32LIBS_RTC::eepromRead(data_array, indx, len)`: the caller's array
after the call, and the state (the mirror is refreshed by `getBackup`).  A
`NULL` array is `none`: nothing is done. -/
def eepromRead (data_array : Option (Nat → Nat)) (indx len : Nat) (s : RTC) :
    Option (Nat → Nat) × RTC :=
  match data_array with
  | none => (none, s)
  | some out =>
    let _indx := indx
    let s := getBackup ((indx + 1) % 2 ^ 8) len s
    let indx := (_indx + 1) % 2 ^ 8
    (some (eepromReadLoop s len 0 indx out), s)

/-! ## What a wait loop observes -/

/-- The content of `RTC_CRL` read at poll `k` (from 0) of a wait loop entered at
observation `t0` with the cell holding `v0`: the hardware acts on the cell
before each poll, two observations apart (the poll, then `millis()`). -/
def polledCRL (env : Env) : (t0 v0 k : Nat) → Nat
  | t0, v0, 0 => env.hw t0 v0 % 2 ^ 32
  | t0, v0, k + 1 => polledCRL env (t0 + 2) (env.hw t0 v0 % 2 ^ 32) k

/-- The elapsed time `millis() - tmo`, a `uint32_t`, computed after poll `k` of a
wait loop entered at observation `t0`. -/
def elapsedAt (env : Env) (tmo t0 k : Nat) : Nat :=
  (env.millis (t0 + 2 * k + 1) % 2 ^ 32 + 2 ^ 32 - tmo) % 2 ^ 32

/-! ## Weekday names -/

/-- Table `const char *dayNames[7]`. -/
def dayNames : List String :=
  ["Sunday", "Monday", "Tuesday", "Wednesday", "Thursday", "Friday", "Saturday"]

/-- Method `STM32LIBS_RTC::getWeekdayName`: an index above 6 is replaced by 0, so the
read `dayNames[DOW]` is always inside the table. -/
def getWeekdayName (DOW : Nat) : String :=
  let DOW := if DOW > 6 then 0 else DOW
  dayNames.getD DOW ""

/-! ## The Gregorian calendar, as the specification words it -/

/-- A year is leap iff divisible by 4 and not by 100 unless by 400. -/
def isGregorianLeap (year : Nat) : Bool :=
  year % 4 == 0 && (year % 100 != 0 || year % 400 == 0)

/-- Days in a calendar year. -/
def gregorianYearLength (year : Nat) : Nat := if isGregorianLeap year then 366 else 365

/-- Days in month `month` (1 = January) of `year`. -/
def gregorianMonthLength (year month : Nat) : Nat :=
  if month = 2 then (if isGregorianLeap year then 29 else 28)
  else if month = 4 ∨ month = 6 ∨ month = 9 ∨ month = 11 then 30
  else 31

/-- Number of days from 1970-01-01 to the date `year`-`month`-`day`: the whole
years from 1970, the whole months of `year` before `month`, and the days of
`month` before `day`. -/
def daysSince1970 (year month day : Nat) : Nat :=
  ((List.range' 1970 (year - 1970)).map gregorianYearLength).sum
    + ((List.range' 1 (month - 1)).map (gregorianMonthLength year)).sum
    + (day - 1)

/-- A valid calendar value: month 1..12, day within that month's length for
that year, hours 0..23, minutes 0..59, seconds 0..59. -/
def ValidCalendar (c : RTC_datetime_t) : Prop :=
  1 ≤ c.month ∧ c.month ≤ 12 ∧
  1 ≤ c.day ∧ c.day ≤ gregorianMonthLength c.year c.month ∧
  c.hours ≤ 23 ∧ c.minutes ≤ 59 ∧ c.seconds ≤ 59

instance (c : RTC_datetime_t) : Decidable (ValidCalendar c) := by
  unfold ValidCalendar; exact inferInstance

/-- The calendar value lies between 1970-01-01T00:00:00 and 2106-02-07T06:28:15,
compared field by field from the year down to the second. -/
def InEpochRange (c : RTC_datetime_t) : Prop :=
  1970 ≤ c.year ∧
  (c.year < 2106 ∨ (c.year = 2106 ∧
    (c.month < 2 ∨ (c.month = 2 ∧
      (c.day < 7 ∨ (c.day = 7 ∧
        (c.hours < 6 ∨ (c.hours = 6 ∧
          (c.minutes < 28 ∨ (c.minutes = 28 ∧ c.seconds ≤ 15))))))))))

instance (c : RTC_datetime_t) : Decidable (InEpochRange c) := by
  unfold InEpochRange; exact inferInstance

/-! ## A concrete environment and state for the examples -/

/-- An environment whose hardware reports `RTOFF` and `RSF` at every poll and
whose millisecond counter advances by one at each observation. -/
def Env.ready : Env := { millis := fun n => n, hw := fun _ v => v ||| RTOFF_RSF }

/-- A configured state: status word 0 holds `BACKUP_CONFIGURED_FLAG` in the
mirror and in the hardware register, the counter holds `100`. -/
def RTC.configured : RTC :=
  { RTC.zero with
    RTC_CNTL := 100
    _RTC_BackupRegs := fun i => if i = 0 then 4 else 0
    bkup_regs := fun i => if i = 0 then 4 else 0 }

/-- An environment whose clock advances by 3000 ms at each observation and whose
hardware keeps `RTOFF` low during the first three observations and reports
`RTOFF` and `RSF` afterwards: a wait entered at once times out, a later one
succeeds. -/
def Env.late : Env :=
  { millis := fun n => 3000 * n
    hw := fun n v => if n < 3 then v &&& not32 RTOFF else v ||| RTOFF_RSF }

/-- An environment whose hardware never reports `RTOFF` or `RSF` and whose clock
advances by 1000 ms at each observation. -/
def Env.stuck : Env :=
  { millis := fun n => 1000 * n, hw := fun _ v => v &&& not32 RTOFF_RSF }

/-! ## `begin` -/

/-- Constant `INIT_NONE` of the enum of `initAction` values. -/
def INIT_NONE : Nat := 0
/-- Constant `INIT_TIME_RESET` of the enum of `initAction` values. -/
def INIT_TIME_RESET : Nat := 1
/-- Constant `INIT_ALARM_RESET` of the enum of `initAction` values. -/
def INIT_ALARM_RESET : Nat := 2
/-- Constant `INIT_RTC_RESET` of the enum of `initAction` values. -/
def INIT_RTC_RESET : Nat := 3

/-- Constant `PWREN`: the power and backup interface clock enables of `RCC_APB1ENR`. -/
def PWREN : Nat := 0x18000000
/-- Constant `DBP`: the backup-domain write-protection disable of `PWR_CR`. -/
def DBP : Nat := 0x0100

/-- The register block of the branch `initAction == INIT_TIME_RESET` of
`STM32LIBS_RTC::begin`, statement by statement:
`RTC_CRH &= ~(RTC_ALRIE | RTC_SECIE); rtc_config(CONFIG_ENTER); RTC_CNTH = 0x0UL;
RTC_CNTL = 0x0UL; RTC_ALRH = 0x0UL; RTC_ALRL = 0x0UL; rtc_config(CONFIG_ENTER);`.
Both gate calls are made with `CONFIG_ENTER`.  It returns the two gate results
(which `begin` discards) and the state in which `begin` goes on to call
`_statusFlagChange`. -/
def beginTimeReset (env : Env) (fuel : Nat) (s : RTC) : Option (Nat × Nat × RTC) :=
  let s := { s with RTC_CRH := s.RTC_CRH &&& not32 (RTC_ALRIE ||| RTC_SECIE) }
  match rtc_config env fuel CONFIG_ENTER s with
  | none => none
  | some (r1, s) =>
    let s := { s with RTC_CNTH := 0 }
    let s := { s with RTC_CNTL := 0 }
    let s := { s with RTC_ALRH := 0 }
    let s := { s with RTC_ALRL := 0 }
    match rtc_config env fuel CONFIG_ENTER s with
    | none => none
    | some (r2, s) => some (r1, r2, s)

/-- Method `STM32LIBS_RTC::begin(initAction)`.  The calls `setClockSource(_clockSource)`
and `RTC_init(HOUR_FORMAT_24, ..., resetRTC)` go into the STM32 core, whose code is
not part of the driver: `clockInit resetRTC` stands for their effect on the
registers. -/
def begin (clockInit : Bool → RTC → RTC) (env : Env) (fuel : Nat) (initAction : Nat)
    (s : RTC) : Option RTC :=
  let s := { s with RCC_APB1ENR := (s.RCC_APB1ENR ||| PWREN) % 2 ^ 32 }
  let s := { s with PWR_CR := (s.PWR_CR ||| DBP) % 2 ^ 32 }
  let s := getBackup 0 10 s
  let r : Option (Bool × RTC) :=
    if initAction = INIT_TIME_RESET then
      match beginTimeReset env fuel s with
      | none => none
      | some (_, _, s) =>
        let s := _statusFlagChange (BACKUP_TIME_SET_FLAG ||| BACKUP_ALARM_SET_FLAG) false s
        some (false, disableAlarm s)
    else if initAction = INIT_ALARM_RESET then some (false, disableAlarm s)
    else if initAction = INIT_RTC_RESET then some (true, s)
    else some (false, s)
  match r with
  | none => none
  | some (resetRTC, s) =>
    let s := clockInit resetRTC s
    some (_statusFlagChange BACKUP_CONFIGURED_FLAG true s)

/-! ## The `int` product of `dateTimeToEpoch` -/

/-- Largest value of the 32-bit `int` of the target. -/
def INT_MAX : Int := 2147483647

/-- The product `_year * (SECS_PER_DAY * 365)` of `dateTimeToEpoch` as the integer
it denotes: both operands are `int` (`_year` is the `int16_t` of
`datetime->year - 1970`, negative replaced by 0, promoted; the macros expand to
`int` constants), so the multiplication is a 32-bit signed one, and only its
result is converted to the `uint32_t` accumulator `_seconds`. -/
def yearTerm (datetime : RTC_datetime_t) : Int :=
  let y16 : Int := toInt16 ((datetime.year : Int) - 1970)
  let _year : Nat := if y16 < 0 then 0 else y16.toNat
  (_year : Int) * ((SECS_PER_DAY : Int) * 365)

/-! ## Table reads of `epochToDateTime` -/

/-- The indices at which the month loop of `epochToDateTime` reads `monthDays`:
the pass for `_month` evaluates `monthDays[_month]` unless `_month == 1`.  The
recursion is the one of `monthLoop`. -/
def monthLoopReads (year : Nat) : Nat → Nat → Nat → List Nat
  | 0, _, _ => []
  | n + 1, _month, _time =>
    let reads := if _month == 1 then [] else [_month]
    let monthLength :=
      if _month == 1 then (if IS_LEAP_YEAR year then 29 else 28) else monthDays.getD _month 0
    if _time ≥ monthLength then reads ++ monthLoopReads year n (_month + 1) (_time - monthLength)
    else reads

/-- The indices at which `epochToDateTime(_epoch)` reads `monthDays`, in order. -/
def epochToDateTimeReads (_epoch : Nat) : List Nat :=
  let _time := _epoch / 60 / 60 / 24
  let exit := yearLoop _time (_time + 1) 0 0
  let year := exit.2
  let _days := (exit.1 + 2 ^ 32 - (if IS_LEAP_YEAR year then 366 else 365)) % 2 ^ 32
  let _time := (_time + 2 ^ 32 - _days) % 2 ^ 32
  monthLoopReads year 12 0 _time

/-! ## The order of the steps of `setAlarmFromEpoch` -/

/-- The statements of `setAlarmFromEpoch` after `__disable_irq()`, in source
order: `RTC_CRH &= ~RTC_ALRIE`, `rtc_config(CONFIG_ENTER)`, the stores to
`RTC_ALRH` and `RTC_ALRL`, `rtc_config(CONFIG_EXIT)`, `RTC_CRL &= ~RTC_CRL_ALARMF`,
`RTC_CRH |= RTC_ALRIE`, `EXTI_IMR |= EXTI_LINE17`, `EXTI_RTSR |= EXTI_LINE17` and
`_statusFlagChange(BACKUP_ALARM_SET_FLAG, true)`. -/
inductive ArmStep where
  | disableALRIE
  | configEnter
  | storeALRH
  | storeALRL
  | configExit
  | clearALARMF
  | enableALRIE
  | unmaskEXTI
  | risingEXTI
  | recordAlarmSet
  deriving DecidableEq, Repr

/-- Method `STM32LIBS_RTC::setAlarmFromEpoch(alarm_epoch)` with a log: every statement
of the arming sequence appends its name and the value of the global interrupt
enable under which it runs.  Result and state are those of `setAlarmFromEpoch`. -/
def setAlarmFromEpochLog (env : Env) (fuel : Nat) (alarm_epoch : Nat) (s : RTC) :
    Option (List (ArmStep × Bool) × Nat × RTC) :=
  if alarm_epoch ≤ getEpoch s then some ([], RTC_INVALID_PARAM, s)
  else
    let s := { s with irq := false }
    let log := [(ArmStep.disableALRIE, s.irq)]
    let s := { s with RTC_CRH := s.RTC_CRH &&& not32 RTC_ALRIE }
    let log := log ++ [(ArmStep.configEnter, s.irq)]
    match rtc_config env fuel CONFIG_ENTER s with
    | none => none
    | some (_, s) =>
      let log := log ++ [(ArmStep.storeALRH, s.irq)]
      let s := { s with RTC_ALRH := alarm_epoch >>> 16 }
      let log := log ++ [(ArmStep.storeALRL, s.irq)]
      let s := { s with RTC_ALRL := alarm_epoch &&& 0xFFFF }
      let log := log ++ [(ArmStep.configExit, s.irq)]
      match rtc_config env fuel CONFIG_EXIT s with
      | none => none
      | some (retn, s) =>
        let log := log ++ [(ArmStep.clearALARMF, s.irq)]
        let s := { s with RTC_CRL := s.RTC_CRL &&& not32 RTC_CRL_ALARMF }
        let log := log ++ [(ArmStep.enableALRIE, s.irq)]
        let s := { s with RTC_CRH := s.RTC_CRH ||| RTC_ALRIE }
        let log := log ++ [(ArmStep.unmaskEXTI, s.irq)]
        let s := { s with EXTI_IMR := s.EXTI_IMR ||| EXTI_LINE17 }
        let log := log ++ [(ArmStep.risingEXTI, s.irq)]
        let s := { s with EXTI_RTSR := s.EXTI_RTSR ||| EXTI_LINE17 }
        let s := { s with irq := true }
        let log := log ++ [(ArmStep.recordAlarmSet, s.irq)]
        some (log, retn, _statusFlagChange BACKUP_ALARM_SET_FLAG true s)

/-! ## The second driver, `src/src/blue_pill_rtc.cpp` (class `BLUE_PILL_RTC`)

`blue_pill_rtc.h` defines `SECS_PER_MIN`, `SECS_PER_HOUR` and `SECS_PER_DAY` by
the same three macros as `STM32LIBS_RTC.h`. -/

/-- The conversion of an `int` to `uint8_t`. -/
def wrap8 (x : Int) : Nat := (x % 2 ^ 8).toNat

/-- Struct `_dateTimeStruct` of `blue_pill_rtc.h`; `year` is a `uint8_t` holding
the offset from 1970. -/
structure _dateTimeStruct where
  hour_format : Nat
  am_pm : Bool
  seconds : Nat
  minutes : Nat
  hours : Nat
  timestamp : Nat
  weekday : Nat
  day : Nat
  month : Nat
  year : Nat
  deriving DecidableEq, Repr

/-- Table `monthDays[]` of `blue_pill_rtc.cpp`. -/
def BLUE_PILL_RTC.monthDays : List Nat := [31, 28, 31, 30, 31, 30, 31, 31, 30, 31, 30, 31]

/-- The read `monthDays[k]` in `blue_pill_rtc.cpp`: the table entry for `k < 12`,
otherwise the byte `past k` that follows this table in memory. -/
def BLUE_PILL_RTC.monthDaysAt (past : Nat → Nat) (k : Nat) : Nat :=
  if k < 12 then BLUE_PILL_RTC.monthDays.getD k 0 else past k % 2 ^ 8

/-- Macro `LEAP_YEAR(Y)` of `blue_pill_rtc.cpp`, `Y` counted from 1970:
`((1970+(Y))>0) && !((1970+(Y))%4) && (((1970+(Y))%100) || !((1970+(Y))%400))`. -/
def LEAP_YEAR (Y : Nat) : Bool :=
  decide (0 < 1970 + Y) && (1970 + Y) % 4 == 0
    && ((1970 + Y) % 100 != 0 || (1970 + Y) % 400 == 0)

/-- The loop
`while((unsigned)(_days += (LEAP_YEAR(datetime->year) ? 366 : 365)) <= _time) datetime->year++;`
of `timeExpand`, on the `uint32_t` `_days` and the `uint8_t` `datetime->year`; the
first argument bounds the number of passes. -/
def BLUE_PILL_RTC.yearLoop (_time : Nat) : Nat → Nat → Nat → Nat × Nat
  | 0, _days, year => (_days, year)
  | n + 1, _days, year =>
    let _days := (_days + (if LEAP_YEAR year then 366 else 365)) % 2 ^ 32
    if _days ≤ _time then BLUE_PILL_RTC.yearLoop _time n _days ((year + 1) % 2 ^ 8)
    else (_days, year)

/-- The loop `for (_month=0; _month<12; _month++)` of `timeExpand` with its `break`;
the first argument is `12 - _month`. -/
def BLUE_PILL_RTC.monthLoop (year : Nat) : Nat → Nat → Nat → Nat × Nat
  | 0, _month, _time => (_month, _time)
  | n + 1, _month, _time =>
    let monthLength :=
      if _month == 1 then (if LEAP_YEAR year then 29 else 28)
      else BLUE_PILL_RTC.monthDays.getD _month 0
    if _time ≥ monthLength then BLUE_PILL_RTC.monthLoop year n (_month + 1) (_time - monthLength)
    else (_month, _time)

/-- Method `BLUE_PILL_RTC::timeExpand(datetime, _timestamp)`.  The year stays an
offset from 1970. -/
def BLUE_PILL_RTC.timeExpand (datetime : _dateTimeStruct) (_timestamp : Nat) :
    _dateTimeStruct :=
  let _time := _timestamp
  let seconds := _time % 60
  let _time := _time / 60
  let minutes := _time % 60
  let _time := _time / 60
  let hours := _time % 24
  let _time := _time / 24
  let weekday := ((_time + 4) % 7) % 2 ^ 8
  let exit := BLUE_PILL_RTC.yearLoop _time (_time + 1) 0 0
  let year := exit.2
  let _days := (exit.1 + 2 ^ 32 - (if LEAP_YEAR year then 366 else 365)) % 2 ^ 32
  let _time := (_time + 2 ^ 32 - _days) % 2 ^ 32
  let brk := BLUE_PILL_RTC.monthLoop year 12 0 _time
  let _month := brk.1
  let _time := brk.2
  { datetime with
    timestamp := _timestamp
    seconds := seconds
    minutes := minutes
    hours := hours
    weekday := weekday
    year := year
    month := (_month + 1) % 2 ^ 8
    day := (_time + 1) % 2 ^ 8 }

/-- The loop `for (i = 0; i < datetime->year; i++) if (LEAP_YEAR(i)) _seconds += SECS_PER_DAY;`
of `timeCompress`. -/
def BLUE_PILL_RTC.leapYearLoop (year : Nat) (_seconds : Nat) : Nat :=
  (List.range year).foldl
    (fun acc i => if LEAP_YEAR i then (acc + SECS_PER_DAY) % 2 ^ 32 else acc) _seconds

/-- The loop `for (i = 1; i < datetime->month; i++)` of `timeCompress`. -/
def BLUE_PILL_RTC.monthSecondsLoop (past : Nat → Nat) (year month : Nat) (_seconds : Nat) :
    Nat :=
  (List.range' 1 (month - 1)).foldl
    (fun acc i =>
      if i == 2 && LEAP_YEAR year then (acc + SECS_PER_DAY * 29) % 2 ^ 32
      else (acc + SECS_PER_DAY * BLUE_PILL_RTC.monthDaysAt past (i - 1)) % 2 ^ 32) _seconds

/-- Method `BLUE_PILL_RTC::timeCompress(datetime)`: the returned timestamp and the
struct after the store `datetime->timestamp = _seconds`.  The `uint8_t` year is
used as it is; the `int` products are taken modulo `2^32` as in
`dateTimeToEpoch`. -/
def BLUE_PILL_RTC.timeCompress (past : Nat → Nat) (datetime : _dateTimeStruct) :
    Nat × _dateTimeStruct :=
  let _seconds := wrap32 ((datetime.year : Int) * ((SECS_PER_DAY : Int) * 365))
  let _seconds := BLUE_PILL_RTC.leapYearLoop datetime.year _seconds
  let _seconds := BLUE_PILL_RTC.monthSecondsLoop past datetime.year datetime.month _seconds
  let _seconds := wrap32 ((_seconds : Int) + ((datetime.day : Int) - 1) * (SECS_PER_DAY : Int))
  let _seconds := (_seconds + datetime.hours * SECS_PER_HOUR) % 2 ^ 32
  let _seconds := (_seconds + datetime.minutes * SECS_PER_MIN) % 2 ^ 32
  let _seconds := (_seconds + datetime.seconds) % 2 ^ 32
  (_seconds, { datetime with timestamp := _seconds })

/-- The loop `for(i = 0; i < len; i++)` of `writeBackup`: the pass for `i` stores
`words[i]` (a `uint16_t`) at `*(BKP_REGS + _indx)` if `_indx <= 0x28` and at
`*(BKP_REGS + _indx + 0x14)` otherwise, then `_indx += 4`.  `bkp` is the memory
at `BKP_REGS` as an array of 32-bit cells; the list collects the cells stored
to.  The first argument is `len - i`. -/
def BLUE_PILL_RTC.writeBackupLoop (words : Nat → Nat) :
    Nat → Nat → Nat → (Nat → Nat) → List Nat → (Nat → Nat) × List Nat
  | 0, _, _, bkp, cells => (bkp, cells)
  | n + 1, i, _indx, bkp, cells =>
    let cell := if _indx ≤ 0x28 then _indx else _indx + 0x14
    BLUE_PILL_RTC.writeBackupLoop words n (i + 1) ((_indx + 4) % 2 ^ 32)
      (Function.update bkp cell (words i % 2 ^ 16)) (cells ++ [cell])

/-- Method `BLUE_PILL_RTC::writeBackup(words, indx, len)` for `uint8_t` arguments:
`_indx = (indx * 0x04UL) + 0x04UL; if((indx + len) > 42) len = 42 - indx;` and
the loop.  The sum `indx + len` and the difference `42 - indx` are `int`; the
difference is converted to the `uint8_t` `len`.  Returns the memory and the
cells stored to, one per register access. -/
def BLUE_PILL_RTC.writeBackup (words : Nat → Nat) (indx len : Nat) (bkp : Nat → Nat) :
    (Nat → Nat) × List Nat :=
  let _indx := (indx * 4 + 4) % 2 ^ 32
  let len := if indx + len > 42 then wrap8 (42 - (indx : Int)) else len
  BLUE_PILL_RTC.writeBackupLoop words len 0 _indx bkp []

/-- The loop `for(i = 0; i < len; i++)` of `readBackup`: the pass for `i` loads
`words[i]` (a `uint16_t`) from `*(BKP_REGS + _indx)` if `_indx <= 0x28` and from
`*(BKP_REGS + _indx + 0x14)` otherwise, then `_indx += 4`.  The list collects the
cells loaded from. -/
def BLUE_PILL_RTC.readBackupLoop (bkp : Nat → Nat) :
    Nat → Nat → Nat → (Nat → Nat) → List Nat → (Nat → Nat) × List Nat
  | 0, _, _, words, cells => (words, cells)
  | n + 1, i, _indx, words, cells =>
    let cell := if _indx ≤ 0x28 then _indx else _indx + 0x14
    BLUE_PILL_RTC.readBackupLoop bkp n (i + 1) ((_indx + 4) % 2 ^ 32)
      (Function.update words i (bkp cell % 2 ^ 16)) (cells ++ [cell])

/-- Method `BLUE_PILL_RTC::readBackup(words, indx, len)` for `uint8_t` arguments, with
the same clamp as `writeBackup`.  Returns the array `words` after the call and
the cells loaded from, one per register access. -/
def BLUE_PILL_RTC.readBackup (words : Nat → Nat) (indx len : Nat) (bkp : Nat → Nat) :
    (Nat → Nat) × List Nat :=
  let _indx := (indx * 4 + 4) % 2 ^ 32
  let len := if indx + len > 42 then wrap8 (42 - (indx : Int)) else len
  BLUE_PILL_RTC.readBackupLoop bkp len 0 _indx words []

/-! ## Day counts used to state what the conversions compute -/

/-- Length in days of the year `1970 + Y`, as both conversions count it. -/
def yearDays (Y : Nat) : Nat := if IS_LEAP_YEAR Y then 366 else 365

/-- Days from 1970-01-01 to January 1st of the year `1970 + Y`. -/
def daysBeforeYear : Nat → Nat
  | 0 => 0
  | Y + 1 => daysBeforeYear Y + yearDays Y

/-- Length of the month with index `m` (0 = January) in the year `1970 + Y`. -/
def monthLen (Y m : Nat) : Nat :=
  if m == 1 then (if IS_LEAP_YEAR Y then 29 else 28) else monthDays.getD m 0

/-- Days from January 1st of the year `1970 + Y` to the first day of the month
with index `m`. -/
def daysBeforeMonth (Y : Nat) : Nat → Nat
  | 0 => 0
  | m + 1 => daysBeforeMonth Y m + monthLen Y m

/-! ## Lemmas on the day counts -/

theorem yearDays_bounds (Y : Nat) : 365 ≤ yearDays Y ∧ yearDays Y ≤ 366 := by
  unfold yearDays; split <;> omega

theorem daysBeforeYear_succ (Y : Nat) :
    daysBeforeYear (Y + 1) = daysBeforeYear Y + yearDays Y := rfl

theorem daysBeforeYear_ge (Y : Nat) : 365 * Y ≤ daysBeforeYear Y := by
  induction Y with
  | zero => simp [daysBeforeYear]
  | succ n ih =>
    have := (yearDays_bounds n).1
    rw [daysBeforeYear_succ]; omega

theorem daysBeforeYear_mono {a b : Nat} (h : a ≤ b) : daysBeforeYear a ≤ daysBeforeYear b := by
  induction h with
  | refl => exact Nat.le_refl _
  | step _ ih => rw [daysBeforeYear_succ]; omega

theorem daysBeforeMonth_succ (Y m : Nat) :
    daysBeforeMonth Y (m + 1) = daysBeforeMonth Y m + monthLen Y m := rfl

theorem daysBeforeMonth_mono (Y : Nat) {a b : Nat} (h : a ≤ b) :
    daysBeforeMonth Y a ≤ daysBeforeMonth Y b := by
  induction h with
  | refl => exact Nat.le_refl _
  | step _ ih => rw [daysBeforeMonth_succ]; omega

theorem daysBeforeMonth_twelve (Y : Nat) : daysBeforeMonth Y 12 = yearDays Y := by
  unfold yearDays
  cases h : IS_LEAP_YEAR Y <;> simp [daysBeforeMonth, monthLen, monthDays, h]

/-- A table that starts at or below `t` and ends above it brackets `t` between
two consecutive entries. -/
theorem exists_bracket (f : Nat → Nat) (t : Nat) :
    ∀ n, f 0 ≤ t → t < f n → ∃ m, m < n ∧ f m ≤ t ∧ t < f (m + 1) := by
  intro n
  induction n with
  | zero => intro h0 hn; omega
  | succ k ih =>
    intro h0 hn
    by_cases hk : t < f k
    · obtain ⟨m, hm, h1, h2⟩ := ih h0 hk
      exact ⟨m, by omega, h1, h2⟩
    · exact ⟨k, by omega, by omega, hn⟩

/-! ## The loops of `dateTimeToEpoch` -/

theorem leapYearLoop_succ (Y s : Nat) :
    leapYearLoop (Y + 1) s =
      if IS_LEAP_YEAR Y then (leapYearLoop Y s + SECS_PER_DAY) % 2 ^ 32 else leapYearLoop Y s := by
  simp [leapYearLoop, List.range_succ, List.foldl_append]

theorem leapYearLoop_eq (Y s : Nat) (hs : s < 2 ^ 32) :
    leapYearLoop Y s = (s + 86400 * daysBeforeYear Y - 31536000 * Y) % 2 ^ 32 := by
  induction Y with
  | zero => simp [leapYearLoop, daysBeforeYear]; omega
  | succ n ih =>
    have hge := daysBeforeYear_ge n
    rw [leapYearLoop_succ, ih, daysBeforeYear_succ]
    unfold yearDays
    cases IS_LEAP_YEAR n <;> simp [SECS_PER_DAY, SECS_PER_HOUR, SECS_PER_MIN] <;> omega

theorem monthSecondsLoop_succ (past : Nat → Nat) (Y k s : Nat) :
    monthSecondsLoop past Y (k + 2) s =
      if (k + 1 == 2 && IS_LEAP_YEAR Y)
      then (monthSecondsLoop past Y (k + 1) s + SECS_PER_DAY * 29) % 2 ^ 32
      else (monthSecondsLoop past Y (k + 1) s + SECS_PER_DAY * monthDaysAt past k) % 2 ^ 32 := by
  simp [monthSecondsLoop, List.range'_concat, List.foldl_append, Nat.add_comm]

theorem monthDaysAt_lt (past : Nat → Nat) (Y k : Nat) (hk : k < 12) :
    (if (k + 1 == 2 && IS_LEAP_YEAR Y) then 29 else monthDaysAt past k) = monthLen Y k := by
  unfold monthDaysAt monthLen
  simp only [hk, if_true]
  interval_cases k <;> cases IS_LEAP_YEAR Y <;> simp [monthDays]

theorem monthSecondsLoop_eq (past : Nat → Nat) (Y s : Nat) (hs : s < 2 ^ 32) :
    ∀ k, k ≤ 12 →
      monthSecondsLoop past Y (k + 1) s = (s + 86400 * daysBeforeMonth Y k) % 2 ^ 32 := by
  intro k
  induction k with
  | zero => intro _; simp [monthSecondsLoop, daysBeforeMonth]; omega
  | succ n ih =>
    intro hn
    have h := monthDaysAt_lt past Y n (by omega)
    rw [monthSecondsLoop_succ, ih (by omega), daysBeforeMonth_succ, ← h]
    split <;> simp [SECS_PER_DAY, SECS_PER_HOUR, SECS_PER_MIN] <;> omega

/-! ## Arithmetic modulo `2^32` of the accumulator `_seconds` -/

theorem wrap_year_part (Y A B : Nat) (hge : 365 * Y ≤ A) :
    ((((Y : Int) * 31536000 % 4294967296).toNat + 86400 * A - 31536000 * Y) % 4294967296
      + 86400 * B) % 4294967296 = (86400 * (A + B)) % 4294967296 := by
  omega

theorem wrap_day_part (N d : Nat) :
    ((((N % 4294967296 : Nat) : Int) + ((d : Int) - 1) * 86400) % 4294967296).toNat
      = (((N : Int) + 86400 * ((d : Int) - 1)) % 4294967296).toNat := by
  omega

theorem wrap_time_part (Z : Int) (h m s : Nat) :
    ((((Z % 4294967296).toNat + h * 3600) % 4294967296 + m * 60) % 4294967296 + s) % 4294967296
      = ((Z + 3600 * (h : Int) + 60 * (m : Int) + (s : Int)) % 4294967296).toNat := by
  omega

theorem monthSecondsLoop_zero (past : Nat → Nat) (Y s : Nat) :
    monthSecondsLoop past Y 0 s = monthSecondsLoop past Y 1 s := by
  simp [monthSecondsLoop]

/-- Closed form of `dateTimeToEpoch` for a year from 1970 that fits the 16-bit
`_year` and a month whose table reads stay inside the table. -/
theorem dateTimeToEpoch_closed (past : Nat → Nat) (c : RTC_datetime_t)
    (hy : 1970 ≤ c.year) (hy2 : c.year ≤ 1970 + 32767) (hm : c.month ≤ 13) :
    (dateTimeToEpoch past c).1 =
      wrap32 (86400 * ((daysBeforeYear (c.year - 1970) : Int)
          + (daysBeforeMonth (c.year - 1970) (c.month - 1) : Int) + (c.day : Int) - 1)
        + 3600 * (c.hours : Int) + 60 * (c.minutes : Int) + (c.seconds : Int)) := by
  obtain ⟨Y, hY⟩ : ∃ Y, c.year = 1970 + Y := ⟨c.year - 1970, by omega⟩
  have hY2 : Y ≤ 32767 := by omega
  have h16 : toInt16 ((c.year : Int) - 1970) = (Y : Int) := by
    unfold toInt16; rw [hY]; push_cast; omega
  have hyear : (if toInt16 ((c.year : Int) - 1970) < 0 then 0
      else (toInt16 ((c.year : Int) - 1970)).toNat) = Y := by
    rw [h16]; simp
  have hsub : c.year - 1970 = Y := by omega
  have hge := daysBeforeYear_ge Y
  have hs0 : wrap32 ((Y : Int) * ((SECS_PER_DAY : Int) * 365)) < 2 ^ 32 := by
    unfold wrap32; omega
  have hleap := leapYearLoop_eq Y _ hs0
  have hl1 : leapYearLoop Y (wrap32 ((Y : Int) * ((SECS_PER_DAY : Int) * 365))) < 2 ^ 32 := by
    rw [hleap]; exact Nat.mod_lt _ (by norm_num)
  have hmonth : monthSecondsLoop past Y c.month
      (leapYearLoop Y (wrap32 ((Y : Int) * ((SECS_PER_DAY : Int) * 365))))
      = (leapYearLoop Y (wrap32 ((Y : Int) * ((SECS_PER_DAY : Int) * 365)))
          + 86400 * daysBeforeMonth Y (c.month - 1)) % 2 ^ 32 := by
    rcases Nat.eq_zero_or_pos c.month with h0 | hpos
    · rw [h0, monthSecondsLoop_zero]
      exact monthSecondsLoop_eq past Y _ hl1 0 (by omega)
    · obtain ⟨k, hk⟩ : ∃ k, c.month = k + 1 := ⟨c.month - 1, by omega⟩
      rw [hk]
      simpa using monthSecondsLoop_eq past Y _ hl1 k (by omega)
  unfold dateTimeToEpoch
  simp only [hyear, hsub]
  rw [hmonth, hleap]
  generalize daysBeforeYear Y = A at *
  generalize daysBeforeMonth Y (c.month - 1) = B at *
  clear hleap hmonth hl1 hs0 hyear h16 hsub
  simp only [wrap32, SECS_PER_DAY, SECS_PER_HOUR, SECS_PER_MIN, Nat.reducePow, Nat.reduceMul,
    Int.reducePow, Int.reduceMul, Nat.cast_ofNat]
  rw [wrap_year_part Y A B hge, wrap_day_part (86400 * (A + B)) c.day]
  have hZ : 86400 * ((A : Int) + (B : Int) + (c.day : Int) - 1)
      = ((86400 * (A + B) : Nat) : Int) + 86400 * ((c.day : Int) - 1) := by
    push_cast; ring
  rw [hZ]
  exact wrap_time_part _ c.hours c.minutes c.seconds

/-! ## The loops of `epochToDateTime` -/

/-- The year loop leaves by its test: started at year `k` with the days before
`k` accumulated, and given passes enough to reach the year `y` that contains
day `time`, it stops there with the days through the end of `y`. -/
theorem yearLoop_exit (time : Nat) (htime : time + 366 < 2 ^ 32) :
    ∀ n k y, k ≤ y → y < n + k → y + 1 < 2 ^ 16 → daysBeforeYear y ≤ time →
      time < daysBeforeYear (y + 1) →
      yearLoop time n (daysBeforeYear k) k = (daysBeforeYear (y + 1), y) := by
  intro n
  induction n with
  | zero => intro k y h1 h2; omega
  | succ n ih =>
    intro k y hky hyn hy16 hlo hhi
    have hstep : (daysBeforeYear k + (if IS_LEAP_YEAR k then 366 else 365)) % 2 ^ 32
        = daysBeforeYear (k + 1) := by
      have h1 : daysBeforeYear (k + 1) ≤ daysBeforeYear (y + 1) :=
        daysBeforeYear_mono (by omega)
      have h2 := (yearDays_bounds y).2
      have h3 := daysBeforeYear_succ y
      have h4 : daysBeforeYear (k + 1)
          = daysBeforeYear k + (if IS_LEAP_YEAR k then 366 else 365) := rfl
      rw [← h4]
      exact Nat.mod_eq_of_lt (by omega)
    unfold yearLoop
    simp only [hstep]
    by_cases hle : daysBeforeYear (k + 1) ≤ time
    · have hlt : k < y := by
        rcases Nat.lt_or_ge k y with h | h
        · exact h
        · have : k = y := by omega
          subst this; omega
      rw [if_pos hle, Nat.mod_eq_of_lt (by omega)]
      exact ih (k + 1) y (by omega) (by omega) hy16 hlo hhi
    · have hk : k = y := by
        rcases Nat.lt_or_ge k y with h | h
        · have := daysBeforeYear_mono (show k + 1 ≤ y by omega)
          omega
        · omega
      subst hk
      rw [if_neg hle]

/-- The month loop leaves by its `break`: started at month `k`, it stops at the
month `m` that contains the day, with the day's offset within that month. -/
theorem monthLoop_exit (Y : Nat) :
    ∀ n k m t, k + n = 12 → k ≤ m → m < 12 →
      daysBeforeMonth Y m ≤ t + daysBeforeMonth Y k →
      t + daysBeforeMonth Y k < daysBeforeMonth Y (m + 1) →
      monthLoop Y n k t = (m, t + daysBeforeMonth Y k - daysBeforeMonth Y m) := by
  intro n
  induction n with
  | zero => intro k m t h1 h2 h3; omega
  | succ n ih =>
    intro k m t hkn hkm hm hlo hhi
    have hlen : (if k == 1 then (if IS_LEAP_YEAR Y then 29 else 28) else monthDays.getD k 0)
        = monthLen Y k := rfl
    unfold monthLoop
    simp only [hlen]
    have hsucc := daysBeforeMonth_succ Y k
    by_cases hge : t ≥ monthLen Y k
    · have hlt : k < m := by
        rcases Nat.lt_or_ge k m with h | h
        · exact h
        · have : k = m := by omega
          subst this; omega
      rw [if_pos hge, ih (k + 1) m (t - monthLen Y k) (by omega) (by omega) hm
        (by omega) (by omega)]
      congr 1; omega
    · have hk : k = m := by
        rcases Nat.lt_or_ge k m with h | h
        · have := daysBeforeMonth_mono Y (show k + 1 ≤ m by omega)
          omega
        · omega
      subst hk
      rw [if_neg hge]
      congr 1; omega

theorem monthLen_le (Y m : Nat) (hm : m < 12) : 28 ≤ monthLen Y m ∧ monthLen Y m ≤ 31 := by
  unfold monthLen
  interval_cases m <;> cases IS_LEAP_YEAR Y <;> simp [monthDays]

/-- What `epochToDateTime` stores, given the year `Y` and the month `m` that
contain day `e / 86400`. -/
theorem epochToDateTime_eq (dt : RTC_datetime_t) (e Y m : Nat) (he : e < 2 ^ 32)
    (hY1 : daysBeforeYear Y ≤ e / 86400) (hY2 : e / 86400 < daysBeforeYear (Y + 1))
    (hm : m < 12) (hm1 : daysBeforeMonth Y m ≤ e / 86400 - daysBeforeYear Y)
    (hm2 : e / 86400 - daysBeforeYear Y < daysBeforeMonth Y (m + 1)) :
    epochToDateTime dt e =
      { dt with
        epoch := e
        seconds := e % 60
        minutes := e / 60 % 60
        hours := e / 3600 % 24
        weekday := (e / 86400 + 4) % 7
        year := Y + 1970
        month := m + 1
        day := e / 86400 - daysBeforeYear Y - daysBeforeMonth Y m + 1 } := by
  have ht : e / 3600 / 24 = e / 86400 := by omega
  have h36 : e / 60 / 60 = e / 3600 := by omega
  have htb : e / 86400 ≤ 49710 := by omega
  have hYb := daysBeforeYear_ge Y
  have hyl := yearLoop_exit (e / 86400) (by omega) (e / 86400 + 1) 0 Y (by omega) (by omega)
    (by omega) hY1 hY2
  have hd0 : daysBeforeYear 0 = 0 := rfl
  rw [hd0] at hyl
  have hyd := yearDays_bounds Y
  have hsucc := daysBeforeYear_succ Y
  have hdays : (daysBeforeYear (Y + 1) + 2 ^ 32 - (if IS_LEAP_YEAR Y then 366 else 365)) % 2 ^ 32
      = daysBeforeYear Y := by
    have : (if IS_LEAP_YEAR Y then 366 else 365) = yearDays Y := rfl
    rw [this]; omega
  have htime : (e / 86400 + 2 ^ 32 - daysBeforeYear Y) % 2 ^ 32 = e / 86400 - daysBeforeYear Y := by
    omega
  have hml := monthLoop_exit Y 12 0 m (e / 86400 - daysBeforeYear Y) (by omega) (by omega) hm
    (by simpa [daysBeforeMonth] using hm1) (by simpa [daysBeforeMonth] using hm2)
  have hmlen := monthLen_le Y m hm
  have hmsucc := daysBeforeMonth_succ Y m
  unfold epochToDateTime
  simp only [ht, h36, hyl, hdays, htime, hml]
  have hw : (e / 86400 + 4) % 7 % 2 ^ 8 = (e / 86400 + 4) % 7 := by omega
  have hyr : (Y + 1970) % 2 ^ 16 = Y + 1970 := by omega
  have hmo : (m + 1) % 2 ^ 8 = m + 1 := by omega
  have hdy : (e / 86400 - daysBeforeYear Y + daysBeforeMonth Y 0 - daysBeforeMonth Y m + 1) % 2 ^ 8
      = e / 86400 - daysBeforeYear Y - daysBeforeMonth Y m + 1 := by
    have : daysBeforeMonth Y 0 = 0 := rfl
    rw [this]; omega
  rw [hw, hyr, hmo, hdy]

/-! ## The specification's day count and the driver's -/

theorem IS_LEAP_YEAR_eq (Y : Nat) : IS_LEAP_YEAR Y = isGregorianLeap (1970 + Y) := by
  simp [IS_LEAP_YEAR, isGregorianLeap]

theorem yearDays_eq (Y : Nat) : yearDays Y = gregorianYearLength (1970 + Y) := by
  simp [yearDays, gregorianYearLength, IS_LEAP_YEAR_eq]

theorem monthLen_eq (Y k : Nat) (hk : k < 12) :
    monthLen Y k = gregorianMonthLength (1970 + Y) (1 + k) := by
  unfold monthLen gregorianMonthLength
  rw [IS_LEAP_YEAR_eq]
  interval_cases k <;> simp [monthDays]

theorem sum_yearLength (n : Nat) :
    ((List.range' 1970 n).map gregorianYearLength).sum = daysBeforeYear n := by
  induction n with
  | zero => rfl
  | succ n ih =>
    rw [List.range'_1_concat, List.map_append, List.sum_append, ih, daysBeforeYear_succ,
      yearDays_eq]
    simp

theorem sum_monthLength (Y : Nat) :
    ∀ k, k ≤ 12 →
      ((List.range' 1 k).map (gregorianMonthLength (1970 + Y))).sum = daysBeforeMonth Y k := by
  intro k
  induction k with
  | zero => intro _; rfl
  | succ n ih =>
    intro hn
    rw [List.range'_1_concat, List.map_append, List.sum_append, ih (by omega),
      daysBeforeMonth_succ, monthLen_eq Y n (by omega)]
    simp

theorem daysSince1970_eq (c : RTC_datetime_t) (hy : 1970 ≤ c.year) (h1 : 1 ≤ c.month)
    (h2 : c.month ≤ 12) :
    daysSince1970 c.year c.month c.day
      = daysBeforeYear (c.year - 1970) + daysBeforeMonth (c.year - 1970) (c.month - 1)
        + (c.day - 1) := by
  unfold daysSince1970
  have h : c.year = 1970 + (c.year - 1970) := by omega
  rw [sum_yearLength]
  conv_lhs => rw [h]
  rw [sum_monthLength _ _ (by omega)]
  simp

set_option maxRecDepth 100000 in
theorem daysBeforeYear_136 : daysBeforeYear 136 = 49673 := by decide

/-! ## Round trips between epoch and calendar -/

theorem epoch_split (e : Nat) :
    86400 * (e / 86400) + 3600 * (e / 3600 % 24) + 60 * (e / 60 % 60) + e % 60 = e := by
  omega

/-- Every day number lies in exactly one year counted from 1970. -/
theorem exists_year (t : Nat) :
    ∃ Y, Y ≤ t ∧ daysBeforeYear Y ≤ t ∧ t < daysBeforeYear (Y + 1) := by
  have h := daysBeforeYear_ge (t + 1)
  obtain ⟨Y, h1, h2, h3⟩ := exists_bracket daysBeforeYear t (t + 1) (Nat.zero_le _) (by omega)
  exact ⟨Y, by omega, h2, h3⟩

/-- Every day of a year lies in exactly one of its twelve months. -/
theorem exists_month (Y d : Nat) (hd : d < yearDays Y) :
    ∃ m, m < 12 ∧ daysBeforeMonth Y m ≤ d ∧ d < daysBeforeMonth Y (m + 1) := by
  have h12 := daysBeforeMonth_twelve Y
  exact exists_bracket (daysBeforeMonth Y) d 12 (Nat.zero_le _) (by omega)

/-- C1: for every 32-bit epoch `e`, `dateTimeToEpoch` applied to the calendar
produced by `epochToDateTime(e)` returns `e`. -/
theorem dateTimeToEpoch_epochToDateTime (past : Nat → Nat) (dt : RTC_datetime_t) (e : Nat)
    (he : e < 2 ^ 32) :
    (dateTimeToEpoch past (epochToDateTime dt e)).1 = e := by
  obtain ⟨Y, hYt, hY1, hY2⟩ := exists_year (e / 86400)
  have hsucc := daysBeforeYear_succ Y
  obtain ⟨m, hm, hm1, hm2⟩ := exists_month Y (e / 86400 - daysBeforeYear Y) (by omega)
  have hYb := daysBeforeYear_ge Y
  rw [epochToDateTime_eq dt e Y m he hY1 hY2 hm hm1 hm2]
  rw [dateTimeToEpoch_closed past _ (by simp) (by simp; omega) (by simp; omega)]
  simp only [Nat.add_sub_cancel]
  have key := epoch_split e
  clear hsucc hm2 hY2 hYb hYt
  generalize daysBeforeYear Y = A at *
  generalize daysBeforeMonth Y m = B at *
  generalize e / 3600 % 24 = h at *
  generalize e / 60 % 60 = mi at *
  generalize e % 60 = sec at *
  generalize e / 86400 = t at *
  unfold wrap32
  omega

/-- C1, at the last epoch `0xFFFFFFFF` (2106-02-07T06:28:15). -/
theorem dateTimeToEpoch_epochToDateTime_witness :
    4294967295 < 2 ^ 32 ∧
    (dateTimeToEpoch (fun _ => 0)
      (epochToDateTime ⟨1, 0, 0, 0, 0, 0, 0, 0, 0, 0⟩ 4294967295)).1 = 4294967295 :=
  ⟨by decide, dateTimeToEpoch_epochToDateTime _ _ _ (by decide)⟩

/-- For a valid calendar value in the representable range, the accumulator of
`dateTimeToEpoch` never wraps: the result is the exact number of seconds. -/
theorem dateTimeToEpoch_exact (past : Nat → Nat) (c : RTC_datetime_t)
    (hv : ValidCalendar c) (hr : InEpochRange c) :
    (dateTimeToEpoch past c).1
      = 86400 * (daysBeforeYear (c.year - 1970) + daysBeforeMonth (c.year - 1970) (c.month - 1)
          + (c.day - 1)) + 3600 * c.hours + 60 * c.minutes + c.seconds
    ∧ 86400 * (daysBeforeYear (c.year - 1970) + daysBeforeMonth (c.year - 1970) (c.month - 1)
          + (c.day - 1)) + 3600 * c.hours + 60 * c.minutes + c.seconds < 2 ^ 32
    ∧ daysBeforeMonth (c.year - 1970) (c.month - 1) + c.day
        ≤ daysBeforeMonth (c.year - 1970) c.month
    ∧ daysBeforeMonth (c.year - 1970) c.month ≤ yearDays (c.year - 1970) := by
  obtain ⟨hm1, hm12, hd1, hdlen, hh, hmi, hs⟩ := hv
  obtain ⟨hy, hlast⟩ := hr
  obtain ⟨Y, hY⟩ : ∃ Y, c.year = 1970 + Y := ⟨c.year - 1970, by omega⟩
  obtain ⟨k, hk⟩ : ∃ k, c.month = 1 + k := ⟨c.month - 1, by omega⟩
  have hY' : c.year - 1970 = Y := by omega
  have hk' : c.month - 1 = k := by omega
  have hk12 : k < 12 := by omega
  rw [hY, hk, ← monthLen_eq Y k hk12] at hdlen
  have hmsucc : daysBeforeMonth Y c.month = daysBeforeMonth Y k + monthLen Y k := by
    rw [hk, Nat.add_comm 1 k]; rfl
  have hle12 : daysBeforeMonth Y c.month ≤ yearDays Y := by
    rw [← daysBeforeMonth_twelve Y]; exact daysBeforeMonth_mono Y hm12
  have hYsucc := daysBeforeYear_succ Y
  have hbound : 86400 * (daysBeforeYear Y + daysBeforeMonth Y k + (c.day - 1))
      + 3600 * c.hours + 60 * c.minutes + c.seconds < 2 ^ 32 := by
    rcases hlast with hlt | ⟨heq, hrest⟩
    · have h136 := daysBeforeYear_mono (show Y + 1 ≤ 136 by omega)
      rw [daysBeforeYear_136] at h136
      omega
    · have hY136 : Y = 136 := by omega
      subst hY136
      have hml := monthLen_le 136 k hk12
      rw [daysBeforeYear_136]
      rcases hrest with hmlt | ⟨hmeq, hrest⟩
      · have hk0 : k = 0 := by omega
        subst hk0
        have : daysBeforeMonth 136 0 = 0 := rfl
        omega
      · have hk1 : k = 1 := by omega
        subst hk1
        have : daysBeforeMonth 136 1 = 31 := by decide
        omega
  have hclosed := dateTimeToEpoch_closed past c hy (by
    rcases hlast with h | h <;> omega) (by omega)
  rw [hY', hk'] at hclosed ⊢
  refine ⟨?_, hbound, by omega, hle12⟩
  rw [hclosed]
  clear hclosed hle12 hmsucc hdlen hlast hYsucc
  generalize daysBeforeYear Y = A at *
  generalize daysBeforeMonth Y k = B at *
  unfold wrap32
  omega

/-- C3: for a valid calendar value between 1970-01-01T00:00:00 and
2106-02-07T06:28:15, `dateTimeToEpoch` returns
`86400 * D + 3600 * hours + 60 * minutes + seconds`, with `D` the number of
days from 1970-01-01 to the date in the Gregorian calendar; the value is
exact, below `2^32`; and the driver's leap test agrees with the Gregorian rule
on 1972 and 2000 (leap) and on 2100 (not leap). -/
theorem dateTimeToEpoch_gregorian (past : Nat → Nat) (c : RTC_datetime_t)
    (hv : ValidCalendar c) (hr : InEpochRange c) :
    (dateTimeToEpoch past c).1
      = 86400 * daysSince1970 c.year c.month c.day
          + 3600 * c.hours + 60 * c.minutes + c.seconds
    ∧ 86400 * daysSince1970 c.year c.month c.day
          + 3600 * c.hours + 60 * c.minutes + c.seconds < 2 ^ 32
    ∧ (∀ Y, IS_LEAP_YEAR Y = isGregorianLeap (1970 + Y))
    ∧ IS_LEAP_YEAR (1972 - 1970) = true ∧ IS_LEAP_YEAR (2000 - 1970) = true
    ∧ IS_LEAP_YEAR (2100 - 1970) = false := by
  have h := dateTimeToEpoch_exact past c hv hr
  rw [daysSince1970_eq c hr.1 hv.1 hv.2.1]
  exact ⟨h.1, h.2.1, IS_LEAP_YEAR_eq, by decide, by decide, by decide⟩

/-- C3, at 2000-03-01T12:30:45, the day after a leap day. -/
theorem dateTimeToEpoch_gregorian_witness :
    ValidCalendar ⟨1, 0, 45, 30, 12, 0, 1, 0, 3, 2000⟩ ∧
    InEpochRange ⟨1, 0, 45, 30, 12, 0, 1, 0, 3, 2000⟩ ∧
    (dateTimeToEpoch (fun _ => 0) ⟨1, 0, 45, 30, 12, 0, 1, 0, 3, 2000⟩).1
      = 86400 * daysSince1970 2000 3 1 + 3600 * 12 + 60 * 30 + 45 :=
  ⟨by decide, by decide,
    (dateTimeToEpoch_gregorian (fun _ => 0) ⟨1, 0, 45, 30, 12, 0, 1, 0, 3, 2000⟩
      (by decide) (by decide)).1⟩

/-- C2: for a valid 24-hour calendar value `c` between 1970-01-01T00:00:00 and
2106-02-07T06:28:15, `epochToDateTime(dateTimeToEpoch(c))` has the year, month,
day, hours, minutes and seconds of `c`. -/
theorem epochToDateTime_dateTimeToEpoch (past : Nat → Nat) (dt c : RTC_datetime_t)
    (hv : ValidCalendar c) (hr : InEpochRange c) :
    (epochToDateTime dt (dateTimeToEpoch past c).1).year = c.year ∧
    (epochToDateTime dt (dateTimeToEpoch past c).1).month = c.month ∧
    (epochToDateTime dt (dateTimeToEpoch past c).1).day = c.day ∧
    (epochToDateTime dt (dateTimeToEpoch past c).1).hours = c.hours ∧
    (epochToDateTime dt (dateTimeToEpoch past c).1).minutes = c.minutes ∧
    (epochToDateTime dt (dateTimeToEpoch past c).1).seconds = c.seconds := by
  obtain ⟨hE, hlt, hday, hmon⟩ := dateTimeToEpoch_exact past c hv hr
  obtain ⟨hm1, hm12, hd1, hdlen, hh, hmi, hs⟩ := hv
  obtain ⟨hy, -⟩ := hr
  obtain ⟨Y, hY⟩ : ∃ Y, c.year = 1970 + Y := ⟨c.year - 1970, by omega⟩
  obtain ⟨k, hk⟩ : ∃ k, c.month = k + 1 := ⟨c.month - 1, by omega⟩
  have hY' : c.year - 1970 = Y := by omega
  have hk' : c.month - 1 = k := by omega
  rw [hY', hk'] at hE hlt hday
  rw [hY'] at hmon
  rw [hk] at hmon hday
  have hYsucc := daysBeforeYear_succ Y
  have hksucc := daysBeforeMonth_succ Y k
  generalize (dateTimeToEpoch past c).1 = E at *
  have hdiv : E / 86400 = daysBeforeYear Y + daysBeforeMonth Y k + (c.day - 1) := by omega
  rw [epochToDateTime_eq dt E Y k (by omega) (by omega) (by omega) (by omega) (by omega) (by omega)]
  simp only
  refine ⟨by omega, by omega, by omega, by omega, by omega, by omega⟩

/-- C2, at the last representable second, 2106-02-07T06:28:15. -/
theorem epochToDateTime_dateTimeToEpoch_witness :
    ValidCalendar ⟨1, 0, 15, 28, 6, 0, 7, 0, 2, 2106⟩ ∧
    InEpochRange ⟨1, 0, 15, 28, 6, 0, 7, 0, 2, 2106⟩ ∧
    (epochToDateTime ⟨1, 0, 0, 0, 0, 0, 0, 0, 0, 0⟩
      (dateTimeToEpoch (fun _ => 0) ⟨1, 0, 15, 28, 6, 0, 7, 0, 2, 2106⟩).1).year = 2106 :=
  ⟨by decide, by decide,
    (epochToDateTime_dateTimeToEpoch (fun _ => 0) ⟨1, 0, 0, 0, 0, 0, 0, 0, 0, 0⟩
      ⟨1, 0, 15, 28, 6, 0, 7, 0, 2, 2106⟩ (by decide) (by decide)).1⟩

/-! ## Weekday and hour format -/

theorem epochToDateTime_hours (dt : RTC_datetime_t) (e : Nat) :
    (epochToDateTime dt e).hours = e / 3600 % 24 := by
  show e / 60 / 60 % 24 = e / 3600 % 24
  omega

theorem epochToDateTime_hour_format (dt : RTC_datetime_t) (e : Nat) :
    (epochToDateTime dt e).hour_format = dt.hour_format := rfl

/-- C4: `epochToDateTime(e)` sets `weekday` to `(floor(e / 86400) + 4) mod 7`
with 0 = Sunday: epoch 0 gives 4, named Thursday, epoch 86400 gives 5, named
Friday, and `getWeekdayName` maps each index 0..6 to the day of that index in
a week that starts on Sunday. -/
theorem epochToDateTime_weekday (dt : RTC_datetime_t) (e : Nat) :
    (epochToDateTime dt e).weekday = (e / 86400 + 4) % 7 ∧
    getWeekdayName (epochToDateTime dt e).weekday
      = ["Sunday", "Monday", "Tuesday", "Wednesday", "Thursday", "Friday", "Saturday"].getD
          ((e / 86400 + 4) % 7) "" ∧
    (epochToDateTime dt 0).weekday = 4 ∧ getWeekdayName 4 = "Thursday" ∧
    (epochToDateTime dt 86400).weekday = 5 ∧ getWeekdayName 5 = "Friday" := by
  have hw : ∀ x, (epochToDateTime dt x).weekday = (x / 86400 + 4) % 7 := by
    intro x
    show (x / 60 / 60 / 24 + 4) % 7 % 2 ^ 8 = (x / 86400 + 4) % 7
    omega
  have h7 : (e / 86400 + 4) % 7 < 7 := Nat.mod_lt _ (by decide)
  refine ⟨hw e, ?_, hw 0, by decide, hw 86400, by decide⟩
  rw [hw e]
  unfold getWeekdayName dayNames
  simp only [show ¬ ((e / 86400 + 4) % 7 > 6) by omega, if_false]

/-- C5: with `h = floor(e / 3600) mod 24` for the counter value `e`:
`getDateTime` in 12-hour format returns `hours = 12` when `h mod 12 = 0` and
`h mod 12` otherwise, a value in 1..12, with `am_pm = PM` exactly when
`h >= 12` and `AM` otherwise; in 24-hour format it returns `hours = h` and
`am_pm = AM`.  The format in force is the argument, or the struct's field when
the argument is `RTC_HOUR_FORMAT_UNDEF`. -/
theorem getDateTime_hours (s : RTC) (dt : RTC_datetime_t) (fmt : Nat) :
    ((fmt = RTC_HOUR_FORMAT_12 ∨
        (fmt = RTC_HOUR_FORMAT_UNDEF ∧ dt.hour_format = RTC_HOUR_FORMAT_12)) →
      (getDateTime s dt fmt).hours
        = (if (getEpoch s / 3600 % 24) % 12 = 0 then 12 else (getEpoch s / 3600 % 24) % 12) ∧
      1 ≤ (getDateTime s dt fmt).hours ∧ (getDateTime s dt fmt).hours ≤ 12 ∧
      ((getDateTime s dt fmt).am_pm = RTC_HOUR_PM ↔ 12 ≤ getEpoch s / 3600 % 24) ∧
      ((getDateTime s dt fmt).am_pm = RTC_HOUR_AM ↔ getEpoch s / 3600 % 24 < 12)) ∧
    ((fmt = RTC_HOUR_FORMAT_24 ∨
        (fmt = RTC_HOUR_FORMAT_UNDEF ∧ dt.hour_format = RTC_HOUR_FORMAT_24)) →
      (getDateTime s dt fmt).hours = getEpoch s / 3600 % 24 ∧
      (getDateTime s dt fmt).am_pm = RTC_HOUR_AM) := by
  generalize hh : getEpoch s / 3600 % 24 = h
  have hlt : h < 24 := by rw [← hh]; exact Nat.mod_lt _ (by decide)
  constructor
  · intro hfmt
    have h12 : (epochToDateTime
        (if fmt ≠ RTC_HOUR_FORMAT_UNDEF then { dt with hour_format := fmt } else dt)
        (getEpoch s)).hour_format = RTC_HOUR_FORMAT_12 := by
      rw [epochToDateTime_hour_format]
      rcases hfmt with h | ⟨h1, h2⟩
      · subst h; simp [RTC_HOUR_FORMAT_12, RTC_HOUR_FORMAT_UNDEF]
      · subst h1; simpa using h2
    unfold getDateTime
    simp only [h12, if_true, epochToDateTime_hours, hh]
    by_cases h0 : h % 12 = 0
    · simp only [h0, if_true]
      refine ⟨trivial, by omega, by omega, ?_, ?_⟩ <;>
        by_cases hge : h ≥ 12 <;> simp [hge, RTC_HOUR_PM, RTC_HOUR_AM]
      all_goals omega
    · simp only [h0, if_false]
      refine ⟨trivial, by omega, by omega, ?_, ?_⟩ <;>
        by_cases hge : h ≥ 12 <;> simp [hge, RTC_HOUR_PM, RTC_HOUR_AM]
      all_goals omega
  · intro hfmt
    have h24 : ¬ (epochToDateTime
        (if fmt ≠ RTC_HOUR_FORMAT_UNDEF then { dt with hour_format := fmt } else dt)
        (getEpoch s)).hour_format = RTC_HOUR_FORMAT_12 := by
      rw [epochToDateTime_hour_format]
      rcases hfmt with h | ⟨h1, h2⟩
      · subst h; simp [RTC_HOUR_FORMAT_12, RTC_HOUR_FORMAT_24, RTC_HOUR_FORMAT_UNDEF]
      · subst h1; simp [h2, RTC_HOUR_FORMAT_12, RTC_HOUR_FORMAT_24]
    unfold getDateTime
    simp only [h24, if_false, epochToDateTime_hours, hh]
    exact ⟨trivial, trivial⟩

/-! ## Bit masks -/

theorem testBit_lt_of_lt {m n i : Nat} (hm : m < 2 ^ n) (h : m.testBit i = true) : i < n := by
  by_contra hge
  have h2 : m < 2 ^ i := lt_of_lt_of_le hm (Nat.pow_le_pow_right (by decide) (by omega))
  rw [Nat.testBit_lt_two_pow h2] at h
  exact Bool.noConfusion h

theorem testBit_ones32 (i : Nat) : (0xFFFFFFFF : Nat).testBit i = decide (i < 32) := by
  have h : (0xFFFFFFFF : Nat) = 2 ^ 32 - 1 := by norm_num
  rw [h, Nat.testBit_two_pow_sub_one]

theorem testBit_ones16 (i : Nat) : (0xFFFF : Nat).testBit i = decide (i < 16) := by
  have h : (0xFFFF : Nat) = 2 ^ 16 - 1 := by norm_num
  rw [h, Nat.testBit_two_pow_sub_one]

theorem testBit_two (i : Nat) : (2 : Nat).testBit i = decide (i = 1) := by
  have h : (2 : Nat) = 2 ^ 1 := rfl
  rw [h, Nat.testBit_two_pow]
  simp [eq_comm]

/-- Setting the bits of a mask leaves them set. -/
theorem or_and_mask (x m : Nat) : (x ||| m) &&& m = m := by
  apply Nat.eq_of_testBit_eq; intro i
  rw [Nat.testBit_and, Nat.testBit_or]
  cases x.testBit i <;> cases m.testBit i <;> rfl

/-- Clearing the bits of a 32-bit mask leaves them clear. -/
theorem and_not32_and_mask (x m : Nat) (hm : m < 2 ^ 32) : (x &&& not32 m) &&& m = 0 := by
  apply Nat.eq_of_testBit_eq; intro i
  rw [Nat.testBit_and, Nat.testBit_and, not32, Nat.testBit_xor, testBit_ones32,
    Nat.zero_testBit]
  cases hmi : m.testBit i
  · simp
  · have := testBit_lt_of_lt hm hmi
    simp [this]

/-- Clearing the bits of a mask in a 32-bit cell changes no other bit. -/
theorem testBit_and_not32 (x m i : Nat) (hx : x < 2 ^ 32) :
    (x &&& not32 m).testBit i = (x.testBit i && !m.testBit i) := by
  rw [Nat.testBit_and, not32, Nat.testBit_xor, testBit_ones32]
  cases hxi : x.testBit i
  · simp
  · have := testBit_lt_of_lt hx hxi
    simp [this]

/-- Clearing the bits of a 16-bit mask in a 16-bit word leaves them clear. -/
theorem and_not16_and_mask (x m : Nat) (hm : m < 2 ^ 16) :
    ((x &&& not16 m) % 2 ^ 16) &&& m = 0 := by
  apply Nat.eq_of_testBit_eq; intro i
  rw [Nat.testBit_and, Nat.testBit_mod_two_pow, Nat.testBit_and, not16, Nat.testBit_xor,
    testBit_ones16, Nat.zero_testBit]
  cases hmi : m.testBit i
  · simp
  · have := testBit_lt_of_lt hm hmi
    simp [this]

/-- Clearing the bits of a mask in a 16-bit word changes no other bit. -/
theorem testBit_and_not16 (x m i : Nat) (hx : x < 2 ^ 16) :
    ((x &&& not16 m) % 2 ^ 16).testBit i = (x.testBit i && !m.testBit i) := by
  rw [Nat.testBit_mod_two_pow, Nat.testBit_and, not16, Nat.testBit_xor, testBit_ones16]
  cases hxi : x.testBit i
  · simp
  · have := testBit_lt_of_lt hx hxi
    simp [this]

/-- Setting the bits of a 16-bit mask in a 16-bit word leaves them set. -/
theorem or_mod16_and_mask (x m : Nat) (hm : m < 2 ^ 16) : ((x ||| m) % 2 ^ 16) &&& m = m := by
  apply Nat.eq_of_testBit_eq; intro i
  rw [Nat.testBit_and, Nat.testBit_mod_two_pow, Nat.testBit_or]
  cases hmi : m.testBit i
  · simp
  · have := testBit_lt_of_lt hm hmi
    simp [this]

/-- The upper and the lower 16 bits of a value recombine to it. -/
theorem combine_halves_or (e : Nat) : ((e >>> 16) <<< 16) ||| (e &&& 0xFFFF) = e := by
  have h : (0xFFFF : Nat) = 2 ^ 16 - 1 := by norm_num
  rw [Nat.shiftRight_eq_div_pow, Nat.shiftLeft_eq, h, Nat.and_pow_two_sub_one_eq_mod,
    Nat.mul_comm, ← Nat.mul_add_lt_is_or (Nat.mod_lt _ (by norm_num)), Nat.div_add_mod]

/-- The two 16-bit halves of a 32-bit value recombine to it. -/
theorem combine_halves (e : Nat) (he : e < 2 ^ 32) :
    (((e >>> 16) <<< 16) ||| (e &&& 0xFFFF)) % 2 ^ 32 = e := by
  rw [combine_halves_or]
  exact Nat.mod_eq_of_lt he

theorem testBit_four (i : Nat) : (4 : Nat).testBit i = decide (i = 2) := by
  have h : (4 : Nat) = 2 ^ 2 := rfl
  rw [h, Nat.testBit_two_pow]
  simp [eq_comm]

/-- Clearing the bits of a mask twice is clearing them once (32-bit cell). -/
theorem and_not32_idem (x m : Nat) : (x &&& not32 m) &&& not32 m = x &&& not32 m := by
  rw [Nat.and_assoc, Nat.and_self]

/-- Clearing the bits of a mask twice is clearing them once (16-bit word). -/
theorem and_not16_idem (x m : Nat) :
    (((x &&& not16 m) % 2 ^ 16) &&& not16 m) % 2 ^ 16 = (x &&& not16 m) % 2 ^ 16 := by
  apply Nat.eq_of_testBit_eq; intro i
  simp only [Nat.testBit_mod_two_pow, Nat.testBit_and]
  cases x.testBit i <;> cases (not16 m).testBit i <;> cases decide (i < 16) <;> rfl

/-- Clearing `ALARM_SET` (bit 1) does not touch `CONFIGURED` (bit 2). -/
theorem clear_alarm_keeps_configured (x : Nat) :
    ((x &&& not16 BACKUP_ALARM_SET_FLAG) % 2 ^ 16) &&& BACKUP_CONFIGURED_FLAG
      = x &&& BACKUP_CONFIGURED_FLAG := by
  apply Nat.eq_of_testBit_eq; intro i
  simp only [Nat.testBit_and, Nat.testBit_mod_two_pow, not16, Nat.testBit_xor, testBit_ones16,
    BACKUP_ALARM_SET_FLAG, BACKUP_CONFIGURED_FLAG, testBit_two, testBit_four]
  by_cases h2 : i = 2
  · subst h2; simp
  · simp [h2]

/-! ## What the configuration gate leaves alone -/

/-- A wait loop changes `RTC_CRL` (through the hardware) and `tick` only. -/
theorem pollLoop_frame (env : Env) (tmo : Nat) (busy : Nat → Bool) (fail : Nat) :
    ∀ n s r s', pollLoop env tmo busy fail n s = some (r, s') →
      s' = { s with RTC_CRL := s'.RTC_CRL, tick := s'.tick } := by
  intro n
  induction n with
  | zero => intro s r s' h; simp [pollLoop] at h
  | succ n ih =>
    intro s r s' h
    unfold pollLoop at h
    simp only at h
    split at h
    · split at h
      · simp only [Option.some.injEq, Prod.mk.injEq] at h
        rw [← h.2]
      · have := ih _ r s' h
        rw [this]
    · simp only [Option.some.injEq, Prod.mk.injEq] at h
      rw [← h.2]

/-- Method `rtc_config` changes `RTC_CRL` and `tick` only. -/
theorem rtc_config_frame (env : Env) (fuel cfg : Nat) (s : RTC) (r : Nat) (s' : RTC)
    (h : rtc_config env fuel cfg s = some (r, s')) :
    s' = { s with RTC_CRL := s'.RTC_CRL, tick := s'.tick } := by
  unfold rtc_config at h
  simp only at h
  split at h
  · split at h
    · exact Option.noConfusion h
    · rename_i retn s1 hp
      have hf := pollLoop_frame _ _ _ _ _ _ _ _ hp
      split at h
      · simp only [Option.some.injEq, Prod.mk.injEq] at h
        rw [← h.2, hf]
      · simp only [Option.some.injEq, Prod.mk.injEq] at h
        rw [← h.2, hf]
  · split at h
    · have hf := pollLoop_frame _ _ _ _ _ _ _ _ h
      rw [hf]
    · simp only [Option.some.injEq, Prod.mk.injEq] at h
      rw [← h.2]

theorem dateTimeToEpoch_lt (past : Nat → Nat) (c : RTC_datetime_t) :
    (dateTimeToEpoch past c).1 < 2 ^ 32 := by
  unfold dateTimeToEpoch
  exact Nat.mod_lt _ (by norm_num)

/-! ## Setting the counter -/

/-- After the two counter halves of a 32-bit value are stored, whatever the
gate reports, `setEpoch` ends with the counter holding that value. -/
theorem setEpoch_counter (env : Env) (fuel e : Nat) (s s1 s2 : RTC) (r1 r2 : Nat)
    (he : e < 2 ^ 32)
    (henter : rtc_config env fuel CONFIG_ENTER { s with irq := false } = some (r1, s1))
    (hexit : rtc_config env fuel CONFIG_EXIT
      { s1 with RTC_CNTH := e >>> 16, RTC_CNTL := e &&& 0xFFFF } = some (r2, s2)) :
    ∃ s', setEpoch env fuel e s = some s' ∧
      s'.RTC_CNTH = e >>> 16 ∧ s'.RTC_CNTL = e &&& 0xFFFF ∧ getEpoch s' = e := by
  have hf := rtc_config_frame _ _ _ _ _ _ hexit
  have hH : s2.RTC_CNTH = e >>> 16 := by rw [hf]
  have hL : s2.RTC_CNTL = e &&& 0xFFFF := by rw [hf]
  refine ⟨_statusFlagChange BACKUP_TIME_SET_FLAG true { s2 with irq := true }, ?_, hH, hL, ?_⟩
  · unfold setEpoch
    simp only [henter]
    rw [hexit]
  · show ((s2.RTC_CNTH <<< 16) ||| s2.RTC_CNTL) % 2 ^ 32 = e
    rw [hH, hL]
    exact combine_halves e he

/-- C6: when the RTC is configured and neither gate step times out,
`setDateTime(c)` writes to the counter `dateTimeToEpoch(c) + 43200` modulo
`2^32` if `c.hour_format` is 12-hour and `c.am_pm` is PM, and exactly
`dateTimeToEpoch(c)` otherwise: the high register receives the upper half, the
low register the lower half, and `getEpoch` reads the value back. -/
theorem setDateTime_counter (past : Nat → Nat) (env : Env) (fuel : Nat) (c : RTC_datetime_t)
    (s s1 s2 : RTC) (E : Nat)
    (hE : E = if c.hour_format = RTC_HOUR_FORMAT_12 ∧ c.am_pm = RTC_HOUR_PM
      then ((dateTimeToEpoch past c).1 + 43200) % 2 ^ 32 else (dateTimeToEpoch past c).1)
    (hconf : isConfigured s = true)
    (henter : rtc_config env fuel CONFIG_ENTER { s with irq := false } = some (RTC_OK, s1))
    (hexit : rtc_config env fuel CONFIG_EXIT
      { s1 with RTC_CNTH := E >>> 16, RTC_CNTL := E &&& 0xFFFF } = some (RTC_OK, s2)) :
    ∃ c' s', setDateTime past env fuel c s = some (c', s') ∧
      s'.RTC_CNTH = E >>> 16 ∧ s'.RTC_CNTL = E &&& 0xFFFF ∧ getEpoch s' = E := by
  have hlt := dateTimeToEpoch_lt past c
  have hE32 : E < 2 ^ 32 := by
    rw [hE]; split
    · exact Nat.mod_lt _ (by norm_num)
    · exact hlt
  obtain ⟨s', hs', h1, h2, h3⟩ := setEpoch_counter env fuel E s s1 s2 _ _ hE32 henter hexit
  refine ⟨(dateTimeToEpoch past c).2, s', ?_, h1, h2, h3⟩
  have hfmt : (dateTimeToEpoch past c).2.hour_format = c.hour_format := rfl
  have hap : (dateTimeToEpoch past c).2.am_pm = c.am_pm := rfl
  have h43 : SECS_PER_DAY / 2 = 43200 := by decide
  unfold setDateTime
  simp only [hconf, if_true, hfmt, hap, h43, ← hE, hs']

/-- C6, on a configured RTC whose hardware is ready at once: 01:00:00 PM of
1970-01-01 in 12-hour format is stored as `3600 + 43200`. -/
theorem setDateTime_counter_witness :
    isConfigured RTC.configured = true ∧
    ∃ c' s', setDateTime (fun _ => 0) Env.ready 1 ⟨0, 1, 0, 0, 1, 0, 1, 0, 1, 1970⟩
        RTC.configured = some (c', s') ∧
      s'.RTC_CNTH = 46800 >>> 16 ∧ s'.RTC_CNTL = 46800 &&& 0xFFFF ∧ getEpoch s' = 46800 :=
  ⟨by decide,
    setDateTime_counter (fun _ => 0) Env.ready 1 ⟨0, 1, 0, 0, 1, 0, 1, 0, 1, 1970⟩
      RTC.configured
      { RTC.configured with irq := false, RTC_CRL := 0x30, tick := 2 }
      { RTC.configured with
        irq := false, RTC_CRL := 0x28, tick := 4, RTC_CNTH := 0, RTC_CNTL := 46800 }
      46800 (by decide) (by decide) rfl rfl⟩

/-! ## The alarm -/

/-- C7: for every state and every target epoch `t` with `t <= getEpoch()`,
`setAlarmFromEpoch(t)` returns `RTC_INVALID_PARAM` and leaves the whole state
unchanged, registers, interrupt bits and status flags alike; in particular for
`t = getEpoch()` and, when the counter is not 0, for the 32-bit value
`getEpoch() - 1`. -/
theorem setAlarmFromEpoch_rejects (env : Env) (fuel t : Nat) (s : RTC) (ht : t ≤ getEpoch s) :
    setAlarmFromEpoch env fuel t s = some (RTC_INVALID_PARAM, s) ∧
    setAlarmFromEpoch env fuel (getEpoch s) s = some (RTC_INVALID_PARAM, s) ∧
    (1 ≤ getEpoch s →
      setAlarmFromEpoch env fuel ((getEpoch s + 2 ^ 32 - 1) % 2 ^ 32) s
        = some (RTC_INVALID_PARAM, s)) := by
  have hlt : getEpoch s < 2 ^ 32 := Nat.mod_lt _ (by norm_num)
  refine ⟨?_, ?_, ?_⟩
  · unfold setAlarmFromEpoch
    rw [if_pos ht]
  · unfold setAlarmFromEpoch
    rw [if_pos (Nat.le_refl _)]
  · intro h1
    have hle : (getEpoch s + 2 ^ 32 - 1) % 2 ^ 32 ≤ getEpoch s := by omega
    unfold setAlarmFromEpoch
    rw [if_pos hle]

/-- C7, with the counter at 100 and the target at 99. -/
theorem setAlarmFromEpoch_rejects_witness :
    99 ≤ getEpoch RTC.configured ∧
    setAlarmFromEpoch Env.ready 1 99 RTC.configured = some (RTC_INVALID_PARAM, RTC.configured) :=
  ⟨by decide, (setAlarmFromEpoch_rejects Env.ready 1 99 RTC.configured (by decide)).1⟩

/-- C8: for a target epoch `t > getEpoch()`, when both gate steps
succeed `setAlarmFromEpoch(t)` returns `RTC_OK`, and afterwards the alarm high
register holds `t >> 16`, the low register `t & 0xFFFF`, so that
`(ALRH << 16) | ALRL = t`; `ALRIE` is set; the pending flag `ALARMF` is clear;
EXTI line 17 is set in the interrupt mask and in the rising-edge register; and
`ALARM_SET` is set in status word 0, mirror and hardware. -/
theorem setAlarmFromEpoch_arms (env : Env) (fuel t : Nat) (s s1 s2 : RTC)
    (ht : getEpoch s < t)
    (henter : rtc_config env fuel CONFIG_ENTER
      { s with irq := false, RTC_CRH := s.RTC_CRH &&& not32 RTC_ALRIE } = some (RTC_OK, s1))
    (hexit : rtc_config env fuel CONFIG_EXIT
      { s1 with RTC_ALRH := t >>> 16, RTC_ALRL := t &&& 0xFFFF } = some (RTC_OK, s2)) :
    ∃ s', setAlarmFromEpoch env fuel t s = some (RTC_OK, s') ∧
      s'.RTC_ALRH = t >>> 16 ∧ s'.RTC_ALRL = t &&& 0xFFFF ∧
      (s'.RTC_ALRH <<< 16) ||| s'.RTC_ALRL = t ∧
      s'.RTC_CRH &&& RTC_ALRIE = RTC_ALRIE ∧
      s'.RTC_CRL &&& RTC_CRL_ALARMF = 0 ∧
      s'.EXTI_IMR &&& EXTI_LINE17 = EXTI_LINE17 ∧
      s'.EXTI_RTSR &&& EXTI_LINE17 = EXTI_LINE17 ∧
      s'._RTC_BackupRegs 0 &&& BACKUP_ALARM_SET_FLAG = BACKUP_ALARM_SET_FLAG ∧
      s'.bkup_regs 0 &&& BACKUP_ALARM_SET_FLAG = BACKUP_ALARM_SET_FLAG ∧
      isAlarmEnabled s' = true := by
  have hf := rtc_config_frame _ _ _ _ _ _ hexit
  have hH : s2.RTC_ALRH = t >>> 16 := by rw [hf]
  have hL : s2.RTC_ALRL = t &&& 0xFFFF := by rw [hf]
  have hflag : ((s2._RTC_BackupRegs 0 ||| BACKUP_ALARM_SET_FLAG) % 2 ^ 16)
      &&& BACKUP_ALARM_SET_FLAG = BACKUP_ALARM_SET_FLAG :=
    or_mod16_and_mask _ _ (by decide)
  refine ⟨_statusFlagChange BACKUP_ALARM_SET_FLAG true
    { s2 with
      RTC_CRL := s2.RTC_CRL &&& not32 RTC_CRL_ALARMF
      RTC_CRH := s2.RTC_CRH ||| RTC_ALRIE
      EXTI_IMR := s2.EXTI_IMR ||| EXTI_LINE17
      EXTI_RTSR := s2.EXTI_RTSR ||| EXTI_LINE17
      irq := true }, ?_, hH, hL, ?_, ?_, ?_, ?_, ?_, ?_, ?_, ?_⟩
  · unfold setAlarmFromEpoch
    rw [if_neg (by omega)]
    simp only
    rw [henter]
    simp only
    rw [hexit]
  · show (s2.RTC_ALRH <<< 16) ||| s2.RTC_ALRL = t
    rw [hH, hL]
    exact combine_halves_or t
  · exact or_and_mask _ _
  · exact and_not32_and_mask _ _ (by decide)
  · exact or_and_mask _ _
  · exact or_and_mask _ _
  · simpa [_statusFlagChange, setBackup] using hflag
  · simpa [_statusFlagChange, setBackup] using hflag
  · have h0 : BACKUP_ALARM_SET_FLAG > 0 := by decide
    simp only [isAlarmEnabled, _statusFlagChange, setBackup, if_true, decide_eq_true_eq]
    simp only [show ¬ (0 > 9) by decide, if_false, Function.update_same]
    rw [hflag]; exact h0

/-- C8, on a configured RTC whose hardware is ready at once, with the counter at
100 and the target at `0x12345`. -/
theorem setAlarmFromEpoch_arms_witness :
    getEpoch RTC.configured < 0x12345 ∧
    ∃ s', setAlarmFromEpoch Env.ready 1 0x12345 RTC.configured = some (RTC_OK, s') ∧
      s'.RTC_ALRH = 1 ∧ s'.RTC_ALRL = 0x2345 ∧ isAlarmEnabled s' = true := by
  refine ⟨by decide, ?_⟩
  obtain ⟨s', h, h1, h2, -, -, -, -, -, -, -, h3⟩ :=
    setAlarmFromEpoch_arms Env.ready 1 0x12345 RTC.configured
      { RTC.configured with irq := false, RTC_CRL := 0x30, tick := 2 }
      { RTC.configured with
        irq := false, RTC_CRL := 0x28, tick := 4, RTC_ALRH := 1, RTC_ALRL := 0x2345 }
      (by decide) rfl rfl
  exact ⟨s', h, h1, h2, h3⟩

/-- C9: `setAlarmDateTime(c)` returns the same result and leaves the same
register and flag state as `setAlarmFromEpoch(E)`, where `E` is
`dateTimeToEpoch(c) + 43200` modulo `2^32` if `c` is 12-hour format and PM, and
`dateTimeToEpoch(c)` otherwise; a call still waiting in a gate loop is still
waiting in both. -/
theorem setAlarmDateTime_eq_setAlarmFromEpoch (past : Nat → Nat) (env : Env) (fuel : Nat)
    (c : RTC_datetime_t) (s : RTC) :
    (setAlarmDateTime past env fuel c s).map (fun r => (r.1, r.2.2))
      = setAlarmFromEpoch env fuel
          (if c.hour_format = RTC_HOUR_FORMAT_12 ∧ c.am_pm = RTC_HOUR_PM
            then ((dateTimeToEpoch past c).1 + 43200) % 2 ^ 32 else (dateTimeToEpoch past c).1)
          s := by
  have hfmt : (dateTimeToEpoch past c).2.hour_format = c.hour_format := rfl
  have hap : (dateTimeToEpoch past c).2.am_pm = c.am_pm := rfl
  have h43 : SECS_PER_DAY / 2 = 43200 := by decide
  unfold setAlarmDateTime
  simp only [hfmt, hap, h43]
  generalize (if c.hour_format = RTC_HOUR_FORMAT_12 ∧ c.am_pm = RTC_HOUR_PM
    then ((dateTimeToEpoch past c).1 + 43200) % 2 ^ 32 else (dateTimeToEpoch past c).1) = E
  by_cases hle : E ≤ getEpoch s
  · rw [if_pos hle]
    unfold setAlarmFromEpoch
    rw [if_pos hle]
    rfl
  · rw [if_neg hle]
    cases setAlarmFromEpoch env fuel E s with
    | none => rfl
    | some r => rfl

/-- What `disableAlarm` does on a configured RTC, field by field. -/
theorem disableAlarm_configured (s : RTC) (hconf : isConfigured s = true) :
    disableAlarm s =
      { s with
        RTC_CRL := s.RTC_CRL &&& not32 RTC_CRL_ALARMF
        RTC_CRH := s.RTC_CRH &&& not32 RTC_ALRIE
        _RTC_BackupRegs := Function.update s._RTC_BackupRegs 0
          ((s._RTC_BackupRegs 0 &&& not16 BACKUP_ALARM_SET_FLAG) % 2 ^ 16)
        bkup_regs := Function.update s.bkup_regs 0
          ((s._RTC_BackupRegs 0 &&& not16 BACKUP_ALARM_SET_FLAG) % 2 ^ 16) } := by
  unfold disableAlarm
  rw [if_pos hconf]
  simp [_statusFlagChange, setBackup]

theorem disableAlarm_idem (s : RTC) : disableAlarm (disableAlarm s) = disableAlarm s := by
  cases hconf : isConfigured s
  · have h : disableAlarm s = s := by
      unfold disableAlarm; rw [hconf]; rfl
    rw [h, h]
  · have h1 := disableAlarm_configured s hconf
    have hconf' : isConfigured (disableAlarm s) = true := by
      rw [h1]
      unfold isConfigured at hconf ⊢
      simp only [Function.update_same, clear_alarm_keeps_configured]
      exact hconf
    rw [disableAlarm_configured _ hconf', h1]
    simp only [Function.update_same, Function.update_idem, and_not32_idem, and_not16_idem]

/-- C10, as the code has it: on a state with `CONFIGURED` set, `disableAlarm`
clears `ALRIE`, the pending flag `ALARMF` and the `ALARM_SET` status flag of the
mirror, and stores the new mirror word 0 into hardware word 0, so that
`ALARM_SET` is clear there too; it changes nothing else: every other field and
every other backup word is as before, and in a state whose cells are in range
the other bits of `RTC_CRL`, `RTC_CRH` and mirror word 0 are as before.  The
other bits of hardware word 0 are as before only when hardware word 0 agreed
with the mirror before the call.  On a state with `CONFIGURED` clear it leaves
the state unchanged.  Calling it twice gives the same state as calling it
once. -/
theorem disableAlarm_spec (s : RTC) :
    (isConfigured s = true →
      disableAlarm s =
        { s with
          RTC_CRL := (disableAlarm s).RTC_CRL
          RTC_CRH := (disableAlarm s).RTC_CRH
          _RTC_BackupRegs := Function.update s._RTC_BackupRegs 0
            ((disableAlarm s)._RTC_BackupRegs 0)
          bkup_regs := Function.update s.bkup_regs 0 ((disableAlarm s)._RTC_BackupRegs 0) } ∧
      (disableAlarm s).RTC_CRH &&& RTC_ALRIE = 0 ∧
      (disableAlarm s).RTC_CRL &&& RTC_CRL_ALARMF = 0 ∧
      (disableAlarm s)._RTC_BackupRegs 0 &&& BACKUP_ALARM_SET_FLAG = 0 ∧
      (disableAlarm s).bkup_regs 0 &&& BACKUP_ALARM_SET_FLAG = 0 ∧
      isAlarmEnabled (disableAlarm s) = false ∧
      (s.InRange → ∀ i, i ≠ 1 →
        (disableAlarm s).RTC_CRH.testBit i = s.RTC_CRH.testBit i ∧
        (disableAlarm s).RTC_CRL.testBit i = s.RTC_CRL.testBit i ∧
        ((disableAlarm s)._RTC_BackupRegs 0).testBit i = (s._RTC_BackupRegs 0).testBit i ∧
        (s.bkup_regs 0 = s._RTC_BackupRegs 0 →
          ((disableAlarm s).bkup_regs 0).testBit i = (s.bkup_regs 0).testBit i))) ∧
    (isConfigured s = false → disableAlarm s = s) ∧
    disableAlarm (disableAlarm s) = disableAlarm s := by
  refine ⟨?_, ?_, disableAlarm_idem s⟩
  · intro hconf
    have h := disableAlarm_configured s hconf
    have hm : ((s._RTC_BackupRegs 0 &&& not16 BACKUP_ALARM_SET_FLAG) % 2 ^ 16)
        &&& BACKUP_ALARM_SET_FLAG = 0 := and_not16_and_mask _ _ (by decide)
    rw [h]
    simp only [Function.update_same]
    refine ⟨trivial, and_not32_and_mask _ _ (by decide), and_not32_and_mask _ _ (by decide),
      hm, hm, ?_, ?_⟩
    · simp only [isAlarmEnabled, Function.update_same, hm]
      decide
    · intro hr i hi
      obtain ⟨hcrh, hcrl, -, -, -, -, -, -, -, hmir⟩ := hr
      have hbit : (2 : Nat).testBit i = false := by rw [testBit_two]; simpa using hi
      refine ⟨?_, ?_, ?_, ?_⟩
      · rw [testBit_and_not32 _ _ _ hcrh]
        simp [RTC_ALRIE, hbit]
      · rw [testBit_and_not32 _ _ _ hcrl]
        simp [RTC_CRL_ALARMF, hbit]
      · rw [testBit_and_not16 _ _ _ (hmir 0)]
        simp [BACKUP_ALARM_SET_FLAG, hbit]
      · intro hcoh
        rw [hcoh, testBit_and_not16 _ _ _ (hmir 0)]
        simp [BACKUP_ALARM_SET_FLAG, hbit]
  · intro hconf
    unfold disableAlarm
    rw [hconf]; rfl

/-- C10, on the configured example state with the alarm armed and pending. -/
theorem disableAlarm_spec_witness :
    isConfigured { RTC.configured with
      RTC_CRH := 3, RTC_CRL := 0x2A, _RTC_BackupRegs := fun _ => 7 } = true ∧
    (disableAlarm { RTC.configured with
      RTC_CRH := 3, RTC_CRL := 0x2A, _RTC_BackupRegs := fun _ => 7 }).RTC_CRH &&& RTC_ALRIE = 0 :=
  ⟨by decide,
    ((disableAlarm_spec { RTC.configured with
      RTC_CRH := 3, RTC_CRL := 0x2A, _RTC_BackupRegs := fun _ => 7 }).1 (by decide)).2.1⟩

/-- C10, as stated, fails on a configured state whose hardware word 0 differs
from the mirror: with the mirror word 0 at `7` and hardware word 0 at `4`,
`disableAlarm` stores the whole new mirror word `5` into hardware word 0, so
bit 0 of hardware word 0 (`TIME_SET`) changes from clear to set, which is more
than clearing `ALARM_SET`. -/
theorem disableAlarm_spec_counterexample :
    isConfigured { RTC.configured with
      RTC_CRH := 3, RTC_CRL := 0x2A, _RTC_BackupRegs := fun _ => 7 } = true ∧
    RTC.InRange { RTC.configured with
      RTC_CRH := 3, RTC_CRL := 0x2A, _RTC_BackupRegs := fun _ => 7 } ∧
    ({ RTC.configured with
      RTC_CRH := 3, RTC_CRL := 0x2A, _RTC_BackupRegs := fun _ => 7 } : RTC).bkup_regs 0 = 4 ∧
    (disableAlarm { RTC.configured with
      RTC_CRH := 3, RTC_CRL := 0x2A, _RTC_BackupRegs := fun _ => 7 }).bkup_regs 0 = 5 ∧
    (({ RTC.configured with
      RTC_CRH := 3, RTC_CRL := 0x2A, _RTC_BackupRegs := fun _ => 7 } : RTC).bkup_regs 0).testBit 0
      = false ∧
    ((disableAlarm { RTC.configured with
      RTC_CRH := 3, RTC_CRL := 0x2A, _RTC_BackupRegs := fun _ => 7 }).bkup_regs 0).testBit 0
      = true := by
  refine ⟨by decide, ?_, by decide, by decide, by decide, by decide⟩
  refine ⟨by decide, by decide, by decide, by decide, by decide, by decide, by decide,
    by decide, ?_, ?_⟩
  · intro i
    show (if i = 0 then 4 else 0) < 2 ^ 32
    split <;> decide
  · intro i
    show 7 < 2 ^ 16
    decide

/-- C5, with the counter at 13:00:00 of 1970-01-01: 12-hour format gives 1 PM. -/
theorem getDateTime_hours_witness :
    (getDateTime { RTC.configured with RTC_CNTL := 46800 } ⟨1, 0, 0, 0, 0, 0, 0, 0, 0, 0⟩
      RTC_HOUR_FORMAT_12).hours = 1 ∧
    (getDateTime { RTC.configured with RTC_CNTL := 46800 } ⟨1, 0, 0, 0, 0, 0, 0, 0, 0, 0⟩
      RTC_HOUR_FORMAT_12).am_pm = RTC_HOUR_PM :=
  have h := (getDateTime_hours { RTC.configured with RTC_CNTL := 46800 }
    ⟨1, 0, 0, 0, 0, 0, 0, 0, 0, 0⟩ RTC_HOUR_FORMAT_12).1 (Or.inl rfl)
  ⟨h.1, h.2.2.2.1.mpr (by decide)⟩

/-! ## The wait loops, poll by poll -/

theorem pollLoop_succ (env : Env) (tmo : Nat) (busy : Nat → Bool) (fail n : Nat) (s : RTC) :
    pollLoop env tmo busy fail (n + 1) s =
      if busy (env.hw s.tick s.RTC_CRL % 2 ^ 32) then
        if (env.millis (s.tick + 1) % 2 ^ 32 + 2 ^ 32 - tmo) % 2 ^ 32 > REG_TIMEOUT then
          some (fail, { s with RTC_CRL := env.hw s.tick s.RTC_CRL % 2 ^ 32, tick := s.tick + 2 })
        else pollLoop env tmo busy fail n
          { s with RTC_CRL := env.hw s.tick s.RTC_CRL % 2 ^ 32, tick := s.tick + 2 }
      else some (RTC_OK,
        { s with RTC_CRL := env.hw s.tick s.RTC_CRL % 2 ^ 32, tick := s.tick + 1 }) :=
  rfl

theorem polledCRL_zero (env : Env) (t0 v0 : Nat) :
    polledCRL env t0 v0 0 = env.hw t0 v0 % 2 ^ 32 := rfl

theorem polledCRL_succ (env : Env) (t0 v0 k : Nat) :
    polledCRL env t0 v0 (k + 1) = polledCRL env (t0 + 2) (env.hw t0 v0 % 2 ^ 32) k := rfl

theorem elapsedAt_zero (env : Env) (tmo t0 : Nat) :
    elapsedAt env tmo t0 0 = (env.millis (t0 + 1) % 2 ^ 32 + 2 ^ 32 - tmo) % 2 ^ 32 := rfl

theorem elapsedAt_succ (env : Env) (tmo t0 k : Nat) :
    elapsedAt env tmo t0 (k + 1) = elapsedAt env tmo (t0 + 2) k := by
  unfold elapsedAt
  have h : t0 + 2 * (k + 1) + 1 = t0 + 2 + 2 * k + 1 := by omega
  rw [h]

theorem polledCRL_lt (env : Env) (t0 v0 k : Nat) : polledCRL env t0 v0 k < 2 ^ 32 := by
  induction k generalizing t0 v0 with
  | zero => exact Nat.mod_lt _ (by norm_num)
  | succ k ih => rw [polledCRL_succ]; exact ih _ _

/-- A wait loop whose first `n` polls find the register busy with the timeout not
yet passed, and whose poll `n` finds it ready, ends at poll `n` with `RTC_OK`. -/
theorem pollLoop_ready (env : Env) (tmo : Nat) (busy : Nat → Bool) (fail : Nat) :
    ∀ n fuel s, n < fuel →
      (∀ k, k < n → busy (polledCRL env s.tick s.RTC_CRL k) = true ∧
        elapsedAt env tmo s.tick k ≤ REG_TIMEOUT) →
      busy (polledCRL env s.tick s.RTC_CRL n) = false →
      pollLoop env tmo busy fail fuel s =
        some (RTC_OK,
          { s with RTC_CRL := polledCRL env s.tick s.RTC_CRL n, tick := s.tick + 2 * n + 1 }) := by
  intro n
  induction n with
  | zero =>
    intro fuel s hf _ hr
    obtain ⟨f, rfl⟩ : ∃ f, fuel = f + 1 := ⟨fuel - 1, by omega⟩
    rw [polledCRL_zero] at hr
    rw [pollLoop_succ, hr]
    rfl
  | succ n ih =>
    intro fuel s hf hpre hr
    obtain ⟨f, rfl⟩ : ∃ f, fuel = f + 1 := ⟨fuel - 1, by omega⟩
    have h0 := hpre 0 (by omega)
    rw [polledCRL_zero, elapsedAt_zero] at h0
    rw [pollLoop_succ, h0.1, if_pos rfl, if_neg (by omega)]
    rw [ih f _ (by omega) (fun k hk => by
      have := hpre (k + 1) (by omega)
      rwa [polledCRL_succ, elapsedAt_succ] at this) (by rwa [polledCRL_succ] at hr)]
    have ht : s.tick + 2 + 2 * n + 1 = s.tick + 2 * (n + 1) + 1 := by omega
    simp only [polledCRL_succ, ht]

/-- A wait loop whose polls up to `n` find the register busy, with the timeout
first passed after poll `n`, ends at poll `n` with the failure code. -/
theorem pollLoop_timeout (env : Env) (tmo : Nat) (busy : Nat → Bool) (fail : Nat) :
    ∀ n fuel s, n < fuel →
      (∀ k, k < n → busy (polledCRL env s.tick s.RTC_CRL k) = true ∧
        elapsedAt env tmo s.tick k ≤ REG_TIMEOUT) →
      busy (polledCRL env s.tick s.RTC_CRL n) = true →
      elapsedAt env tmo s.tick n > REG_TIMEOUT →
      pollLoop env tmo busy fail fuel s =
        some (fail,
          { s with RTC_CRL := polledCRL env s.tick s.RTC_CRL n, tick := s.tick + 2 * n + 2 }) := by
  intro n
  induction n with
  | zero =>
    intro fuel s hf _ hb ht
    obtain ⟨f, rfl⟩ : ∃ f, fuel = f + 1 := ⟨fuel - 1, by omega⟩
    rw [polledCRL_zero] at hb
    rw [elapsedAt_zero] at ht
    rw [pollLoop_succ, hb, if_pos rfl, if_pos ht]
    rfl
  | succ n ih =>
    intro fuel s hf hpre hb ht
    obtain ⟨f, rfl⟩ : ∃ f, fuel = f + 1 := ⟨fuel - 1, by omega⟩
    have h0 := hpre 0 (by omega)
    rw [polledCRL_zero, elapsedAt_zero] at h0
    rw [pollLoop_succ, h0.1, if_pos rfl, if_neg (by omega)]
    rw [ih f _ (by omega) (fun k hk => by
      have := hpre (k + 1) (by omega)
      rwa [polledCRL_succ, elapsedAt_succ] at this) (by rwa [polledCRL_succ] at hb)
      (by rwa [elapsedAt_succ] at ht)]
    have ht2 : s.tick + 2 + 2 * n + 2 = s.tick + 2 * (n + 1) + 2 := by omega
    simp only [polledCRL_succ, ht2]

/-- A wait loop whose polls all find the register busy with the timeout not yet
passed is still waiting when the polls run out. -/
theorem pollLoop_waiting (env : Env) (tmo : Nat) (busy : Nat → Bool) (fail : Nat) :
    ∀ fuel s,
      (∀ k, k < fuel → busy (polledCRL env s.tick s.RTC_CRL k) = true ∧
        elapsedAt env tmo s.tick k ≤ REG_TIMEOUT) →
      pollLoop env tmo busy fail fuel s = none := by
  intro fuel
  induction fuel with
  | zero => intro s _; rfl
  | succ f ih =>
    intro s hpre
    have h0 := hpre 0 (by omega)
    rw [polledCRL_zero, elapsedAt_zero] at h0
    rw [pollLoop_succ, h0.1, if_pos rfl, if_neg (by omega)]
    exact ih _ (fun k hk => by
      have := hpre (k + 1) (by omega)
      rwa [polledCRL_succ, elapsedAt_succ] at this)

/-- Among the polls made, there is a first one that ends the wait, unless every
poll finds the register busy with the timeout not yet passed. -/
theorem exists_first_decisive (P : Nat → Prop) [DecidablePred P] (fuel : Nat) :
    (∀ k, k < fuel → P k) ∨ ∃ n, n < fuel ∧ (∀ k, k < n → P k) ∧ ¬ P n := by
  induction fuel with
  | zero => left; intro k hk; omega
  | succ f ih =>
    rcases ih with h | ⟨n, hn, hpre, hnot⟩
    · by_cases hf : P f
      · left
        intro k hk
        rcases Nat.lt_succ_iff_lt_or_eq.mp hk with h1 | h1
        · exact h k h1
        · rw [h1]; exact hf
      · right; exact ⟨f, by omega, h, hf⟩
    · right; exact ⟨n, by omega, hpre, hnot⟩

/-- Every wait loop that returns does so at a first decisive poll: either the
register is found ready there, or it is found busy with the timeout passed. -/
theorem pollLoop_some (env : Env) (tmo : Nat) (busy : Nat → Bool) (fail fuel : Nat) (s : RTC)
    (r : Nat) (s' : RTC) (h : pollLoop env tmo busy fail fuel s = some (r, s')) :
    ∃ n, n < fuel ∧
      (∀ k, k < n → busy (polledCRL env s.tick s.RTC_CRL k) = true ∧
        elapsedAt env tmo s.tick k ≤ REG_TIMEOUT) ∧
      ((busy (polledCRL env s.tick s.RTC_CRL n) = false ∧ r = RTC_OK ∧
          s' = { s with RTC_CRL := polledCRL env s.tick s.RTC_CRL n,
                        tick := s.tick + 2 * n + 1 }) ∨
       (busy (polledCRL env s.tick s.RTC_CRL n) = true ∧
          elapsedAt env tmo s.tick n > REG_TIMEOUT ∧ r = fail ∧
          s' = { s with RTC_CRL := polledCRL env s.tick s.RTC_CRL n,
                        tick := s.tick + 2 * n + 2 })) := by
  rcases exists_first_decisive
    (fun k => busy (polledCRL env s.tick s.RTC_CRL k) = true ∧
      elapsedAt env tmo s.tick k ≤ REG_TIMEOUT) fuel with hall | ⟨n, hn, hpre, hnot⟩
  · rw [pollLoop_waiting env tmo busy fail fuel s hall] at h
    exact Option.noConfusion h
  · refine ⟨n, hn, hpre, ?_⟩
    cases hb : busy (polledCRL env s.tick s.RTC_CRL n)
    · left
      rw [pollLoop_ready env tmo busy fail n fuel s hn hpre hb] at h
      simp only [Option.some.injEq, Prod.mk.injEq] at h
      exact ⟨rfl, h.1.symm, h.2.symm⟩
    · right
      have ht : elapsedAt env tmo s.tick n > REG_TIMEOUT := by
        by_contra hle
        exact hnot ⟨hb, by omega⟩
      rw [pollLoop_timeout env tmo busy fail n fuel s hn hpre hb ht] at h
      simp only [Option.some.injEq, Prod.mk.injEq] at h
      exact ⟨rfl, ht, h.1.symm, h.2.symm⟩

/-- With hardware that leaves the cell alone, every poll reads the cell as it
was when the wait began. -/
theorem polledCRL_quiet (env : Env) (hq : ∀ t v, env.hw t v = v) (v0 : Nat) (hv : v0 < 2 ^ 32) :
    ∀ k t0, polledCRL env t0 v0 k = v0 := by
  intro k
  induction k with
  | zero => intro t0; rw [polledCRL_zero, hq, Nat.mod_eq_of_lt hv]
  | succ k ih => intro t0; rw [polledCRL_succ, hq, Nat.mod_eq_of_lt hv, ih]

/-! ## `rtc_config`, poll by poll -/

theorem rtc_config_enter_ready (env : Env) (fuel n : Nat) (s : RTC) (hfuel : n < fuel)
    (hbefore : ∀ k, k < n → polledCRL env (s.tick + 1) s.RTC_CRL k &&& RTOFF = 0 ∧
      elapsedAt env (env.millis s.tick % 2 ^ 32) (s.tick + 1) k ≤ REG_TIMEOUT)
    (hready : polledCRL env (s.tick + 1) s.RTC_CRL n &&& RTOFF ≠ 0) :
    rtc_config env fuel CONFIG_ENTER s =
      some (RTC_OK,
        { s with
          RTC_CRL := (polledCRL env (s.tick + 1) s.RTC_CRL n ||| CNF) &&& not32 RSF
          tick := s.tick + 2 * n + 2 }) := by
  have hl : pollLoop env (env.millis s.tick % 2 ^ 32) (fun crl => crl &&& RTOFF == 0)
      RTC_FAIL_CONFIG_ENTER fuel { s with tick := s.tick + 1 }
      = some (RTC_OK,
          { s with
            RTC_CRL := polledCRL env (s.tick + 1) s.RTC_CRL n
            tick := s.tick + 1 + 2 * n + 1 }) :=
    pollLoop_ready env (env.millis s.tick % 2 ^ 32) (fun crl => crl &&& RTOFF == 0)
      RTC_FAIL_CONFIG_ENTER n fuel { s with tick := s.tick + 1 } hfuel
      (fun k hk => ⟨by simpa using (hbefore k hk).1, (hbefore k hk).2⟩)
      (by simpa using hready)
  have ht : s.tick + 1 + 2 * n + 1 = s.tick + 2 * n + 2 := by omega
  unfold rtc_config
  simp only [↓reduceIte]
  rw [hl]
  simp only [↓reduceIte, ht]

theorem rtc_config_enter_timeout (env : Env) (fuel n : Nat) (s : RTC) (hfuel : n < fuel)
    (hbefore : ∀ k, k < n → polledCRL env (s.tick + 1) s.RTC_CRL k &&& RTOFF = 0 ∧
      elapsedAt env (env.millis s.tick % 2 ^ 32) (s.tick + 1) k ≤ REG_TIMEOUT)
    (hbusy : polledCRL env (s.tick + 1) s.RTC_CRL n &&& RTOFF = 0)
    (hlate : elapsedAt env (env.millis s.tick % 2 ^ 32) (s.tick + 1) n > REG_TIMEOUT) :
    rtc_config env fuel CONFIG_ENTER s =
      some (RTC_FAIL_CONFIG_ENTER,
        { s with
          RTC_CRL := polledCRL env (s.tick + 1) s.RTC_CRL n
          tick := s.tick + 2 * n + 3 }) := by
  have hl : pollLoop env (env.millis s.tick % 2 ^ 32) (fun crl => crl &&& RTOFF == 0)
      RTC_FAIL_CONFIG_ENTER fuel { s with tick := s.tick + 1 }
      = some (RTC_FAIL_CONFIG_ENTER,
          { s with
            RTC_CRL := polledCRL env (s.tick + 1) s.RTC_CRL n
            tick := s.tick + 1 + 2 * n + 2 }) :=
    pollLoop_timeout env (env.millis s.tick % 2 ^ 32) (fun crl => crl &&& RTOFF == 0)
      RTC_FAIL_CONFIG_ENTER n fuel { s with tick := s.tick + 1 } hfuel
      (fun k hk => ⟨by simpa using (hbefore k hk).1, (hbefore k hk).2⟩)
      (by simpa using hbusy) hlate
  have ht : s.tick + 1 + 2 * n + 2 = s.tick + 2 * n + 3 := by omega
  have hne : ¬ RTC_FAIL_CONFIG_ENTER = RTC_OK := by decide
  unfold rtc_config
  simp only [↓reduceIte]
  rw [hl]
  simp only [if_neg hne, ht]

theorem rtc_config_enter_waiting (env : Env) (fuel : Nat) (s : RTC)
    (hall : ∀ k, k < fuel → polledCRL env (s.tick + 1) s.RTC_CRL k &&& RTOFF = 0 ∧
      elapsedAt env (env.millis s.tick % 2 ^ 32) (s.tick + 1) k ≤ REG_TIMEOUT) :
    rtc_config env fuel CONFIG_ENTER s = none := by
  have hl : pollLoop env (env.millis s.tick % 2 ^ 32) (fun crl => crl &&& RTOFF == 0)
      RTC_FAIL_CONFIG_ENTER fuel { s with tick := s.tick + 1 } = none :=
    pollLoop_waiting env (env.millis s.tick % 2 ^ 32) (fun crl => crl &&& RTOFF == 0)
      RTC_FAIL_CONFIG_ENTER fuel { s with tick := s.tick + 1 }
      (fun k hk => ⟨by simpa using (hall k hk).1, (hall k hk).2⟩)
  unfold rtc_config
  simp only [↓reduceIte]
  rw [hl]

theorem rtc_config_exit_ready (env : Env) (fuel n : Nat) (s : RTC) (hfuel : n < fuel)
    (hbefore : ∀ k, k < n →
      polledCRL env (s.tick + 1) (s.RTC_CRL &&& not32 CNF) k &&& RTOFF_RSF ≠ RTOFF_RSF ∧
      elapsedAt env (env.millis s.tick % 2 ^ 32) (s.tick + 1) k ≤ REG_TIMEOUT)
    (hready :
      polledCRL env (s.tick + 1) (s.RTC_CRL &&& not32 CNF) n &&& RTOFF_RSF = RTOFF_RSF) :
    rtc_config env fuel CONFIG_EXIT s =
      some (RTC_OK,
        { s with
          RTC_CRL := polledCRL env (s.tick + 1) (s.RTC_CRL &&& not32 CNF) n
          tick := s.tick + 2 * n + 2 }) := by
  have hl : pollLoop env (env.millis s.tick % 2 ^ 32)
      (fun crl => crl &&& RTOFF_RSF != RTOFF_RSF) RTC_FAIL_CONFIG_EXIT fuel
      { s with tick := s.tick + 1, RTC_CRL := s.RTC_CRL &&& not32 CNF }
      = some (RTC_OK,
          { s with
            RTC_CRL := polledCRL env (s.tick + 1) (s.RTC_CRL &&& not32 CNF) n
            tick := s.tick + 1 + 2 * n + 1 }) :=
    pollLoop_ready env (env.millis s.tick % 2 ^ 32)
      (fun crl => crl &&& RTOFF_RSF != RTOFF_RSF) RTC_FAIL_CONFIG_EXIT n fuel
      { s with tick := s.tick + 1, RTC_CRL := s.RTC_CRL &&& not32 CNF } hfuel
      (fun k hk => ⟨by simpa using (hbefore k hk).1, (hbefore k hk).2⟩)
      (by simpa using hready)
  have ht : s.tick + 1 + 2 * n + 1 = s.tick + 2 * n + 2 := by omega
  have hne : ¬ CONFIG_EXIT = CONFIG_ENTER := by decide
  unfold rtc_config
  simp only [if_neg hne, ↓reduceIte]
  rw [hl]
  simp only [ht]

theorem rtc_config_exit_timeout (env : Env) (fuel n : Nat) (s : RTC) (hfuel : n < fuel)
    (hbefore : ∀ k, k < n →
      polledCRL env (s.tick + 1) (s.RTC_CRL &&& not32 CNF) k &&& RTOFF_RSF ≠ RTOFF_RSF ∧
      elapsedAt env (env.millis s.tick % 2 ^ 32) (s.tick + 1) k ≤ REG_TIMEOUT)
    (hbusy :
      polledCRL env (s.tick + 1) (s.RTC_CRL &&& not32 CNF) n &&& RTOFF_RSF ≠ RTOFF_RSF)
    (hlate : elapsedAt env (env.millis s.tick % 2 ^ 32) (s.tick + 1) n > REG_TIMEOUT) :
    rtc_config env fuel CONFIG_EXIT s =
      some (RTC_FAIL_CONFIG_EXIT,
        { s with
          RTC_CRL := polledCRL env (s.tick + 1) (s.RTC_CRL &&& not32 CNF) n
          tick := s.tick + 2 * n + 3 }) := by
  have hl : pollLoop env (env.millis s.tick % 2 ^ 32)
      (fun crl => crl &&& RTOFF_RSF != RTOFF_RSF) RTC_FAIL_CONFIG_EXIT fuel
      { s with tick := s.tick + 1, RTC_CRL := s.RTC_CRL &&& not32 CNF }
      = some (RTC_FAIL_CONFIG_EXIT,
          { s with
            RTC_CRL := polledCRL env (s.tick + 1) (s.RTC_CRL &&& not32 CNF) n
            tick := s.tick + 1 + 2 * n + 2 }) :=
    pollLoop_timeout env (env.millis s.tick % 2 ^ 32)
      (fun crl => crl &&& RTOFF_RSF != RTOFF_RSF) RTC_FAIL_CONFIG_EXIT n fuel
      { s with tick := s.tick + 1, RTC_CRL := s.RTC_CRL &&& not32 CNF } hfuel
      (fun k hk => ⟨by simpa using (hbefore k hk).1, (hbefore k hk).2⟩)
      (by simpa using hbusy) hlate
  have ht : s.tick + 1 + 2 * n + 2 = s.tick + 2 * n + 3 := by omega
  have hne : ¬ CONFIG_EXIT = CONFIG_ENTER := by decide
  unfold rtc_config
  simp only [if_neg hne, ↓reduceIte]
  rw [hl]
  simp only [ht]

theorem rtc_config_exit_waiting (env : Env) (fuel : Nat) (s : RTC)
    (hall : ∀ k, k < fuel →
      polledCRL env (s.tick + 1) (s.RTC_CRL &&& not32 CNF) k &&& RTOFF_RSF ≠ RTOFF_RSF ∧
      elapsedAt env (env.millis s.tick % 2 ^ 32) (s.tick + 1) k ≤ REG_TIMEOUT) :
    rtc_config env fuel CONFIG_EXIT s = none := by
  have hl : pollLoop env (env.millis s.tick % 2 ^ 32)
      (fun crl => crl &&& RTOFF_RSF != RTOFF_RSF) RTC_FAIL_CONFIG_EXIT fuel
      { s with tick := s.tick + 1, RTC_CRL := s.RTC_CRL &&& not32 CNF } = none :=
    pollLoop_waiting env (env.millis s.tick % 2 ^ 32)
      (fun crl => crl &&& RTOFF_RSF != RTOFF_RSF) RTC_FAIL_CONFIG_EXIT fuel
      { s with tick := s.tick + 1, RTC_CRL := s.RTC_CRL &&& not32 CNF }
      (fun k hk => ⟨by simpa using (hall k hk).1, (hall k hk).2⟩)
  have hne : ¬ CONFIG_EXIT = CONFIG_ENTER := by decide
  unfold rtc_config
  simp only [if_neg hne, ↓reduceIte]
  rw [hl]

theorem testBit_CNF (i : Nat) : CNF.testBit i = decide (i = 4) := by
  have h : CNF = 2 ^ 4 := rfl
  rw [h, Nat.testBit_two_pow]
  simp [eq_comm]

theorem testBit_RSF (i : Nat) : RSF.testBit i = decide (i = 3) := by
  have h : RSF = 2 ^ 3 := rfl
  rw [h, Nat.testBit_two_pow]
  simp [eq_comm]

/-- Setting `CNF` and then clearing `RSF` leaves `CNF` set. -/
theorem enter_sets_CNF (v : Nat) : ((v ||| CNF) &&& not32 RSF) &&& CNF = CNF := by
  apply Nat.eq_of_testBit_eq; intro i
  simp only [Nat.testBit_and, Nat.testBit_or, not32, Nat.testBit_xor, testBit_ones32,
    testBit_CNF, testBit_RSF]
  by_cases h4 : i = 4
  · subst h4; simp
  · simp [h4]

/-- Setting `CNF` and clearing `RSF` changes no other bit of a 32-bit cell. -/
theorem enter_keeps_bits (v i : Nat) (hv : v < 2 ^ 32) (h4 : i ≠ 4) (h3 : i ≠ 3) :
    ((v ||| CNF) &&& not32 RSF).testBit i = v.testBit i := by
  have hc : CNF < 2 ^ 32 := by decide
  rw [testBit_and_not32 _ _ _ (Nat.or_lt_two_pow hv hc), Nat.testBit_or, testBit_CNF,
    testBit_RSF]
  simp [h4, h3]

/-- Clearing `CNF` changes no other bit of a 32-bit cell. -/
theorem exit_keeps_bits (v i : Nat) (hv : v < 2 ^ 32) (h4 : i ≠ 4) :
    (v &&& not32 CNF).testBit i = v.testBit i := by
  rw [testBit_and_not32 _ _ _ hv, testBit_CNF]
  simp [h4]

/-- C13: `rtc_config(CONFIG_ENTER)`, with `n` the number of polls that found
`RTOFF` clear while the timeout had not passed.  If poll `n` observes `RTOFF`
set, the call returns `RTC_OK` with `CNF` set, `RSF` cleared and every other bit
of the control register as that poll read it.  If poll `n` still finds `RTOFF`
clear and the timeout has then passed, the call returns
`RTC_FAIL_CONFIG_ENTER`, which is not `RTC_OK`, and stores nothing: the control
register holds what the hardware last presented, its `CNF` bit included, and is
exactly as it was before the call when the hardware left it alone. -/
theorem rtc_config_enter_spec (env : Env) (fuel n : Nat) (s : RTC) (hfuel : n < fuel)
    (hbefore : ∀ k, k < n → polledCRL env (s.tick + 1) s.RTC_CRL k &&& RTOFF = 0 ∧
      elapsedAt env (env.millis s.tick % 2 ^ 32) (s.tick + 1) k ≤ REG_TIMEOUT) :
    (polledCRL env (s.tick + 1) s.RTC_CRL n &&& RTOFF ≠ 0 →
      rtc_config env fuel CONFIG_ENTER s =
        some (RTC_OK,
          { s with
            RTC_CRL := (polledCRL env (s.tick + 1) s.RTC_CRL n ||| CNF) &&& not32 RSF
            tick := s.tick + 2 * n + 2 }) ∧
      ((polledCRL env (s.tick + 1) s.RTC_CRL n ||| CNF) &&& not32 RSF) &&& CNF = CNF ∧
      ((polledCRL env (s.tick + 1) s.RTC_CRL n ||| CNF) &&& not32 RSF) &&& RSF = 0 ∧
      ∀ i, i ≠ 4 → i ≠ 3 →
        ((polledCRL env (s.tick + 1) s.RTC_CRL n ||| CNF) &&& not32 RSF).testBit i
          = (polledCRL env (s.tick + 1) s.RTC_CRL n).testBit i) ∧
    (polledCRL env (s.tick + 1) s.RTC_CRL n &&& RTOFF = 0 →
      elapsedAt env (env.millis s.tick % 2 ^ 32) (s.tick + 1) n > REG_TIMEOUT →
      rtc_config env fuel CONFIG_ENTER s =
        some (RTC_FAIL_CONFIG_ENTER,
          { s with
            RTC_CRL := polledCRL env (s.tick + 1) s.RTC_CRL n
            tick := s.tick + 2 * n + 3 }) ∧
      RTC_FAIL_CONFIG_ENTER ≠ RTC_OK ∧
      ((∀ t v, env.hw t v = v) → s.RTC_CRL < 2 ^ 32 →
        polledCRL env (s.tick + 1) s.RTC_CRL n = s.RTC_CRL)) := by
  constructor
  · intro hready
    exact ⟨rtc_config_enter_ready env fuel n s hfuel hbefore hready, enter_sets_CNF _,
      and_not32_and_mask _ _ (by decide),
      fun i h4 h3 => enter_keeps_bits _ i (polledCRL_lt _ _ _ _) h4 h3⟩
  · intro hbusy hlate
    exact ⟨rtc_config_enter_timeout env fuel n s hfuel hbefore hbusy hlate, by decide,
      fun hq hv => polledCRL_quiet env hq _ hv n _⟩

/-- C13, with hardware that reports `RTOFF` at the first poll. -/
theorem rtc_config_enter_spec_witness :
    polledCRL Env.ready (RTC.zero.tick + 1) RTC.zero.RTC_CRL 0 &&& RTOFF ≠ 0 ∧
    rtc_config Env.ready 1 CONFIG_ENTER RTC.zero =
      some (RTC_OK,
        { RTC.zero with
          RTC_CRL := (polledCRL Env.ready (RTC.zero.tick + 1) RTC.zero.RTC_CRL 0 ||| CNF)
            &&& not32 RSF
          tick := RTC.zero.tick + 2 * 0 + 2 }) :=
  ⟨by decide,
    ((rtc_config_enter_spec Env.ready 1 0 RTC.zero (by decide)
      (fun k hk => absurd hk (Nat.not_lt_zero k))).1 (by decide)).1⟩

/-- Every `rtc_config(CONFIG_EXIT)` that returns does so at a first decisive
poll: both bits are observed there, or the timeout has passed there. -/
theorem rtc_config_exit_some (env : Env) (fuel : Nat) (s : RTC) (r : Nat) (s' : RTC)
    (h : rtc_config env fuel CONFIG_EXIT s = some (r, s')) :
    ∃ n, n < fuel ∧
      (∀ k, k < n →
        polledCRL env (s.tick + 1) (s.RTC_CRL &&& not32 CNF) k &&& RTOFF_RSF ≠ RTOFF_RSF ∧
        elapsedAt env (env.millis s.tick % 2 ^ 32) (s.tick + 1) k ≤ REG_TIMEOUT) ∧
      s'.RTC_CRL = polledCRL env (s.tick + 1) (s.RTC_CRL &&& not32 CNF) n ∧
      ((polledCRL env (s.tick + 1) (s.RTC_CRL &&& not32 CNF) n &&& RTOFF_RSF = RTOFF_RSF ∧
          r = RTC_OK) ∨
       (polledCRL env (s.tick + 1) (s.RTC_CRL &&& not32 CNF) n &&& RTOFF_RSF ≠ RTOFF_RSF ∧
          elapsedAt env (env.millis s.tick % 2 ^ 32) (s.tick + 1) n > REG_TIMEOUT ∧
          r = RTC_FAIL_CONFIG_EXIT)) := by
  have hne : ¬ CONFIG_EXIT = CONFIG_ENTER := by decide
  have hp : pollLoop env (env.millis s.tick % 2 ^ 32)
      (fun crl => crl &&& RTOFF_RSF != RTOFF_RSF) RTC_FAIL_CONFIG_EXIT fuel
      { s with tick := s.tick + 1, RTC_CRL := s.RTC_CRL &&& not32 CNF } = some (r, s') := by
    unfold rtc_config at h
    simp only [if_neg hne, ↓reduceIte] at h
    exact h
  obtain ⟨n, hn, hpre, hcase⟩ := pollLoop_some _ _ _ _ _ _ _ _ hp
  refine ⟨n, hn, fun k hk => ⟨by simpa using (hpre k hk).1, (hpre k hk).2⟩, ?_, ?_⟩
  · rcases hcase with ⟨-, -, hs⟩ | ⟨-, -, -, hs⟩ <;> rw [hs]
  · rcases hcase with ⟨hb, hr, -⟩ | ⟨hb, ht, hr, -⟩
    · left; exact ⟨by simpa using hb, hr⟩
    · right; exact ⟨by simpa using hb, ht, hr⟩

/-- C14: `rtc_config(CONFIG_EXIT)` clears `CNF` (and no other bit) in the control
register and then polls it.  If a poll observes `RTOFF` and `RSF` both set
before the timeout has passed it returns `RTC_OK`; if the timeout passes first
it returns `RTC_FAIL_CONFIG_EXIT`.  Whenever it returns, the result is `RTC_OK`
if and only if some poll before the timeout observed both bits, and is
`RTC_FAIL_CONFIG_EXIT` otherwise; nothing but `RTC_CRL` (and the observation
count) differs from the state before, and with hardware that leaves the cell
alone `RTC_CRL` is the old value with `CNF` cleared. -/
theorem rtc_config_exit_spec (env : Env) (fuel : Nat) (s : RTC) :
    (s.RTC_CRL &&& not32 CNF) &&& CNF = 0 ∧
    (s.RTC_CRL < 2 ^ 32 → ∀ i, i ≠ 4 →
      (s.RTC_CRL &&& not32 CNF).testBit i = s.RTC_CRL.testBit i) ∧
    (∀ n, n < fuel →
      (∀ k, k < n →
        polledCRL env (s.tick + 1) (s.RTC_CRL &&& not32 CNF) k &&& RTOFF_RSF ≠ RTOFF_RSF ∧
        elapsedAt env (env.millis s.tick % 2 ^ 32) (s.tick + 1) k ≤ REG_TIMEOUT) →
      polledCRL env (s.tick + 1) (s.RTC_CRL &&& not32 CNF) n &&& RTOFF_RSF = RTOFF_RSF →
      rtc_config env fuel CONFIG_EXIT s =
        some (RTC_OK,
          { s with
            RTC_CRL := polledCRL env (s.tick + 1) (s.RTC_CRL &&& not32 CNF) n
            tick := s.tick + 2 * n + 2 })) ∧
    (∀ n, n < fuel →
      (∀ k, k < n →
        polledCRL env (s.tick + 1) (s.RTC_CRL &&& not32 CNF) k &&& RTOFF_RSF ≠ RTOFF_RSF ∧
        elapsedAt env (env.millis s.tick % 2 ^ 32) (s.tick + 1) k ≤ REG_TIMEOUT) →
      polledCRL env (s.tick + 1) (s.RTC_CRL &&& not32 CNF) n &&& RTOFF_RSF ≠ RTOFF_RSF →
      elapsedAt env (env.millis s.tick % 2 ^ 32) (s.tick + 1) n > REG_TIMEOUT →
      rtc_config env fuel CONFIG_EXIT s =
        some (RTC_FAIL_CONFIG_EXIT,
          { s with
            RTC_CRL := polledCRL env (s.tick + 1) (s.RTC_CRL &&& not32 CNF) n
            tick := s.tick + 2 * n + 3 })) ∧
    (∀ r s', rtc_config env fuel CONFIG_EXIT s = some (r, s') →
      (r = RTC_OK ↔ ∃ n, n < fuel ∧
        (∀ k, k < n →
          polledCRL env (s.tick + 1) (s.RTC_CRL &&& not32 CNF) k &&& RTOFF_RSF ≠ RTOFF_RSF ∧
          elapsedAt env (env.millis s.tick % 2 ^ 32) (s.tick + 1) k ≤ REG_TIMEOUT) ∧
        polledCRL env (s.tick + 1) (s.RTC_CRL &&& not32 CNF) n &&& RTOFF_RSF = RTOFF_RSF) ∧
      (r ≠ RTC_OK → r = RTC_FAIL_CONFIG_EXIT) ∧
      s' = { s with RTC_CRL := s'.RTC_CRL, tick := s'.tick } ∧
      ((∀ t v, env.hw t v = v) → s.RTC_CRL < 2 ^ 32 →
        s'.RTC_CRL = s.RTC_CRL &&& not32 CNF)) := by
  refine ⟨and_not32_and_mask _ _ (by decide), fun hv i h4 => exit_keeps_bits _ i hv h4,
    fun n hn hpre hr => rtc_config_exit_ready env fuel n s hn hpre hr,
    fun n hn hpre hb ht => rtc_config_exit_timeout env fuel n s hn hpre hb ht, ?_⟩
  intro r s' h
  obtain ⟨n, hn, hpre, hcrl, hcase⟩ := rtc_config_exit_some env fuel s r s' h
  have hfail : RTC_FAIL_CONFIG_EXIT ≠ RTC_OK := by decide
  refine ⟨?_, ?_, rtc_config_frame _ _ _ _ _ _ h, ?_⟩
  · constructor
    · intro hr
      rcases hcase with ⟨hb, -⟩ | ⟨-, -, hr'⟩
      · exact ⟨n, hn, hpre, hb⟩
      · rw [hr] at hr'; exact absurd hr'.symm hfail
    · rintro ⟨m, hm, hpre', hready⟩
      rcases hcase with ⟨-, hr⟩ | ⟨hb, ht, -⟩
      · exact hr
      · exfalso
        rcases Nat.lt_trichotomy m n with hlt | heq | hgt
        · exact (hpre m hlt).1 hready
        · rw [heq] at hready; exact hb hready
        · have := (hpre' n hgt).2
          omega
  · intro hr
    rcases hcase with ⟨-, hr'⟩ | ⟨-, -, hr'⟩
    · exact absurd hr' hr
    · exact hr'
  · intro hq hv
    rw [hcrl]
    exact polledCRL_quiet env hq _ (lt_of_le_of_lt Nat.and_le_left hv) n _

/-- C14, with hardware that reports `RTOFF` and `RSF` at the first poll. -/
theorem rtc_config_exit_spec_witness :
    rtc_config Env.ready 1 CONFIG_EXIT { RTC.zero with RTC_CRL := 0x10 } =
      some (RTC_OK,
        { RTC.zero with
          RTC_CRL := polledCRL Env.ready (0 + 1) (0x10 &&& not32 CNF) 0
          tick := 0 + 2 * 0 + 2 }) :=
  (rtc_config_exit_spec Env.ready 1 { RTC.zero with RTC_CRL := 0x10 }).2.2.1 0 (by decide)
    (fun k hk => absurd hk (Nat.not_lt_zero k)) (by decide)

/-! ## The timeout bound -/

/-- Every polled value is a value presented by the hardware. -/
theorem polledCRL_hw (env : Env) :
    ∀ k t0 v0, ∃ t v, polledCRL env t0 v0 k = env.hw t v % 2 ^ 32 := by
  intro k
  induction k with
  | zero => intro t0 v0; exact ⟨t0, v0, rfl⟩
  | succ k ih => intro t0 v0; rw [polledCRL_succ]; exact ih _ _

/-- C15, as the code has it: with a register mock whose status bits never become
ready, `rtc_config(CONFIG_ENTER)` and `rtc_config(CONFIG_EXIT)` return their
timeout result at poll `n`, the first poll after which the elapsed time
`millis() - start` (mod `2^32`) exceeds `REG_TIMEOUT = 2000`: with fewer than
`n + 1` polls the call has not returned, and when it returns exactly `n + 1`
polls have been made (the observation count is `2 * n + 3` higher). -/
theorem rtc_config_timeout_poll (env : Env) (fuel n : Nat) (s : RTC)
    (hfirst : ∀ k, k < n →
      elapsedAt env (env.millis s.tick % 2 ^ 32) (s.tick + 1) k ≤ REG_TIMEOUT)
    (hlate : elapsedAt env (env.millis s.tick % 2 ^ 32) (s.tick + 1) n > REG_TIMEOUT) :
    ((∀ t v, env.hw t v % 2 ^ 32 &&& RTOFF = 0) →
      (n < fuel → rtc_config env fuel CONFIG_ENTER s =
        some (RTC_FAIL_CONFIG_ENTER,
          { s with
            RTC_CRL := polledCRL env (s.tick + 1) s.RTC_CRL n
            tick := s.tick + 2 * n + 3 })) ∧
      (fuel ≤ n → rtc_config env fuel CONFIG_ENTER s = none)) ∧
    ((∀ t v, env.hw t v % 2 ^ 32 &&& RTOFF_RSF ≠ RTOFF_RSF) →
      (n < fuel → rtc_config env fuel CONFIG_EXIT s =
        some (RTC_FAIL_CONFIG_EXIT,
          { s with
            RTC_CRL := polledCRL env (s.tick + 1) (s.RTC_CRL &&& not32 CNF) n
            tick := s.tick + 2 * n + 3 })) ∧
      (fuel ≤ n → rtc_config env fuel CONFIG_EXIT s = none)) := by
  constructor
  · intro hnever
    have hb : ∀ k, polledCRL env (s.tick + 1) s.RTC_CRL k &&& RTOFF = 0 := by
      intro k
      obtain ⟨t, v, h⟩ := polledCRL_hw env k (s.tick + 1) s.RTC_CRL
      rw [h]; exact hnever t v
    exact ⟨fun hn => rtc_config_enter_timeout env fuel n s hn
        (fun k hk => ⟨hb k, hfirst k hk⟩) (hb n) hlate,
      fun hle => rtc_config_enter_waiting env fuel s
        (fun k hk => ⟨hb k, hfirst k (by omega)⟩)⟩
  · intro hnever
    have hb : ∀ k,
        polledCRL env (s.tick + 1) (s.RTC_CRL &&& not32 CNF) k &&& RTOFF_RSF ≠ RTOFF_RSF := by
      intro k
      obtain ⟨t, v, h⟩ := polledCRL_hw env k (s.tick + 1) (s.RTC_CRL &&& not32 CNF)
      rw [h]; exact hnever t v
    exact ⟨fun hn => rtc_config_exit_timeout env fuel n s hn
        (fun k hk => ⟨hb k, hfirst k hk⟩) (hb n) hlate,
      fun hle => rtc_config_exit_waiting env fuel s
        (fun k hk => ⟨hb k, hfirst k (by omega)⟩)⟩

/-- The stuck hardware never presents `RTOFF`. -/
theorem Env.stuck_never_RTOFF (t v : Nat) : Env.stuck.hw t v % 2 ^ 32 &&& RTOFF = 0 := by
  have hm : not32 RTOFF_RSF < 2 ^ 32 := by decide
  have hsub : RTOFF_RSF &&& RTOFF = RTOFF := by decide
  show (v &&& not32 RTOFF_RSF) % 2 ^ 32 &&& RTOFF = 0
  rw [Nat.mod_eq_of_lt (Nat.and_lt_two_pow v hm), ← hsub, ← Nat.and_assoc,
    and_not32_and_mask _ _ (by decide)]
  rfl

/-- C15, as stated, fails on the stuck hardware with a clock that advances by
1000 ms per observation: after the first poll the elapsed time is exactly
`REG_TIMEOUT`, yet the call has not returned after that poll; both modes return
their timeout result only at the second poll (observation count 5). -/
theorem rtc_config_bound_reached_counterexample :
    elapsedAt Env.stuck (Env.stuck.millis RTC.zero.tick % 2 ^ 32) (RTC.zero.tick + 1) 0
      = REG_TIMEOUT ∧
    rtc_config Env.stuck 1 CONFIG_ENTER RTC.zero = none ∧
    rtc_config Env.stuck 1 CONFIG_EXIT RTC.zero = none ∧
    (rtc_config Env.stuck 2 CONFIG_ENTER RTC.zero).map (fun r => (r.1, r.2.tick))
      = some (RTC_FAIL_CONFIG_ENTER, 5) ∧
    (rtc_config Env.stuck 2 CONFIG_EXIT RTC.zero).map (fun r => (r.1, r.2.tick))
      = some (RTC_FAIL_CONFIG_EXIT, 5) :=
  ⟨by decide, rfl, rfl, by decide, by decide⟩

/-- C15 as the code has it, on the stuck hardware: the timeout is returned at
poll 1, where the elapsed time is 4000 ms, not at poll 0, where it is 2000 ms. -/
theorem rtc_config_timeout_poll_witness :
    elapsedAt Env.stuck (Env.stuck.millis RTC.zero.tick % 2 ^ 32) (RTC.zero.tick + 1) 1
      > REG_TIMEOUT ∧
    rtc_config Env.stuck 2 CONFIG_ENTER RTC.zero =
      some (RTC_FAIL_CONFIG_ENTER,
        { RTC.zero with
          RTC_CRL := polledCRL Env.stuck (RTC.zero.tick + 1) RTC.zero.RTC_CRL 1
          tick := RTC.zero.tick + 2 * 1 + 3 }) :=
  ⟨by decide,
    ((rtc_config_timeout_poll Env.stuck 2 1 RTC.zero
      (fun k hk => by
        have h0 : k = 0 := by omega
        subst h0; decide)
      (by decide)).1 Env.stuck_never_RTOFF).1 (by decide)⟩

/-! ## Arming and disarming the alarm -/

/-- Setting `ALARM_SET` (bit 1) does not touch `CONFIGURED` (bit 2). -/
theorem set_alarm_keeps_configured (x : Nat) :
    ((x ||| BACKUP_ALARM_SET_FLAG) % 2 ^ 16) &&& BACKUP_CONFIGURED_FLAG
      = x &&& BACKUP_CONFIGURED_FLAG := by
  apply Nat.eq_of_testBit_eq; intro i
  simp only [Nat.testBit_and, Nat.testBit_mod_two_pow, Nat.testBit_or,
    BACKUP_ALARM_SET_FLAG, BACKUP_CONFIGURED_FLAG, testBit_two, testBit_four]
  by_cases h2 : i = 2
  · subst h2; simp
  · simp [h2]

/-- On a configured RTC `disableAlarm` leaves `ALRIE` and `ALARM_SET` clear. -/
theorem disableAlarm_clears (s : RTC) (hconf : isConfigured s = true) :
    isAlarmEnabled (disableAlarm s) = false ∧
    (disableAlarm s)._RTC_BackupRegs 0 &&& BACKUP_ALARM_SET_FLAG = 0 ∧
    (disableAlarm s).bkup_regs 0 &&& BACKUP_ALARM_SET_FLAG = 0 ∧
    (disableAlarm s).RTC_CRH &&& RTC_ALRIE = 0 := by
  have hm : ((s._RTC_BackupRegs 0 &&& not16 BACKUP_ALARM_SET_FLAG) % 2 ^ 16)
      &&& BACKUP_ALARM_SET_FLAG = 0 := and_not16_and_mask _ _ (by decide)
  rw [disableAlarm_configured s hconf]
  simp only [Function.update_same]
  refine ⟨?_, hm, hm, and_not32_and_mask _ _ (by decide)⟩
  simp only [isAlarmEnabled, Function.update_same, hm]
  decide

/-- What `_statusFlagChange` stores: the new word 0, in the mirror and in the
hardware register. -/
theorem statusFlagChange_eq (sbit : Nat) (fset : Bool) (s : RTC) :
    _statusFlagChange sbit fset s =
      { s with
        _RTC_BackupRegs := Function.update s._RTC_BackupRegs 0
          (if fset then (s._RTC_BackupRegs 0 ||| sbit) % 2 ^ 16
            else (s._RTC_BackupRegs 0 &&& not16 sbit) % 2 ^ 16)
        bkup_regs := Function.update s.bkup_regs 0
          (if fset then (s._RTC_BackupRegs 0 ||| sbit) % 2 ^ 16
            else (s._RTC_BackupRegs 0 &&& not16 sbit) % 2 ^ 16) } := by
  have h9 : ¬ (0 > 9) := by decide
  simp only [_statusFlagChange, setBackup, if_neg h9, Function.update_same]

/-- The state `setAlarmFromEpoch` returns is configured when the one it was
called on is. -/
theorem setAlarmFromEpoch_keeps_configured (env : Env) (fuel t : Nat) (s : RTC) (r : Nat)
    (s' : RTC) (h : setAlarmFromEpoch env fuel t s = some (r, s'))
    (hconf : isConfigured s = true) : isConfigured s' = true := by
  unfold setAlarmFromEpoch at h
  split at h
  · simp only [Option.some.injEq, Prod.mk.injEq] at h
    rw [← h.2]; exact hconf
  · simp only at h
    split at h
    · exact Option.noConfusion h
    · rename_i r1 s1 h1
      split at h
      · exact Option.noConfusion h
      · rename_i r2 s2 h2
        have f1 := rtc_config_frame _ _ _ _ _ _ h1
        have f2 := rtc_config_frame _ _ _ _ _ _ h2
        have hm2 : s2._RTC_BackupRegs = s._RTC_BackupRegs := by
          rw [f2]; show s1._RTC_BackupRegs = _; rw [f1]
        simp only [Option.some.injEq, Prod.mk.injEq] at h
        rw [← h.2]
        unfold isConfigured at hconf ⊢
        rw [statusFlagChange_eq]
        simp only [Function.update_same, hm2, ↓reduceIte, set_alarm_keeps_configured]
        exact hconf

/-- C11, as the code has it: on every state with `CONFIGURED` set in which the two
gate waits of the call end, `setAlarmFromEpoch(getEpoch() + 10)` returns, and
`disableAlarm()` called on the state it leaves clears the `ALARM_SET` status
flag, in the mirror and in hardware word 0, and the interrupt-enable bit
`ALRIE`. -/
theorem setAlarm_then_disableAlarm (env : Env) (fuel : Nat) (s s1 s2 : RTC) (r1 r2 : Nat)
    (hconf : isConfigured s = true)
    (henter : rtc_config env fuel CONFIG_ENTER
      { s with irq := false, RTC_CRH := s.RTC_CRH &&& not32 RTC_ALRIE } = some (r1, s1))
    (hexit : rtc_config env fuel CONFIG_EXIT
      { s1 with
        RTC_ALRH := ((getEpoch s + 10) % 2 ^ 32) >>> 16
        RTC_ALRL := ((getEpoch s + 10) % 2 ^ 32) &&& 0xFFFF } = some (r2, s2)) :
    ∃ r s', setAlarmFromEpoch env fuel ((getEpoch s + 10) % 2 ^ 32) s = some (r, s') ∧
      isAlarmEnabled (disableAlarm s') = false ∧
      (disableAlarm s')._RTC_BackupRegs 0 &&& BACKUP_ALARM_SET_FLAG = 0 ∧
      (disableAlarm s').bkup_regs 0 &&& BACKUP_ALARM_SET_FLAG = 0 ∧
      (disableAlarm s').RTC_CRH &&& RTC_ALRIE = 0 := by
  have hret : ∃ r s', setAlarmFromEpoch env fuel ((getEpoch s + 10) % 2 ^ 32) s
      = some (r, s') := by
    unfold setAlarmFromEpoch
    by_cases hle : (getEpoch s + 10) % 2 ^ 32 ≤ getEpoch s
    · rw [if_pos hle]; exact ⟨_, _, rfl⟩
    · rw [if_neg hle]
      simp only
      rw [henter]
      simp only
      rw [hexit]
      exact ⟨_, _, rfl⟩
  obtain ⟨r, s', h⟩ := hret
  exact ⟨r, s', h,
    disableAlarm_clears s' (setAlarmFromEpoch_keeps_configured env fuel _ s r s' h hconf)⟩

/-- C11 as the code has it, on the configured example state with hardware that
is ready at once. -/
theorem setAlarm_then_disableAlarm_witness :
    isConfigured RTC.configured = true ∧
    ∃ r s', setAlarmFromEpoch Env.ready 1 ((getEpoch RTC.configured + 10) % 2 ^ 32)
        RTC.configured = some (r, s') ∧
      isAlarmEnabled (disableAlarm s') = false ∧
      (disableAlarm s').RTC_CRH &&& RTC_ALRIE = 0 := by
  refine ⟨by decide, ?_⟩
  obtain ⟨r, s', h, h1, -, -, h4⟩ :=
    setAlarm_then_disableAlarm Env.ready 1 RTC.configured
      { RTC.configured with irq := false, RTC_CRL := 0x30, tick := 2 }
      { RTC.configured with
        irq := false, RTC_CRL := 0x28, tick := 4, RTC_ALRH := 0, RTC_ALRL := 110 }
      RTC_OK RTC_OK (by decide) rfl rfl
  exact ⟨r, s', h, h1, h4⟩

/-- C11, as stated, fails on a state with `CONFIGURED` clear: the call arms the
alarm and `disableAlarm()` then does nothing, so `ALRIE` and `ALARM_SET` stay
set. -/
theorem setAlarm_then_disableAlarm_counterexample :
    isConfigured RTC.zero = false ∧
    (setAlarmFromEpoch Env.ready 1 ((getEpoch RTC.zero + 10) % 2 ^ 32) RTC.zero).map
        (fun r => (r.1, (disableAlarm r.2).RTC_CRH &&& RTC_ALRIE,
          isAlarmEnabled (disableAlarm r.2)))
      = some (RTC_OK, RTC_ALRIE, true) :=
  ⟨by decide, by decide⟩

/-- C12 fails at this input: with the counter at 100 and the target at 200,
entering configuration mode times out (`RTC_FAIL_CONFIG_ENTER`), leaving
succeeds, and `setAlarmFromEpoch` returns `RTC_OK`. -/
theorem setAlarmFromEpoch_drops_enter_timeout :
    getEpoch RTC.configured < 200 ∧
    (rtc_config Env.late 1 CONFIG_ENTER
        { RTC.configured with
          irq := false, RTC_CRH := RTC.configured.RTC_CRH &&& not32 RTC_ALRIE }).map Prod.fst
      = some RTC_FAIL_CONFIG_ENTER ∧
    (setAlarmFromEpoch Env.late 1 200 RTC.configured).map Prod.fst = some RTC_OK :=
  ⟨by decide, by decide, by decide⟩

/-- C20 fails at this input: entering configuration mode times out, and still
`setEpoch(5)` replaces the counter 100 by 5 and `setAlarmFromEpoch(0x12345)`
replaces the alarm registers 0, 0 by 1, 0x2345. -/
theorem stores_after_enter_timeout :
    (rtc_config Env.late 1 CONFIG_ENTER { RTC.configured with irq := false }).map Prod.fst
      = some RTC_FAIL_CONFIG_ENTER ∧
    (RTC.configured.RTC_CNTH, RTC.configured.RTC_CNTL) = (0, 100) ∧
    (setEpoch Env.late 1 5 RTC.configured).map (fun s => (s.RTC_CNTH, s.RTC_CNTL))
      = some (0, 5) ∧
    (rtc_config Env.late 1 CONFIG_ENTER
        { RTC.configured with
          irq := false, RTC_CRH := RTC.configured.RTC_CRH &&& not32 RTC_ALRIE }).map Prod.fst
      = some RTC_FAIL_CONFIG_ENTER ∧
    (RTC.configured.RTC_ALRH, RTC.configured.RTC_ALRL) = (0, 0) ∧
    (setAlarmFromEpoch Env.late 1 0x12345 RTC.configured).map
        (fun r => (r.2.RTC_ALRH, r.2.RTC_ALRL))
      = some (1, 0x2345) :=
  ⟨by decide, by decide, by decide, by decide, by decide, by decide⟩

/-! ## The backup words -/

theorem setBackup_frame : ∀ (len indx : Nat) (s : RTC),
    setBackup indx len s = { s with bkup_regs := (setBackup indx len s).bkup_regs } := by
  intro len
  induction len with
  | zero => intro indx s; rfl
  | succ n ih =>
    intro indx s
    unfold setBackup
    split
    · rfl
    · rw [ih]

/-- The hardware words `setBackup(indx, len)` writes are the words `indx ..
indx + len - 1` that are not above 9; each receives its mirror word. -/
theorem setBackup_word : ∀ (len indx : Nat) (s : RTC) (w : Nat),
    (setBackup indx len s).bkup_regs w =
      if indx ≤ w ∧ w < indx + len ∧ w ≤ 9 then s._RTC_BackupRegs w else s.bkup_regs w := by
  intro len
  induction len with
  | zero =>
    intro indx s w
    have h : ¬ (indx ≤ w ∧ w < indx + 0 ∧ w ≤ 9) := by omega
    rw [if_neg h]; rfl
  | succ n ih =>
    intro indx s w
    unfold setBackup
    by_cases h9 : indx > 9
    · rw [if_pos h9]
      have h : ¬ (indx ≤ w ∧ w < indx + (n + 1) ∧ w ≤ 9) := by omega
      rw [if_neg h]
    · rw [if_neg h9, ih, Nat.mod_eq_of_lt (by omega : indx + 1 < 2 ^ 8)]
      simp only
      by_cases hw : w = indx
      · subst hw
        have h1 : ¬ (w + 1 ≤ w ∧ w < w + 1 + n ∧ w ≤ 9) := by omega
        have h2 : w ≤ w ∧ w < w + (n + 1) ∧ w ≤ 9 := by omega
        rw [if_neg h1, if_pos h2, Function.update_same]
      · rw [Function.update_noteq hw]
        by_cases hc : indx + 1 ≤ w ∧ w < indx + 1 + n ∧ w ≤ 9
        · rw [if_pos hc, if_pos (by omega)]
        · rw [if_neg hc, if_neg (by omega)]

theorem setBackup_mirror (len indx : Nat) (s : RTC) :
    (setBackup indx len s)._RTC_BackupRegs = s._RTC_BackupRegs := by
  rw [setBackup_frame]

theorem getBackup_frame : ∀ (len indx : Nat) (s : RTC),
    getBackup indx len s =
      { s with _RTC_BackupRegs := (getBackup indx len s)._RTC_BackupRegs } := by
  intro len
  induction len with
  | zero => intro indx s; rfl
  | succ n ih =>
    intro indx s
    unfold getBackup
    split
    · rfl
    · rw [ih]

/-- The mirror words `getBackup(indx, len)` loads are the words `indx ..
indx + len - 1` that are not above 9; each receives the low 16 bits of its
hardware register. -/
theorem getBackup_word : ∀ (len indx : Nat) (s : RTC) (w : Nat),
    (getBackup indx len s)._RTC_BackupRegs w =
      if indx ≤ w ∧ w < indx + len ∧ w ≤ 9 then (s.bkup_regs w &&& 0xFFFF) % 2 ^ 16
      else s._RTC_BackupRegs w := by
  intro len
  induction len with
  | zero =>
    intro indx s w
    have h : ¬ (indx ≤ w ∧ w < indx + 0 ∧ w ≤ 9) := by omega
    rw [if_neg h]; rfl
  | succ n ih =>
    intro indx s w
    unfold getBackup
    by_cases h9 : indx > 9
    · rw [if_pos h9]
      have h : ¬ (indx ≤ w ∧ w < indx + (n + 1) ∧ w ≤ 9) := by omega
      rw [if_neg h]
    · rw [if_neg h9, ih, Nat.mod_eq_of_lt (by omega : indx + 1 < 2 ^ 8)]
      simp only
      by_cases hw : w = indx
      · subst hw
        have h1 : ¬ (w + 1 ≤ w ∧ w < w + 1 + n ∧ w ≤ 9) := by omega
        have h2 : w ≤ w ∧ w < w + (n + 1) ∧ w ≤ 9 := by omega
        rw [if_neg h1, if_pos h2, Function.update_same]
      · rw [Function.update_noteq hw]
        by_cases hc : indx + 1 ≤ w ∧ w < indx + 1 + n ∧ w ≤ 9
        · rw [if_pos hc, if_pos (by omega)]
        · rw [if_neg hc, if_neg (by omega)]

theorem eepromWriteLoop_frame (data : Nat → Nat) : ∀ (n i indx : Nat) (s : RTC),
    eepromWriteLoop data n i indx s =
      { s with _RTC_BackupRegs := (eepromWriteLoop data n i indx s)._RTC_BackupRegs } := by
  intro n
  induction n with
  | zero => intro i indx s; rfl
  | succ n ih =>
    intro i indx s
    unfold eepromWriteLoop
    split
    · rfl
    · rw [ih]

/-- The mirror words the copy loop of `eepromWrite` writes, started at value
`i` and word `indx`, are the words `indx .. indx + n - 1` that are not above 9;
word `indx + k` receives value `i + k`. -/
theorem eepromWriteLoop_word (data : Nat → Nat) : ∀ (n i indx : Nat) (s : RTC) (w : Nat),
    (eepromWriteLoop data n i indx s)._RTC_BackupRegs w =
      if indx ≤ w ∧ w < indx + n ∧ w ≤ 9 then data (i + (w - indx)) % 2 ^ 16
      else s._RTC_BackupRegs w := by
  intro n
  induction n with
  | zero =>
    intro i indx s w
    have h : ¬ (indx ≤ w ∧ w < indx + 0 ∧ w ≤ 9) := by omega
    rw [if_neg h]; rfl
  | succ n ih =>
    intro i indx s w
    unfold eepromWriteLoop
    by_cases h9 : indx > 9
    · rw [if_pos h9]
      have h : ¬ (indx ≤ w ∧ w < indx + (n + 1) ∧ w ≤ 9) := by omega
      rw [if_neg h]
    · rw [if_neg h9, ih, Nat.mod_eq_of_lt (by omega : indx + 1 < 2 ^ 8)]
      simp only
      by_cases hw : w = indx
      · subst hw
        have h1 : ¬ (w + 1 ≤ w ∧ w < w + 1 + n ∧ w ≤ 9) := by omega
        have h2 : w ≤ w ∧ w < w + (n + 1) ∧ w ≤ 9 := by omega
        rw [if_neg h1, if_pos h2, Function.update_same, Nat.sub_self, Nat.add_zero]
      · rw [Function.update_noteq hw]
        by_cases hc : indx + 1 ≤ w ∧ w < indx + 1 + n ∧ w ≤ 9
        · rw [if_pos hc, if_pos (by omega)]
          have hidx : i + 1 + (w - (indx + 1)) = i + (w - indx) := by omega
          rw [hidx]
        · rw [if_neg hc, if_neg (by omega)]

/-- The entries of the caller's array the copy loop of `eepromRead` writes,
started at entry `i` and word `indx`: entry `i + k` receives mirror word
`indx + k` as long as that word is not above 9. -/
theorem eepromReadLoop_entry (s : RTC) : ∀ (n i indx : Nat) (out : Nat → Nat) (k : Nat),
    eepromReadLoop s n i indx out k =
      if i ≤ k ∧ k < i + n ∧ indx + (k - i) ≤ 9 then s._RTC_BackupRegs (indx + (k - i))
      else out k := by
  intro n
  induction n with
  | zero =>
    intro i indx out k
    have h : ¬ (i ≤ k ∧ k < i + 0 ∧ indx + (k - i) ≤ 9) := by omega
    rw [if_neg h]; rfl
  | succ n ih =>
    intro i indx out k
    unfold eepromReadLoop
    by_cases h9 : indx > 9
    · rw [if_pos h9]
      have h : ¬ (i ≤ k ∧ k < i + (n + 1) ∧ indx + (k - i) ≤ 9) := by omega
      rw [if_neg h]
    · rw [if_neg h9, ih, Nat.mod_eq_of_lt (by omega : indx + 1 < 2 ^ 8)]
      by_cases hk : k = i
      · subst hk
        have h1 : ¬ (k + 1 ≤ k ∧ k < k + 1 + n ∧ indx + 1 + (k - (k + 1)) ≤ 9) := by omega
        have h2 : k ≤ k ∧ k < k + (n + 1) ∧ indx + (k - k) ≤ 9 := by omega
        rw [if_neg h1, if_pos h2, Function.update_same, Nat.sub_self, Nat.add_zero]
      · rw [Function.update_noteq hk]
        by_cases hc : i + 1 ≤ k ∧ k < i + 1 + n ∧ indx + 1 + (k - (i + 1)) ≤ 9
        · rw [if_pos hc, if_pos (by omega)]
          have hidx : indx + 1 + (k - (i + 1)) = indx + (k - i) := by omega
          rw [hidx]
        · rw [if_neg hc, if_neg (by omega)]

theorem and_ffff_mod (x : Nat) (hx : x < 2 ^ 16) : (x &&& 0xFFFF) % 2 ^ 16 = x := by
  have h : (0xFFFF : Nat) = 2 ^ 16 - 1 := by norm_num
  rw [h, Nat.and_pow_two_sub_one_eq_mod, Nat.mod_mod, Nat.mod_eq_of_lt hx]

/-- The mirror after `eepromWrite`, for a user index that does not wrap. -/
theorem eepromWrite_mirror (data : Nat → Nat) (i n : Nat) (s : RTC) (hi : i + 1 < 2 ^ 8)
    (w : Nat) :
    (eepromWrite data i n s)._RTC_BackupRegs w =
      if i + 1 ≤ w ∧ w < i + 1 + n ∧ w ≤ 9 then data (w - (i + 1)) % 2 ^ 16
      else s._RTC_BackupRegs w := by
  unfold eepromWrite
  simp only [Nat.mod_eq_of_lt hi]
  rw [setBackup_mirror, eepromWriteLoop_word, Nat.zero_add]

/-- The hardware registers after `eepromWrite`, for a user index that does not
wrap. -/
theorem eepromWrite_hardware (data : Nat → Nat) (i n : Nat) (s : RTC) (hi : i + 1 < 2 ^ 8)
    (w : Nat) :
    (eepromWrite data i n s).bkup_regs w =
      if i + 1 ≤ w ∧ w < i + 1 + n ∧ w ≤ 9 then data (w - (i + 1)) % 2 ^ 16
      else s.bkup_regs w := by
  unfold eepromWrite
  simp only [Nat.mod_eq_of_lt hi]
  rw [setBackup_word, eepromWriteLoop_word, Nat.zero_add]
  by_cases hc : i + 1 ≤ w ∧ w < i + 1 + n ∧ w ≤ 9
  · simp only [if_pos hc]
  · simp only [if_neg hc]
    rw [eepromWriteLoop_frame]

theorem eepromWrite_frame (data : Nat → Nat) (i n : Nat) (s : RTC) :
    eepromWrite data i n s =
      { s with
        _RTC_BackupRegs := (eepromWrite data i n s)._RTC_BackupRegs
        bkup_regs := (eepromWrite data i n s).bkup_regs } := by
  unfold eepromWrite
  simp only
  rw [setBackup_frame, eepromWriteLoop_frame]

/-- C17: for every user index `i <= 8`, every count `n` and 16-bit values,
`eepromWrite(values, i, n)` stores `values[k]` into backup word `i + 1 + k`, in
the mirror and in the hardware register, for exactly the `k < min(n, 9 - i)`;
every other backup word, mirror or hardware, and every other field of the
state is unchanged. -/
theorem eepromWrite_stores (data : Nat → Nat) (i n : Nat) (s : RTC) (hi : i ≤ 8)
    (hv : ∀ k, k < n → data k < 2 ^ 16) :
    (∀ k, k < min n (9 - i) →
      (eepromWrite data i n s)._RTC_BackupRegs (i + 1 + k) = data k ∧
      (eepromWrite data i n s).bkup_regs (i + 1 + k) = data k) ∧
    (∀ w, (w < i + 1 ∨ i + 1 + min n (9 - i) ≤ w) →
      (eepromWrite data i n s)._RTC_BackupRegs w = s._RTC_BackupRegs w ∧
      (eepromWrite data i n s).bkup_regs w = s.bkup_regs w) ∧
    eepromWrite data i n s =
      { s with
        _RTC_BackupRegs := (eepromWrite data i n s)._RTC_BackupRegs
        bkup_regs := (eepromWrite data i n s).bkup_regs } := by
  have hi8 : i + 1 < 2 ^ 8 := by omega
  refine ⟨?_, ?_, eepromWrite_frame data i n s⟩
  · intro k hk
    have hkn : k < n := lt_of_lt_of_le hk (Nat.min_le_left _ _)
    have hk9 : k < 9 - i := lt_of_lt_of_le hk (Nat.min_le_right _ _)
    have hc : i + 1 ≤ i + 1 + k ∧ i + 1 + k < i + 1 + n ∧ i + 1 + k ≤ 9 := by omega
    have hsub : i + 1 + k - (i + 1) = k := by omega
    rw [eepromWrite_mirror _ _ _ _ hi8, eepromWrite_hardware _ _ _ _ hi8]
    simp only [if_pos hc, hsub, Nat.mod_eq_of_lt (hv k hkn)]
    exact ⟨trivial, trivial⟩
  · intro w hw
    have hc : ¬ (i + 1 ≤ w ∧ w < i + 1 + n ∧ w ≤ 9) := by
      rcases Nat.le_total n (9 - i) with h | h
      · rw [Nat.min_eq_left h] at hw; omega
      · rw [Nat.min_eq_right h] at hw; omega
    rw [eepromWrite_mirror _ _ _ _ hi8, eepromWrite_hardware _ _ _ _ hi8]
    simp only [if_neg hc]
    exact ⟨trivial, trivial⟩

/-- C17, writing five values at user index 7: two are stored (words 8 and 9),
three are dropped. -/
theorem eepromWrite_stores_witness :
    (7 : Nat) ≤ 8 ∧
    (∀ k, k < min 5 (9 - 7) →
      (eepromWrite (fun k => 0x100 + k) 7 5 RTC.configured)._RTC_BackupRegs (7 + 1 + k)
        = 0x100 + k ∧
      (eepromWrite (fun k => 0x100 + k) 7 5 RTC.configured).bkup_regs (7 + 1 + k)
        = 0x100 + k) :=
  ⟨by decide,
    (eepromWrite_stores (fun k => 0x100 + k) 7 5 RTC.configured (by decide)
      (fun k hk => by
        show 0x100 + k < 2 ^ 16
        omega)).1⟩

/-- C16: for every user index `i <= 8`, every count `n` with `i + n <= 9` and
every sequence of `n` 16-bit values, `eepromWrite(values, i, n)` followed by
`eepromRead(out, i, n)` returns an array with `out[k] = values[k]` for every
`k < n`. -/
theorem eepromRead_eepromWrite (data out : Nat → Nat) (i n : Nat) (s : RTC) (hi : i ≤ 8)
    (hin : i + n ≤ 9) (hv : ∀ k, k < n → data k < 2 ^ 16) :
    ∃ out', (eepromRead (some out) i n (eepromWrite data i n s)).1 = some out' ∧
      ∀ k, k < n → out' k = data k := by
  have hi8 : i + 1 < 2 ^ 8 := by omega
  refine ⟨_, rfl, ?_⟩
  intro k hk
  have hc1 : 0 ≤ k ∧ k < 0 + n ∧ i + 1 + (k - 0) ≤ 9 := by omega
  have hc2 : i + 1 ≤ i + 1 + k ∧ i + 1 + k < i + 1 + n ∧ i + 1 + k ≤ 9 := by omega
  have hsub : i + 1 + k - (i + 1) = k := by omega
  simp only [Nat.mod_eq_of_lt hi8]
  rw [eepromReadLoop_entry, if_pos hc1, Nat.sub_zero, getBackup_word, if_pos hc2,
    eepromWrite_hardware _ _ _ _ hi8, if_pos hc2, hsub, Nat.mod_eq_of_lt (hv k hk),
    and_ffff_mod _ (hv k hk)]

/-- C16, on the values `[0x10, 0x20]` written at user index 0 and read back. -/
theorem eepromRead_eepromWrite_witness :
    ∃ out', (eepromRead (some (fun _ => 0)) 0 2
        (eepromWrite (fun k => if k = 0 then 0x10 else 0x20) 0 2 RTC.configured)).1
        = some out' ∧
      out' 0 = 0x10 ∧ out' 1 = 0x20 := by
  obtain ⟨out', h, hk⟩ :=
    eepromRead_eepromWrite (fun k => if k = 0 then 0x10 else 0x20) (fun _ => 0) 0 2
      RTC.configured (by decide) (by decide)
      (fun k _ => by
        show (if k = 0 then 0x10 else 0x20) < 2 ^ 16
        split <;> decide)
  exact ⟨out', h, hk 0 (by decide), hk 1 (by decide)⟩

/-- C18 fails at start index 255: `indx += 1` wraps to 0, so
`eepromWrite(values, 255, 1)` stores `values[0] = 0x10` over status word 0, in
the mirror and in the hardware register, and the RTC no longer reports itself
configured. -/
theorem eepromWrite_overwrites_status_word :
    (RTC.configured._RTC_BackupRegs 0, RTC.configured.bkup_regs 0) = (4, 4) ∧
    isConfigured RTC.configured = true ∧
    ((eepromWrite (fun _ => 0x10) 255 1 RTC.configured)._RTC_BackupRegs 0,
      (eepromWrite (fun _ => 0x10) 255 1 RTC.configured).bkup_regs 0) = (0x10, 0x10) ∧
    isConfigured (eepromWrite (fun _ => 0x10) 255 1 RTC.configured) = false :=
  ⟨by decide, by decide, by decide, by decide⟩

/-! ## The status flags -/

theorem testBit_one (i : Nat) : (1 : Nat).testBit i = decide (i = 0) := by
  have h : (1 : Nat) = 2 ^ 0 := rfl
  rw [h, Nat.testBit_two_pow]
  simp [eq_comm]

/-- A flag test `(w & 2^k) > 0` reads bit `k` of the word. -/
theorem and_two_pow_pos (w k : Nat) : decide (w &&& 2 ^ k > 0) = w.testBit k := by
  rw [Nat.and_two_pow]
  cases w.testBit k
  · simp
  · simp [Nat.pos_pow_of_pos]

/-- Setting the bits of a 16-bit mask in a 16-bit word changes no other bit. -/
theorem testBit_or_mod16 (x m i : Nat) (hx : x < 2 ^ 16) (hm : m < 2 ^ 16) :
    ((x ||| m) % 2 ^ 16).testBit i = (x.testBit i || m.testBit i) := by
  rw [Nat.mod_eq_of_lt (Nat.or_lt_two_pow hx hm), Nat.testBit_or]

/-- C19: `_statusFlagChange(b, on)` on a 16-bit mask `b` sets (`on = true`) or
clears (`on = false`) exactly the bits of `b` in status word 0 of the mirror;
every other backup word, mirror or hardware, and every other field of the
state is unchanged; afterwards hardware word 0 equals mirror word 0; and
`isTimeSet`, `isAlarmEnabled` and `isConfigured` report bits 0, 1 and 2 of that
word. -/
theorem statusFlagChange_spec (b : Nat) (fset : Bool) (s : RTC) (hb : b < 2 ^ 16)
    (hw : s._RTC_BackupRegs 0 < 2 ^ 16) :
    (∀ i, ((_statusFlagChange b fset s)._RTC_BackupRegs 0).testBit i =
      if fset then ((s._RTC_BackupRegs 0).testBit i || b.testBit i)
      else ((s._RTC_BackupRegs 0).testBit i && !b.testBit i)) ∧
    (∀ w, w ≠ 0 →
      (_statusFlagChange b fset s)._RTC_BackupRegs w = s._RTC_BackupRegs w ∧
      (_statusFlagChange b fset s).bkup_regs w = s.bkup_regs w) ∧
    (_statusFlagChange b fset s).bkup_regs 0 = (_statusFlagChange b fset s)._RTC_BackupRegs 0 ∧
    _statusFlagChange b fset s =
      { s with
        _RTC_BackupRegs := (_statusFlagChange b fset s)._RTC_BackupRegs
        bkup_regs := (_statusFlagChange b fset s).bkup_regs } ∧
    isTimeSet (_statusFlagChange b fset s)
      = ((_statusFlagChange b fset s)._RTC_BackupRegs 0).testBit 0 ∧
    isAlarmEnabled (_statusFlagChange b fset s)
      = ((_statusFlagChange b fset s)._RTC_BackupRegs 0).testBit 1 ∧
    isConfigured (_statusFlagChange b fset s)
      = ((_statusFlagChange b fset s)._RTC_BackupRegs 0).testBit 2 := by
  refine ⟨?_, ?_, ?_, ?_, ?_, ?_, ?_⟩
  · intro i
    rw [statusFlagChange_eq]
    simp only [Function.update_same]
    cases fset
    · simp only [Bool.false_eq_true, if_false]
      exact testBit_and_not16 _ _ _ hw
    · simp only [if_true]
      exact testBit_or_mod16 _ _ _ hw hb
  · intro w hw0
    rw [statusFlagChange_eq]
    simp only [Function.update_noteq hw0]
    exact ⟨trivial, trivial⟩
  · rw [statusFlagChange_eq]
    simp only [Function.update_same]
  · rw [statusFlagChange_eq]
  · exact and_two_pow_pos _ 0
  · exact and_two_pow_pos _ 1
  · exact and_two_pow_pos _ 2

/-- C19, setting `TIME_SET` on the configured example state: word 0 goes from 4
to 5 and the three predicates read its bits. -/
theorem statusFlagChange_spec_witness :
    BACKUP_TIME_SET_FLAG < 2 ^ 16 ∧ RTC.configured._RTC_BackupRegs 0 < 2 ^ 16 ∧
    (_statusFlagChange BACKUP_TIME_SET_FLAG true RTC.configured).bkup_regs 0
      = (_statusFlagChange BACKUP_TIME_SET_FLAG true RTC.configured)._RTC_BackupRegs 0 :=
  ⟨by decide, by decide,
    (statusFlagChange_spec BACKUP_TIME_SET_FLAG true RTC.configured (by decide)
      (by decide)).2.2.1⟩

/-! ## `begin(INIT_TIME_RESET)` -/

/-- A `CONFIG_ENTER` call that reports `RTC_OK` leaves the `CNF` bit set. -/
theorem rtc_config_enter_CNF (env : Env) (fuel : Nat) (s : RTC) (s' : RTC)
    (h : rtc_config env fuel CONFIG_ENTER s = some (RTC_OK, s')) :
    s'.RTC_CRL &&& CNF = CNF := by
  unfold rtc_config at h
  simp only [↓reduceIte] at h
  split at h
  · exact absurd h (by simp)
  · rename_i retn s1 hp
    by_cases hr : retn = RTC_OK
    · rw [if_pos hr] at h
      have h2 := (Prod.mk.inj (Option.some.inj h)).2
      rw [← h2]
      exact enter_sets_CNF _
    · rw [if_neg hr] at h
      have h1 := (Prod.mk.inj (Option.some.inj h)).1
      exact absurd h1 hr

/-- Whenever the second gate call of the `INIT_TIME_RESET` block reports `RTC_OK`,
the block ends with the counter and alarm registers zero and `CNF` set. -/
theorem beginTimeReset_CNF (env : Env) (fuel : Nat) (s : RTC) (r1 : Nat) (s' : RTC)
    (h : beginTimeReset env fuel s = some (r1, RTC_OK, s')) :
    s'.RTC_CNTH = 0 ∧ s'.RTC_CNTL = 0 ∧ s'.RTC_ALRH = 0 ∧ s'.RTC_ALRL = 0 ∧
      s'.RTC_CRL &&& CNF = CNF := by
  unfold beginTimeReset at h
  simp only at h
  split at h
  · exact absurd h (by simp)
  · rename_i r1' s1 h1
    split at h
    · exact absurd h (by simp)
    · rename_i r2 s2 h2
      have hinj := Prod.mk.inj (Option.some.inj h)
      have hinj2 := Prod.mk.inj hinj.2
      have hr2 : r2 = RTC_OK := hinj2.1
      have hs : s2 = s' := hinj2.2
      subst hs
      subst hr2
      have hf := rtc_config_frame _ _ _ _ _ _ h2
      refine ⟨?_, ?_, ?_, ?_, rtc_config_enter_CNF _ _ _ _ h2⟩ <;> rw [hf]

/-- The branch `INIT_TIME_RESET` of `begin`: the register block runs on the state
left by the two enables and `getBackup(0, 10)`, and the state it returns is the
one `_statusFlagChange` is applied to. -/
theorem begin_INIT_TIME_RESET (clockInit : Bool → RTC → RTC) (env : Env) (fuel : Nat) (s : RTC) :
    begin clockInit env fuel INIT_TIME_RESET s =
      (beginTimeReset env fuel
        (getBackup 0 10
          { s with
            RCC_APB1ENR := (s.RCC_APB1ENR ||| PWREN) % 2 ^ 32
            PWR_CR := (s.PWR_CR ||| DBP) % 2 ^ 32 })).map
        (fun r => _statusFlagChange BACKUP_CONFIGURED_FLAG true
          (clockInit false (disableAlarm
            (_statusFlagChange (BACKUP_TIME_SET_FLAG ||| BACKUP_ALARM_SET_FLAG) false r.2.2)))) := by
  unfold begin
  simp only [↓reduceIte]
  split <;> rename_i h
  · split at h
    · rename_i h2; rw [h2]; rfl
    · exact absurd h (by simp)
  · split at h
    · exact absurd h (by simp)
    · rename_i r1 r2 s2 h2
      rw [h2]
      have hinj := Prod.mk.inj (Option.some.inj h)
      rw [← hinj.1, ← hinj.2]
      rfl

/-- C21 fails on a configured RTC whose hardware is ready at once: on the state
`begin` reaches after the two enables and `getBackup(0, 10)`, both gate calls of
the `INIT_TIME_RESET` block are `rtc_config(CONFIG_ENTER)` and report `RTC_OK`,
the counter and alarm registers are zero, and `CNF` is still set in `RTC_CRL`
(`0x30`) when `begin` goes on to `_statusFlagChange`. -/
theorem begin_time_reset_leaves_CNF_set :
    (beginTimeReset Env.ready 1
        (getBackup 0 10 { RTC.configured with RCC_APB1ENR := PWREN, PWR_CR := DBP })).map
        (fun r => (r.1, r.2.1))
      = some (RTC_OK, RTC_OK) ∧
    (beginTimeReset Env.ready 1
        (getBackup 0 10 { RTC.configured with RCC_APB1ENR := PWREN, PWR_CR := DBP })).map
        (fun r => (r.2.2.RTC_CNTH, r.2.2.RTC_CNTL, r.2.2.RTC_ALRH, r.2.2.RTC_ALRL))
      = some (0, 0, 0, 0) ∧
    (beginTimeReset Env.ready 1
        (getBackup 0 10 { RTC.configured with RCC_APB1ENR := PWREN, PWR_CR := DBP })).map
        (fun r => (r.2.2.RTC_CRL, r.2.2.RTC_CRL &&& CNF))
      = some (0x30, CNF) :=
  ⟨by decide, by decide, by decide⟩

/-! ## The `TIME_SET` flag -/

/-- Whenever `setEpoch` returns, `TIME_SET` is set, whatever the gate reported. -/
theorem setEpoch_isTimeSet (env : Env) (fuel e : Nat) (s s' : RTC)
    (h : setEpoch env fuel e s = some s') : isTimeSet s' = true := by
  unfold setEpoch at h
  simp only at h
  split at h
  · exact absurd h (by simp)
  · split at h
    · exact absurd h (by simp)
    · rename_i r2 s2 h2
      have hs := Option.some.inj h
      rw [← hs, statusFlagChange_eq]
      have hflag : ((s2._RTC_BackupRegs 0 ||| BACKUP_TIME_SET_FLAG) % 2 ^ 16)
          &&& BACKUP_TIME_SET_FLAG = BACKUP_TIME_SET_FLAG :=
        or_mod16_and_mask _ _ (by decide)
      simp only [isTimeSet, ↓reduceIte, Function.update_same, decide_eq_true_eq]
      rw [hflag]
      decide

/-- C22 fails at these inputs, on a configured RTC with `TIME_SET` clear.  With
`RTOFF` low during the wait of `CONFIG_ENTER`, entering times out
(`RTC_FAIL_CONFIG_ENTER`) and `setEpoch(5)` returns with `TIME_SET` set.  With
`RTOFF` and `RSF` never reported, entering and leaving both time out and
`setEpoch(5)` again returns with `TIME_SET` set. -/
theorem setEpoch_sets_TIME_SET_after_timeout :
    isTimeSet RTC.configured = false ∧
    (rtc_config Env.late 1 CONFIG_ENTER { RTC.configured with irq := false }).map Prod.fst
      = some RTC_FAIL_CONFIG_ENTER ∧
    (setEpoch Env.late 1 5 RTC.configured).map isTimeSet = some true ∧
    (rtc_config Env.stuck 5 CONFIG_ENTER { RTC.configured with irq := false }).map Prod.fst
      = some RTC_FAIL_CONFIG_ENTER ∧
    ((rtc_config Env.stuck 5 CONFIG_ENTER { RTC.configured with irq := false }).bind
        (fun r => rtc_config Env.stuck 5 CONFIG_EXIT
          { r.2 with RTC_CNTH := 5 >>> 16, RTC_CNTL := 5 &&& 0xFFFF })).map Prod.fst
      = some RTC_FAIL_CONFIG_EXIT ∧
    (setEpoch Env.stuck 5 5 RTC.configured).map isTimeSet = some true :=
  ⟨by decide, by decide, by decide, by decide, by decide, by decide⟩

/-! ## The epoch field after `setDateTime` -/

/-- C24 fails for 12-hour PM input: for 01:00:00 PM of 1970-01-01 on a configured
RTC whose hardware is ready at once, both gate steps report `RTC_OK` and
`setDateTime` leaves `3600` in the `epoch` field of the struct and `46800` in
the counter. -/
theorem setDateTime_epoch_field_stale :
    isConfigured RTC.configured = true ∧
    (dateTimeToEpoch (fun _ => 0) ⟨0, 1, 0, 0, 1, 0, 1, 0, 1, 1970⟩).1 = 3600 ∧
    (rtc_config Env.ready 1 CONFIG_ENTER { RTC.configured with irq := false }).bind
        (fun r => (rtc_config Env.ready 1 CONFIG_EXIT
          { r.2 with RTC_CNTH := 46800 >>> 16, RTC_CNTL := 46800 &&& 0xFFFF }).map
            (fun r2 => (r.1, r2.1)))
      = some (RTC_OK, RTC_OK) ∧
    (setDateTime (fun _ => 0) Env.ready 1 ⟨0, 1, 0, 0, 1, 0, 1, 0, 1, 1970⟩ RTC.configured).map
        (fun r => (r.1.epoch, getEpoch r.2))
      = some (3600, 46800) :=
  ⟨by decide, by decide, by decide, by decide⟩

/-! ## Reading the time in 12-hour format and setting it again -/

/-- C28 fails at the hours 0 and 12, with both gate steps reporting `RTC_OK`.
With the counter at `100` (00:01:40), `getDateTime` in 12-hour format gives
12:01:40 AM and `setDateTime` of that struct stores `43300`.  With the counter
at `43200` (12:00:00), it gives 12:00:00 PM and `setDateTime` stores `86400`. -/
theorem getDateTime_setDateTime_twelve :
    isConfigured RTC.configured = true ∧
    getEpoch RTC.configured = 100 ∧
    ((getDateTime RTC.configured ⟨0, 0, 0, 0, 0, 0, 0, 0, 0, 0⟩ RTC_HOUR_FORMAT_12).hours,
      (getDateTime RTC.configured ⟨0, 0, 0, 0, 0, 0, 0, 0, 0, 0⟩ RTC_HOUR_FORMAT_12).am_pm)
      = (12, RTC_HOUR_AM) ∧
    (rtc_config Env.ready 1 CONFIG_ENTER { RTC.configured with irq := false }).bind
        (fun r => (rtc_config Env.ready 1 CONFIG_EXIT
          { r.2 with RTC_CNTH := 43300 >>> 16, RTC_CNTL := 43300 &&& 0xFFFF }).map
            (fun r2 => (r.1, r2.1)))
      = some (RTC_OK, RTC_OK) ∧
    (setDateTime (fun _ => 0) Env.ready 1
        (getDateTime RTC.configured ⟨0, 0, 0, 0, 0, 0, 0, 0, 0, 0⟩ RTC_HOUR_FORMAT_12)
        RTC.configured).map (fun r => getEpoch r.2) = some 43300 ∧
    getEpoch { RTC.configured with RTC_CNTL := 43200 } = 43200 ∧
    ((getDateTime { RTC.configured with RTC_CNTL := 43200 } ⟨0, 0, 0, 0, 0, 0, 0, 0, 0, 0⟩
        RTC_HOUR_FORMAT_12).hours,
      (getDateTime { RTC.configured with RTC_CNTL := 43200 } ⟨0, 0, 0, 0, 0, 0, 0, 0, 0, 0⟩
        RTC_HOUR_FORMAT_12).am_pm)
      = (12, RTC_HOUR_PM) ∧
    (rtc_config Env.ready 1 CONFIG_ENTER
        { RTC.configured with RTC_CNTL := 43200, irq := false }).bind
        (fun r => (rtc_config Env.ready 1 CONFIG_EXIT
          { r.2 with RTC_CNTH := 86400 >>> 16, RTC_CNTL := 86400 &&& 0xFFFF }).map
            (fun r2 => (r.1, r2.1)))
      = some (RTC_OK, RTC_OK) ∧
    (setDateTime (fun _ => 0) Env.ready 1
        (getDateTime { RTC.configured with RTC_CNTL := 43200 } ⟨0, 0, 0, 0, 0, 0, 0, 0, 0, 0⟩
          RTC_HOUR_FORMAT_12)
        { RTC.configured with RTC_CNTL := 43200 }).map (fun r => getEpoch r.2) = some 86400 :=
  ⟨by decide, by decide, by decide, by decide, by decide, by decide, by decide, by decide,
    by decide⟩

/-! ## `setEpoch` followed by `getEpoch` -/

/-- C29: for every 32-bit epoch `e`, when neither gate step times out,
`setEpoch(e)` returns with `e >> 16` in the high counter register and
`e & 0xFFFF` in the low one, `(high << 16) | low` is `e`, and `getEpoch()` on
that state returns `e`. -/
theorem getEpoch_setEpoch (env : Env) (fuel e : Nat) (s s1 s2 : RTC) (he : e < 2 ^ 32)
    (henter : rtc_config env fuel CONFIG_ENTER { s with irq := false } = some (RTC_OK, s1))
    (hexit : rtc_config env fuel CONFIG_EXIT
      { s1 with RTC_CNTH := e >>> 16, RTC_CNTL := e &&& 0xFFFF } = some (RTC_OK, s2)) :
    ∃ s', setEpoch env fuel e s = some s' ∧
      s'.RTC_CNTH = e >>> 16 ∧ s'.RTC_CNTL = e &&& 0xFFFF ∧
      (s'.RTC_CNTH <<< 16) ||| s'.RTC_CNTL = e ∧ getEpoch s' = e := by
  obtain ⟨s', h, h1, h2, h3⟩ := setEpoch_counter env fuel e s s1 s2 _ _ he henter hexit
  refine ⟨s', h, h1, h2, ?_, h3⟩
  rw [h1, h2]
  exact combine_halves_or e

/-- C29, on a configured RTC whose hardware is ready at once, for the epoch
`0x12345678`. -/
theorem getEpoch_setEpoch_witness :
    0x12345678 < 2 ^ 32 ∧
    ∃ s', setEpoch Env.ready 1 0x12345678 RTC.configured = some s' ∧
      s'.RTC_CNTH = 0x1234 ∧ s'.RTC_CNTL = 0x5678 ∧ getEpoch s' = 0x12345678 := by
  refine ⟨by decide, ?_⟩
  obtain ⟨s', h, h1, h2, -, h3⟩ :=
    getEpoch_setEpoch Env.ready 1 0x12345678 RTC.configured
      { RTC.configured with irq := false, RTC_CRL := 0x30, tick := 2 }
      { RTC.configured with
        irq := false, RTC_CRL := 0x28, tick := 4, RTC_CNTH := 0x1234, RTC_CNTL := 0x5678 }
      (by decide) rfl rfl
  exact ⟨s', h, h1, h2, h3⟩

/-! ## The year term of `dateTimeToEpoch` -/

/-- The accumulator of `dateTimeToEpoch` starts from the year term converted to
`uint32_t`. -/
theorem dateTimeToEpoch_yearTerm (past : Nat → Nat) (c : RTC_datetime_t) :
    (dateTimeToEpoch past c).1 =
      let _year : Nat :=
        if toInt16 ((c.year : Int) - 1970) < 0 then 0
        else (toInt16 ((c.year : Int) - 1970)).toNat
      let _seconds := wrap32 (yearTerm c)
      let _seconds := leapYearLoop _year _seconds
      let _seconds := monthSecondsLoop past _year c.month _seconds
      let _seconds := wrap32 ((_seconds : Int) + ((c.day : Int) - 1) * (SECS_PER_DAY : Int))
      let _seconds := (_seconds + c.hours * SECS_PER_HOUR) % 2 ^ 32
      let _seconds := (_seconds + c.minutes * SECS_PER_MIN) % 2 ^ 32
      (_seconds + c.seconds) % 2 ^ 32 := rfl

/-- The year term, for a year from 1970 to 2106. -/
theorem yearTerm_eq (c : RTC_datetime_t) (h1 : 1970 ≤ c.year) (h2 : c.year ≤ 2106) :
    yearTerm c = ((c.year : Int) - 1970) * 31536000 := by
  unfold yearTerm toInt16
  simp only [SECS_PER_DAY, SECS_PER_HOUR, SECS_PER_MIN]
  have h16 : ((c.year : Int) - 1970 + 2 ^ 15) % 2 ^ 16 - 2 ^ 15 = (c.year : Int) - 1970 := by
    omega
  rw [h16]
  have hn : ¬ ((c.year : Int) - 1970 < 0) := by omega
  rw [if_neg hn]
  have ht : (((c.year : Int) - 1970).toNat : Int) = (c.year : Int) - 1970 := by omega
  rw [ht]
  norm_num

/-- The year term fits a 32-bit `int` for the years 1970 to 2038. -/
theorem yearTerm_le_INT_MAX (c : RTC_datetime_t) (h1 : 1970 ≤ c.year) (h2 : c.year ≤ 2038) :
    0 ≤ yearTerm c ∧ yearTerm c ≤ INT_MAX := by
  rw [yearTerm_eq c h1 (by omega)]
  unfold INT_MAX
  constructor <;> omega

/-- The year term exceeds a 32-bit `int` for every year from 2039 to 2106. -/
theorem yearTerm_gt_INT_MAX (c : RTC_datetime_t) (h1 : 2039 ≤ c.year) (h2 : c.year ≤ 2106) :
    INT_MAX < yearTerm c := by
  rw [yearTerm_eq c (by omega) h2]
  unfold INT_MAX
  omega

/-- C30 fails at the year 2039: the `int` product `_year * (SECS_PER_DAY * 365)` is
`69 * 31536000 = 2175984000`, above `INT_MAX = 2147483647`; for 2038 it is
`68 * 31536000 = 2144448000`, the last one that fits. -/
theorem yearTerm_exceeds_INT_MAX :
    yearTerm ⟨1, 0, 0, 0, 0, 0, 1, 0, 1, 2038⟩ = 2144448000 ∧
    yearTerm ⟨1, 0, 0, 0, 0, 0, 1, 0, 1, 2039⟩ = 2175984000 ∧
    INT_MAX < yearTerm ⟨1, 0, 0, 0, 0, 0, 1, 0, 1, 2039⟩ ∧
    (dateTimeToEpoch (fun _ => 0) ⟨1, 0, 0, 0, 0, 0, 1, 0, 1, 2039⟩).1 = 2177452800 :=
  ⟨by decide, by decide, by decide, by decide⟩


/-! ## The ranges of the fields `epochToDateTime` produces -/

theorem daysBeforeYear_137 : daysBeforeYear 137 = 50038 := by
  have h := daysBeforeYear_succ 136
  have h2 : yearDays 136 = 365 := by decide
  rw [daysBeforeYear_136, h2] at h
  exact h

/-- The year that contains a day of a 32-bit epoch is at most `1970 + 136`. -/
theorem year_le_136 (t Y : Nat) (ht : t ≤ 49710) (hY : daysBeforeYear Y ≤ t) : Y ≤ 136 := by
  rcases Nat.lt_or_ge Y 137 with h | h
  · omega
  · have := daysBeforeYear_mono h
    rw [daysBeforeYear_137] at this
    omega

/-- Every index read by the month loop is below the loop bound. -/
theorem monthLoopReads_lt (Y : Nat) :
    ∀ n m t i, i ∈ monthLoopReads Y n m t → i < m + n := by
  intro n
  induction n with
  | zero => intro m t i hi; simp [monthLoopReads] at hi
  | succ n ih =>
    intro m t i hi
    unfold monthLoopReads at hi
    simp only at hi
    have hmem : i = m ∨ ∃ t', i ∈ monthLoopReads Y n (m + 1) t' := by
      by_cases h1 : (m == 1) = true
      · simp only [if_pos h1, List.nil_append] at hi
        generalize (if IS_LEAP_YEAR Y then 29 else 28 : Nat) = L at hi
        split at hi
        · exact Or.inr ⟨_, hi⟩
        · simp at hi
      · simp only [if_neg h1] at hi
        split at hi
        · rcases List.mem_append.mp hi with h | h
          · left
            simpa using h
          · exact Or.inr ⟨_, h⟩
        · left
          simpa using hi
    rcases hmem with h | ⟨t', h⟩
    · omega
    · have := ih (m + 1) t' i h
      omega

/-- C23: for every 32-bit epoch `e`, `epochToDateTime(e)` produces seconds and
minutes in 0..59, hours in 0..23, a month in 1..12, a day between 1 and the
length of that month in that year (at most 31), a weekday in 0..6 and a year
in 1970..2106; every index at which it reads the 12-entry table `monthDays` is
below 12; and its year loop terminates: with any allowance of at least 137
passes it gives the result used, at which the loop test `_days <= _time` is
false. -/
theorem epochToDateTime_ranges (dt : RTC_datetime_t) (e : Nat) (he : e < 2 ^ 32) :
    (epochToDateTime dt e).seconds ≤ 59 ∧
    (epochToDateTime dt e).minutes ≤ 59 ∧
    (epochToDateTime dt e).hours ≤ 23 ∧
    1 ≤ (epochToDateTime dt e).month ∧ (epochToDateTime dt e).month ≤ 12 ∧
    1 ≤ (epochToDateTime dt e).day ∧
    (epochToDateTime dt e).day
      ≤ gregorianMonthLength (epochToDateTime dt e).year (epochToDateTime dt e).month ∧
    gregorianMonthLength (epochToDateTime dt e).year (epochToDateTime dt e).month ≤ 31 ∧
    (epochToDateTime dt e).weekday ≤ 6 ∧
    1970 ≤ (epochToDateTime dt e).year ∧ (epochToDateTime dt e).year ≤ 2106 ∧
    (∀ i ∈ epochToDateTimeReads e, i < monthDays.length) ∧
    (∀ n, 137 ≤ n →
      yearLoop (e / 60 / 60 / 24) n 0 0
        = yearLoop (e / 60 / 60 / 24) (e / 60 / 60 / 24 + 1) 0 0) ∧
    e / 60 / 60 / 24 < (yearLoop (e / 60 / 60 / 24) (e / 60 / 60 / 24 + 1) 0 0).1 := by
  obtain ⟨Y, hYt, hY1, hY2⟩ := exists_year (e / 86400)
  have hsucc := daysBeforeYear_succ Y
  obtain ⟨m, hm, hm1, hm2⟩ := exists_month Y (e / 86400 - daysBeforeYear Y) (by omega)
  have ht : e / 60 / 60 / 24 = e / 86400 := by omega
  have htb : e / 86400 ≤ 49710 := by omega
  have hY136 := year_le_136 _ Y htb hY1
  have hmsucc := daysBeforeMonth_succ Y m
  have hmlen := monthLen_le Y m hm
  have hmeq := monthLen_eq Y m hm
  have hd0 : daysBeforeYear 0 = 0 := rfl
  have hloop : ∀ n, Y < n →
      yearLoop (e / 86400) n 0 0 = (daysBeforeYear (Y + 1), Y) := by
    intro n hn
    have h := yearLoop_exit (e / 86400) (by omega) n 0 Y (by omega) (by omega) (by omega) hY1 hY2
    rw [hd0] at h
    exact h
  rw [epochToDateTime_eq dt e Y m he hY1 hY2 hm hm1 hm2, ht]
  simp only
  rw [Nat.add_comm Y 1970, Nat.add_comm m 1, ← hmeq]
  refine ⟨by omega, by omega, by omega, by omega, by omega, by omega, by omega, by omega,
    by omega, by omega, by omega, ?_, ?_, ?_⟩
  · intro i hi
    unfold epochToDateTimeReads at hi
    have := monthLoopReads_lt _ _ _ _ i hi
    have hl : monthDays.length = 12 := rfl
    omega
  · intro n hn
    rw [hloop n (by omega), hloop (e / 86400 + 1) (by omega)]
  · rw [hloop (e / 86400 + 1) (by omega)]
    exact hY2

/-- C23, at the last epoch `0xFFFFFFFF` (2106-02-07T06:28:15). -/
theorem epochToDateTime_ranges_witness :
    4294967295 < 2 ^ 32 ∧
    (epochToDateTime ⟨1, 0, 0, 0, 0, 0, 0, 0, 0, 0⟩ 4294967295).day
      ≤ gregorianMonthLength (epochToDateTime ⟨1, 0, 0, 0, 0, 0, 0, 0, 0, 0⟩ 4294967295).year
          (epochToDateTime ⟨1, 0, 0, 0, 0, 0, 0, 0, 0, 0⟩ 4294967295).month ∧
    (epochToDateTime ⟨1, 0, 0, 0, 0, 0, 0, 0, 0, 0⟩ 4294967295).year ≤ 2106 ∧
    (∀ i ∈ epochToDateTimeReads 4294967295, i < monthDays.length) := by
  obtain ⟨-, -, -, -, -, -, h7, -, -, -, h11, h12, -, -⟩ :=
    epochToDateTime_ranges ⟨1, 0, 0, 0, 0, 0, 0, 0, 0, 0⟩ 4294967295 (by decide)
  exact ⟨by decide, h7, h11, h12⟩


/-! ## The interrupt bracket of `setAlarmFromEpoch` -/

/-- The logged run computes the result and the state of `setAlarmFromEpoch`. -/
theorem setAlarmFromEpochLog_eq (env : Env) (fuel t : Nat) (s : RTC) :
    (setAlarmFromEpochLog env fuel t s).map (fun r => r.2) = setAlarmFromEpoch env fuel t s := by
  unfold setAlarmFromEpochLog setAlarmFromEpoch
  split
  · rfl
  · simp only
    split
    · rfl
    · split
      · rfl
      · rfl

/-- C25, as the code has it: on the accepting path of `setAlarmFromEpoch`, when
the two gate waits end, the call returns; disabling `ALRIE`, entering
configuration mode, the two alarm stores, leaving configuration mode, clearing
the pending flag, enabling `ALRIE` and setting the two EXTI bits run, in this
order, with global interrupts disabled; `ALARM_SET` is recorded after
`__enable_irq()`, with interrupts enabled; and interrupts are enabled in the
state the call returns. -/
theorem setAlarmFromEpoch_irq_bracket (env : Env) (fuel t : Nat) (s s1 s2 : RTC) (r1 r2 : Nat)
    (ht : getEpoch s < t)
    (henter : rtc_config env fuel CONFIG_ENTER
      { s with irq := false, RTC_CRH := s.RTC_CRH &&& not32 RTC_ALRIE } = some (r1, s1))
    (hexit : rtc_config env fuel CONFIG_EXIT
      { s1 with RTC_ALRH := t >>> 16, RTC_ALRL := t &&& 0xFFFF } = some (r2, s2)) :
    ∃ s', setAlarmFromEpochLog env fuel t s =
        some ([(ArmStep.disableALRIE, false), (ArmStep.configEnter, false),
          (ArmStep.storeALRH, false), (ArmStep.storeALRL, false), (ArmStep.configExit, false),
          (ArmStep.clearALARMF, false), (ArmStep.enableALRIE, false),
          (ArmStep.unmaskEXTI, false), (ArmStep.risingEXTI, false),
          (ArmStep.recordAlarmSet, true)], r2, s') ∧
      setAlarmFromEpoch env fuel t s = some (r2, s') ∧ s'.irq = true := by
  have f1 := rtc_config_frame _ _ _ _ _ _ henter
  have f2 := rtc_config_frame _ _ _ _ _ _ hexit
  have hs1 : s1.irq = false := by rw [f1]
  have hs2 : s2.irq = false := by rw [f2]; exact hs1
  have hlog : setAlarmFromEpochLog env fuel t s =
      some ([(ArmStep.disableALRIE, false), (ArmStep.configEnter, false),
          (ArmStep.storeALRH, false), (ArmStep.storeALRL, false), (ArmStep.configExit, false),
          (ArmStep.clearALARMF, false), (ArmStep.enableALRIE, false),
          (ArmStep.unmaskEXTI, false), (ArmStep.risingEXTI, false),
          (ArmStep.recordAlarmSet, true)], r2,
        _statusFlagChange BACKUP_ALARM_SET_FLAG true
          { s2 with
            RTC_CRL := s2.RTC_CRL &&& not32 RTC_CRL_ALARMF
            RTC_CRH := s2.RTC_CRH ||| RTC_ALRIE
            EXTI_IMR := s2.EXTI_IMR ||| EXTI_LINE17
            EXTI_RTSR := s2.EXTI_RTSR ||| EXTI_LINE17
            irq := true }) := by
    unfold setAlarmFromEpochLog
    rw [if_neg (by omega)]
    simp only
    rw [henter]
    simp only
    rw [hexit]
    simp only [hs1, hs2, List.cons_append, List.nil_append]
  refine ⟨_, hlog, ?_, ?_⟩
  · rw [← setAlarmFromEpochLog_eq, hlog]
    rfl
  · rw [statusFlagChange_eq]

/-- C25, on a configured RTC whose hardware is ready at once, with the counter at
100 and the target at 200. -/
theorem setAlarmFromEpoch_irq_bracket_witness :
    getEpoch RTC.configured < 200 ∧
    ∃ s', setAlarmFromEpochLog Env.ready 1 200 RTC.configured =
        some ([(ArmStep.disableALRIE, false), (ArmStep.configEnter, false),
          (ArmStep.storeALRH, false), (ArmStep.storeALRL, false), (ArmStep.configExit, false),
          (ArmStep.clearALARMF, false), (ArmStep.enableALRIE, false),
          (ArmStep.unmaskEXTI, false), (ArmStep.risingEXTI, false),
          (ArmStep.recordAlarmSet, true)], RTC_OK, s') ∧
      setAlarmFromEpoch Env.ready 1 200 RTC.configured = some (RTC_OK, s') ∧ s'.irq = true :=
  ⟨by decide,
    setAlarmFromEpoch_irq_bracket Env.ready 1 200 RTC.configured
      { RTC.configured with irq := false, RTC_CRL := 0x30, tick := 2 }
      { RTC.configured with
        irq := false, RTC_CRL := 0x28, tick := 4, RTC_ALRH := 0, RTC_ALRL := 200 }
      RTC_OK RTC_OK (by decide) rfl rfl⟩

/-- C25, as stated, fails on a configured RTC whose hardware is ready at once:
the last step of the run, `_statusFlagChange(BACKUP_ALARM_SET_FLAG, true)`, runs
with global interrupts enabled, so not every step lies inside the bracket. -/
theorem setAlarmFromEpoch_irq_bracket_counterexample :
    getEpoch RTC.configured < 200 ∧
    (setAlarmFromEpochLog Env.ready 1 200 RTC.configured).map (fun r => r.1.getLast?)
      = some (some (ArmStep.recordAlarmSet, true)) ∧
    (setAlarmFromEpochLog Env.ready 1 200 RTC.configured).map
        (fun r => r.1.all (fun x => !x.2))
      = some false :=
  ⟨by decide, by decide, by decide⟩


/-! ## The backup registers in `blue_pill_rtc.cpp` -/

theorem writeBackupLoop_length (words : Nat → Nat) :
    ∀ (n i x : Nat) (bkp : Nat → Nat) (cells : List Nat),
      (BLUE_PILL_RTC.writeBackupLoop words n i x bkp cells).2.length = cells.length + n := by
  intro n
  induction n with
  | zero => intro i x bkp cells; rfl
  | succ n ih =>
    intro i x bkp cells
    unfold BLUE_PILL_RTC.writeBackupLoop
    simp only
    rw [ih, List.length_append, List.length_singleton]
    omega

theorem readBackupLoop_length (bkp : Nat → Nat) :
    ∀ (n i x : Nat) (words : Nat → Nat) (cells : List Nat),
      (BLUE_PILL_RTC.readBackupLoop bkp n i x words cells).2.length = cells.length + n := by
  intro n
  induction n with
  | zero => intro i x words cells; rfl
  | succ n ih =>
    intro i x words cells
    unfold BLUE_PILL_RTC.readBackupLoop
    simp only
    rw [ih, List.length_append, List.length_singleton]
    omega

/-- The number of registers `writeBackup` stores to is the value of `len` after
the clamp. -/
theorem writeBackup_count (words : Nat → Nat) (indx len : Nat) (bkp : Nat → Nat) :
    (BLUE_PILL_RTC.writeBackup words indx len bkp).2.length
      = if indx + len > 42 then wrap8 (42 - (indx : Int)) else len := by
  unfold BLUE_PILL_RTC.writeBackup
  simp only
  rw [writeBackupLoop_length]
  simp

/-- The number of registers `readBackup` loads from is the value of `len` after
the clamp. -/
theorem readBackup_count (words : Nat → Nat) (indx len : Nat) (bkp : Nat → Nat) :
    (BLUE_PILL_RTC.readBackup words indx len bkp).2.length
      = if indx + len > 42 then wrap8 (42 - (indx : Int)) else len := by
  unfold BLUE_PILL_RTC.readBackup
  simp only
  rw [readBackupLoop_length]
  simp

/-- For a start index up to 42 the clamp works: at most `42 - indx` registers
are accessed. -/
theorem writeBackup_count_le (words : Nat → Nat) (indx len : Nat) (bkp : Nat → Nat)
    (hi : indx ≤ 42) :
    (BLUE_PILL_RTC.writeBackup words indx len bkp).2.length ≤ 42 - indx ∧
    (BLUE_PILL_RTC.readBackup words indx len bkp).2.length ≤ 42 - indx := by
  rw [writeBackup_count, readBackup_count]
  unfold wrap8
  constructor <;> split <;> omega

/-- For a start index from 43 to 255 the clamp wraps: `298 - indx` registers are
accessed, whatever `len` is. -/
theorem writeBackup_count_wrap (words : Nat → Nat) (indx len : Nat) (bkp : Nat → Nat)
    (h1 : 43 ≤ indx) (h2 : indx ≤ 255) :
    (BLUE_PILL_RTC.writeBackup words indx len bkp).2.length = 298 - indx ∧
    (BLUE_PILL_RTC.readBackup words indx len bkp).2.length = 298 - indx := by
  rw [writeBackup_count, readBackup_count]
  unfold wrap8
  constructor <;> split <;> omega

set_option maxRecDepth 100000 in
/-- C27 fails at the start index 43: with `len = 0`, `indx + len > 42` holds and
`len = 42 - indx` stores `-1` into the `uint8_t`, that is 255, so `writeBackup`
and `readBackup` each access 255 registers; with `indx = 255` and `len = 1` each
accesses 43 registers, the first of them the cell `BKP_REGS + 1044`. -/
theorem writeBackup_readBackup_past_capacity :
    (BLUE_PILL_RTC.writeBackup (fun _ => 0) 43 0 (fun _ => 0)).2.length = 255 ∧
    (BLUE_PILL_RTC.readBackup (fun _ => 0) 43 0 (fun _ => 0)).2.length = 255 ∧
    (BLUE_PILL_RTC.writeBackup (fun _ => 0) 255 1 (fun _ => 0)).2.length = 43 ∧
    (BLUE_PILL_RTC.readBackup (fun _ => 0) 255 1 (fun _ => 0)).2.length = 43 ∧
    (BLUE_PILL_RTC.writeBackup (fun _ => 7) 255 1 (fun _ => 0)).2.head? = some 1044 ∧
    (BLUE_PILL_RTC.writeBackup (fun _ => 7) 255 1 (fun _ => 0)).1 1044 = 7 := by
  refine ⟨?_, ?_, ?_, ?_, ?_, ?_⟩
  · rw [writeBackup_count]; decide
  · rw [readBackup_count]; decide
  · rw [writeBackup_count]; decide
  · rw [readBackup_count]; decide
  · decide
  · decide


/-! ## The conversions of `blue_pill_rtc.cpp` and those of `STM32LIBS_RTC.cpp` -/

theorem LEAP_YEAR_eq (Y : Nat) : LEAP_YEAR Y = IS_LEAP_YEAR Y := rfl

/-- The year loop of `timeExpand` leaves by its test, at the year that contains
the day; the `uint8_t` year does not wrap for a year offset below 255. -/
theorem timeExpand_yearLoop_exit (time : Nat) (htime : time + 366 < 2 ^ 32) :
    ∀ n k y, k ≤ y → y < n + k → y + 1 < 2 ^ 8 → daysBeforeYear y ≤ time →
      time < daysBeforeYear (y + 1) →
      BLUE_PILL_RTC.yearLoop time n (daysBeforeYear k) k = (daysBeforeYear (y + 1), y) := by
  intro n
  induction n with
  | zero => intro k y h1 h2; omega
  | succ n ih =>
    intro k y hky hyn hy8 hlo hhi
    have hstep : (daysBeforeYear k + (if LEAP_YEAR k then 366 else 365)) % 2 ^ 32
        = daysBeforeYear (k + 1) := by
      have h1 : daysBeforeYear (k + 1) ≤ daysBeforeYear (y + 1) :=
        daysBeforeYear_mono (by omega)
      have h2 := (yearDays_bounds y).2
      have h3 := daysBeforeYear_succ y
      have h4 : daysBeforeYear (k + 1)
          = daysBeforeYear k + (if LEAP_YEAR k then 366 else 365) := rfl
      rw [← h4]
      exact Nat.mod_eq_of_lt (by omega)
    unfold BLUE_PILL_RTC.yearLoop
    simp only [hstep]
    by_cases hle : daysBeforeYear (k + 1) ≤ time
    · have hlt : k < y := by
        rcases Nat.lt_or_ge k y with h | h
        · exact h
        · have : k = y := by omega
          subst this; omega
      rw [if_pos hle, Nat.mod_eq_of_lt (by omega)]
      exact ih (k + 1) y (by omega) (by omega) hy8 hlo hhi
    · have hk : k = y := by
        rcases Nat.lt_or_ge k y with h | h
        · have := daysBeforeYear_mono (show k + 1 ≤ y by omega)
          omega
        · omega
      subst hk
      rw [if_neg hle]

/-- The month loops of the two drivers compute the same. -/
theorem timeExpand_monthLoop_eq (Y : Nat) :
    ∀ n m t, BLUE_PILL_RTC.monthLoop Y n m t = monthLoop Y n m t := by
  intro n
  induction n with
  | zero => intro m t; rfl
  | succ n ih =>
    intro m t
    unfold BLUE_PILL_RTC.monthLoop monthLoop
    simp only [ih]
    rfl

/-- What `timeExpand` stores, given the year `Y` and the month `m` that contain
day `e / 86400`. -/
theorem timeExpand_eq (d : _dateTimeStruct) (e Y m : Nat) (he : e < 2 ^ 32)
    (hY1 : daysBeforeYear Y ≤ e / 86400) (hY2 : e / 86400 < daysBeforeYear (Y + 1))
    (hm : m < 12) (hm1 : daysBeforeMonth Y m ≤ e / 86400 - daysBeforeYear Y)
    (hm2 : e / 86400 - daysBeforeYear Y < daysBeforeMonth Y (m + 1)) :
    BLUE_PILL_RTC.timeExpand d e =
      { d with
        timestamp := e
        seconds := e % 60
        minutes := e / 60 % 60
        hours := e / 3600 % 24
        weekday := (e / 86400 + 4) % 7
        year := Y
        month := m + 1
        day := e / 86400 - daysBeforeYear Y - daysBeforeMonth Y m + 1 } := by
  have ht : e / 3600 / 24 = e / 86400 := by omega
  have h36 : e / 60 / 60 = e / 3600 := by omega
  have htb : e / 86400 ≤ 49710 := by omega
  have hYb := daysBeforeYear_ge Y
  have hY136 := year_le_136 _ Y htb hY1
  have hyl := timeExpand_yearLoop_exit (e / 86400) (by omega) (e / 86400 + 1) 0 Y (by omega)
    (by omega) (by omega) hY1 hY2
  have hd0 : daysBeforeYear 0 = 0 := rfl
  rw [hd0] at hyl
  have hyd := yearDays_bounds Y
  have hsucc := daysBeforeYear_succ Y
  have hdays : (daysBeforeYear (Y + 1) + 2 ^ 32 - (if LEAP_YEAR Y then 366 else 365)) % 2 ^ 32
      = daysBeforeYear Y := by
    have : (if LEAP_YEAR Y then 366 else 365) = yearDays Y := rfl
    rw [this]; omega
  have htime : (e / 86400 + 2 ^ 32 - daysBeforeYear Y) % 2 ^ 32 = e / 86400 - daysBeforeYear Y := by
    omega
  have hml := monthLoop_exit Y 12 0 m (e / 86400 - daysBeforeYear Y) (by omega) (by omega) hm
    (by simpa [daysBeforeMonth] using hm1) (by simpa [daysBeforeMonth] using hm2)
  have hmlen := monthLen_le Y m hm
  have hmsucc := daysBeforeMonth_succ Y m
  unfold BLUE_PILL_RTC.timeExpand
  simp only [ht, h36, hyl, hdays, htime, timeExpand_monthLoop_eq, hml]
  have hw : (e / 86400 + 4) % 7 % 2 ^ 8 = (e / 86400 + 4) % 7 := by omega
  have hmo : (m + 1) % 2 ^ 8 = m + 1 := by omega
  have hdy : (e / 86400 - daysBeforeYear Y + daysBeforeMonth Y 0 - daysBeforeMonth Y m + 1) % 2 ^ 8
      = e / 86400 - daysBeforeYear Y - daysBeforeMonth Y m + 1 := by
    have : daysBeforeMonth Y 0 = 0 := rfl
    rw [this]; omega
  rw [hw, hmo, hdy]

theorem timeCompress_leapYearLoop_eq (Y s : Nat) :
    BLUE_PILL_RTC.leapYearLoop Y s = leapYearLoop Y s := rfl

/-- The month sums of the two drivers agree as long as neither reads beyond its
table, that is for `month ≤ 13`. -/
theorem timeCompress_monthSecondsLoop_eq (pastA pastB : Nat → Nat) (Y month s : Nat)
    (hm : month ≤ 13) :
    BLUE_PILL_RTC.monthSecondsLoop pastB Y month s = monthSecondsLoop pastA Y month s := by
  unfold BLUE_PILL_RTC.monthSecondsLoop monthSecondsLoop
  apply List.foldl_ext
  intro acc i hi
  have hi2 := List.mem_range'_1.mp hi
  have hlt : i - 1 < 12 := by omega
  have h1 : BLUE_PILL_RTC.monthDaysAt pastB (i - 1) = monthDaysAt pastA (i - 1) := by
    unfold BLUE_PILL_RTC.monthDaysAt monthDaysAt
    rw [if_pos hlt, if_pos hlt]
    rfl
  rw [h1, LEAP_YEAR_eq]

/-- C26: the two drivers implement the same conversion.  For every 32-bit epoch
`e`, `BLUE_PILL_RTC::timeExpand(e)` gives the seconds, minutes, hours, weekday, day
and month of `STM32LIBS_RTC::epochToDateTime(e)` and a year offset `y` with `1970 + y`
equal to its year.  For every calendar value `c` with a year offset in 0..255
(and a month up to 13, so that neither driver reads beyond its month table),
`BLUE_PILL_RTC::timeCompress(c)` returns the epoch `STM32LIBS_RTC::dateTimeToEpoch`
returns on the same fields with the year `1970 + y`. -/
theorem timeExpand_timeCompress_agree (pastA pastB : Nat → Nat) (d c : _dateTimeStruct)
    (dt : RTC_datetime_t) (e : Nat) (he : e < 2 ^ 32) (hy : c.year ≤ 255)
    (hm : c.month ≤ 13) :
    ((BLUE_PILL_RTC.timeExpand d e).seconds = (epochToDateTime dt e).seconds ∧
      (BLUE_PILL_RTC.timeExpand d e).minutes = (epochToDateTime dt e).minutes ∧
      (BLUE_PILL_RTC.timeExpand d e).hours = (epochToDateTime dt e).hours ∧
      (BLUE_PILL_RTC.timeExpand d e).weekday = (epochToDateTime dt e).weekday ∧
      (BLUE_PILL_RTC.timeExpand d e).day = (epochToDateTime dt e).day ∧
      (BLUE_PILL_RTC.timeExpand d e).month = (epochToDateTime dt e).month ∧
      1970 + (BLUE_PILL_RTC.timeExpand d e).year = (epochToDateTime dt e).year ∧
      (BLUE_PILL_RTC.timeExpand d e).timestamp = (epochToDateTime dt e).epoch) ∧
    (BLUE_PILL_RTC.timeCompress pastB c).1 =
      (dateTimeToEpoch pastA
        { hour_format := c.hour_format
          am_pm := if c.am_pm then RTC_HOUR_PM else RTC_HOUR_AM
          seconds := c.seconds
          minutes := c.minutes
          hours := c.hours
          epoch := c.timestamp
          day := c.day
          weekday := c.weekday
          month := c.month
          year := 1970 + c.year }).1 := by
  constructor
  · obtain ⟨Y, hYt, hY1, hY2⟩ := exists_year (e / 86400)
    have hsucc := daysBeforeYear_succ Y
    obtain ⟨m, hm, hm1, hm2⟩ := exists_month Y (e / 86400 - daysBeforeYear Y) (by omega)
    rw [epochToDateTime_eq dt e Y m he hY1 hY2 hm hm1 hm2,
      timeExpand_eq d e Y m he hY1 hY2 hm hm1 hm2]
    simp only
    refine ⟨trivial, trivial, trivial, trivial, trivial, trivial, by omega, trivial⟩
  · have h16 : toInt16 (((1970 + c.year : Nat) : Int) - 1970) = (c.year : Int) := by
      unfold toInt16; push_cast; omega
    have hyear : (if toInt16 (((1970 + c.year : Nat) : Int) - 1970) < 0 then 0
        else (toInt16 (((1970 + c.year : Nat) : Int) - 1970)).toNat) = c.year := by
      rw [h16]; simp
    unfold BLUE_PILL_RTC.timeCompress dateTimeToEpoch
    simp only [hyear, timeCompress_leapYearLoop_eq,
      timeCompress_monthSecondsLoop_eq pastA pastB _ _ _ hm]

/-- C26, at the last epoch `0xFFFFFFFF` and for 2106-02-07T06:28:15 with the year
offset 136. -/
theorem timeExpand_timeCompress_agree_witness :
    4294967295 < 2 ^ 32 ∧ (136 : Nat) ≤ 255 ∧ (2 : Nat) ≤ 13 ∧
    1970 + (BLUE_PILL_RTC.timeExpand ⟨1, false, 0, 0, 0, 0, 0, 0, 0, 0⟩ 4294967295).year
      = (epochToDateTime ⟨1, 0, 0, 0, 0, 0, 0, 0, 0, 0⟩ 4294967295).year ∧
    (BLUE_PILL_RTC.timeCompress (fun _ => 0) ⟨1, false, 15, 28, 6, 0, 0, 7, 2, 136⟩).1 =
      (dateTimeToEpoch (fun _ => 255)
        { hour_format := 1
          am_pm := RTC_HOUR_AM
          seconds := 15
          minutes := 28
          hours := 6
          epoch := 0
          day := 7
          weekday := 0
          month := 2
          year := 1970 + 136 }).1 := by
  obtain ⟨⟨-, -, -, -, -, -, h7, -⟩, h2⟩ :=
    timeExpand_timeCompress_agree (fun _ => 255) (fun _ => 0)
      ⟨1, false, 0, 0, 0, 0, 0, 0, 0, 0⟩ ⟨1, false, 15, 28, 6, 0, 0, 7, 2, 136⟩
      ⟨1, 0, 0, 0, 0, 0, 0, 0, 0, 0⟩ 4294967295 (by decide) (by decide) (by decide)
  exact ⟨by decide, by decide, by decide, h7, h2⟩


end STM32LIBS_RTC

